import Mathlib

/-!
Verification of the NavigationDemo C++ navigation core against its
natural-language specification.  The C++ sources (road_graph.cpp,
routing_engine.cpp, route_matcher.cpp, location_filter.cpp) are shallowly
embedded below: `double` becomes `ℝ` (exact real arithmetic; the filter
additionally tracks NaN-ness explicitly where the code's behavior on
non-finite input matters), integer truncation casts become explicit
round-toward-zero operations, and the wall clock, `rand`-based jitter and
route-id generation become oracle parameters.
-/

set_option maxHeartbeats 1000000

noncomputable section

namespace Nav

set_option linter.unusedVariables false

open scoped Classical

/-- Round toward zero, as C's `static_cast<int>` / `(long long)` on a real
value (truncation). -/
def truncR (x : ℝ) : ℤ :=
  if 0 ≤ x then ⌊x⌋ else ⌈x⌉

/-- C's `fmod` on reals: `x - m * trunc (x / m)`. -/
def fmodR (x m : ℝ) : ℝ :=
  x - m * (truncR (x / m) : ℝ)

/-- C's `atan2(y, x)`, written with `Real.arctan` on each quadrant. -/
def atan2 (y x : ℝ) : ℝ :=
  if 0 < x then Real.arctan (y / x)
  else if x < 0 then
    (if 0 ≤ y then Real.arctan (y / x) + Real.pi
     else Real.arctan (y / x) - Real.pi)
  else
    (if 0 < y then Real.pi / 2
     else if y < 0 then -(Real.pi / 2)
     else 0)

/-- `RoadGraph::haversineDistance` (road_graph.cpp:201-217): spherical
distance from the haversine formula with earth radius 6371000 m. -/
def haversineDistance (lat1 lon1 lat2 lon2 : ℝ) : ℝ :=
  let lat1r := lat1 * (Real.pi / 180)
  let lon1r := lon1 * (Real.pi / 180)
  let lat2r := lat2 * (Real.pi / 180)
  let lon2r := lon2 * (Real.pi / 180)
  let dLat := lat2r - lat1r
  let dLon := lon2r - lon1r
  let a := Real.sin (dLat / 2) * Real.sin (dLat / 2) +
      Real.cos lat1r * Real.cos lat2r *
        (Real.sin (dLon / 2) * Real.sin (dLon / 2))
  let c := 2 * atan2 (Real.sqrt a) (Real.sqrt (1 - a))
  6371000 * c

/-- `calculateBearing` (routing_engine.cpp:867-883 and the identical
route_matcher.cpp:573-588): initial great-circle bearing in [0, 360). -/
def calculateBearing (lat1 lon1 lat2 lon2 : ℝ) : ℝ :=
  let lat1r := lat1 * (Real.pi / 180)
  let lon1r := lon1 * (Real.pi / 180)
  let lat2r := lat2 * (Real.pi / 180)
  let lon2r := lon2 * (Real.pi / 180)
  let dLon := lon2r - lon1r
  let y := Real.sin dLon * Real.cos lat2r
  let x := Real.cos lat1r * Real.sin lat2r -
      Real.sin lat1r * Real.cos lat2r * Real.cos dLon
  let bearing := atan2 y x * 180 / Real.pi
  fmodR (bearing + 360) 360

/-! ### The haversine formula as a spherical metric

We relate `haversineDistance` to the arccosine of the dot product of the
unit vectors of the two coordinates, and derive nonnegativity, vanishing
on the diagonal, and the triangle inequality.  These hold for all real
inputs, because the unit vectors have norm 1 regardless of range. -/
/-- Triples of reals, used as vectors in ℝ³. -/
def V3 : Type := ℝ × ℝ × ℝ

/-- Dot product on ℝ³. -/
def dot3 (u v : V3) : ℝ :=
  u.1 * v.1 + u.2.1 * v.2.1 + u.2.2 * v.2.2

/-- Unit vector of a point on the sphere given in radians. -/
def unit3 (lat lon : ℝ) : V3 :=
  (Real.cos lat * Real.cos lon, Real.cos lat * Real.sin lon, Real.sin lat)

/-! ## Road graph and spatial index (road_graph.cpp / road_graph.h) -/
/-- `enum class RoadType` (road_graph.h:19-25). -/
inductive RoadType where
  | HIGHWAY
  | PRIMARY
  | SECONDARY
  | RESIDENTIAL
  | SERVICE
deriving DecidableEq, Repr

/-- `struct RoadSegment` (road_graph.h:29-41).  The two `Node*` fields are
indices into the graph's node heap; `start` and `end` keep their roles under
the names `startN`/`endN` (`end` is reserved in Lean).  The unused
`priority`/`turnCosts` fields are omitted. -/
structure RoadSegmentObj where
  startN : ℕ
  endN : ℕ
  name : String
  speedLimit : ℝ
  type : RoadType
  length : ℝ
  id : ℤ
  isOneway : Bool

instance : Inhabited RoadSegmentObj :=
  ⟨⟨0, 0, "", 0, RoadType.RESIDENTIAL, 0, 0, false⟩⟩

/-- `struct Node` (road_graph.h:43-48); `segments` holds indices into the
graph's segment store (C++ `RoadSegment*`). -/
structure NodeObj where
  id : String
  latitude : ℝ
  longitude : ℝ
  segments : List ℕ

instance : Inhabited NodeObj := ⟨⟨"", 0, 0, []⟩⟩

/-- `class SpatialIndex` (road_graph.cpp:21-93).  The C++ buckets are keyed
by the string `to_string(latCell) + "," + to_string(lonCell)`, which is in
bijection with the pair `(latCell, lonCell)`; we key by the pair.  Segments
are stored as indices into the graph's segment store. -/
structure SpatialIndex where
  cellSize : ℝ
  cells : ℤ × ℤ → List ℕ
  allSegments : List ℕ

/-- A fresh `SpatialIndex(cellSize)`. -/
def SpatialIndex.init (cs : ℝ) : SpatialIndex :=
  ⟨cs, fun _ => [], []⟩

/-- `SpatialIndex::addSegment` (road_graph.cpp:33-53): append the segment
to every cell whose index lies in the bounding-box rectangle of the two
endpoints, and to the flat `allSegments` list. -/
def SpatialIndex.addSegment (idx : SpatialIndex) (seg : ℕ)
    (startLat startLon endLat endLon : ℝ) : SpatialIndex :=
  let minLat := min startLat endLat
  let maxLat := max startLat endLat
  let minLon := min startLon endLon
  let maxLon := max startLon endLon
  let minLatCell := truncR (minLat / idx.cellSize)
  let maxLatCell := truncR (maxLat / idx.cellSize)
  let minLonCell := truncR (minLon / idx.cellSize)
  let maxLonCell := truncR (maxLon / idx.cellSize)
  { idx with
    cells := fun key =>
      if minLatCell ≤ key.1 ∧ key.1 ≤ maxLatCell ∧
          minLonCell ≤ key.2 ∧ key.2 ≤ maxLonCell then
        idx.cells key ++ [seg]
      else idx.cells key
    allSegments := idx.allSegments ++ [seg] }

/-- The list `[-r, …, r]` of integer offsets scanned by the nested loops of
`findNearby`. -/
def offsetsOf (r : ℤ) : List ℤ :=
  (List.range (2 * r + 1).toNat).map (fun k : ℕ => -r + (k : ℤ))

/-- `SpatialIndex::findNearby` (road_graph.cpp:55-87): collect the distinct
segments of all cells within `cellRadius` of the query point's cell (the
C++ `unordered_set` becomes first-occurrence deduplication); if that set is
empty and the radius exceeds 1000 m, fall back to `allSegments`. -/
def SpatialIndex.findNearby (idx : SpatialIndex) (lat lon radiusMeters : ℝ) :
    List ℕ :=
  let latCell := truncR (lat / idx.cellSize)
  let lonCell := truncR (lon / idx.cellSize)
  let degreesRadius := radiusMeters / 111000
  let cellRadius := max 1 (truncR (degreesRadius / idx.cellSize) + 1)
  let offs := offsetsOf cellRadius
  let segmentSet :=
    (offs.flatMap (fun i => offs.flatMap (fun j =>
      idx.cells (latCell + i, lonCell + j)))).dedup
  if segmentSet = [] ∧ radiusMeters > 1000 then idx.allSegments else segmentSet

/-- `class RoadGraph` (road_graph.h:50-80).  C++ pointers become indices:
`nodeHeap` lists every `Node` object ever allocated (objects are never
mutated except for `segments` push-backs), `nodes` is the id map, and
`segments` is the segment store (index = identity). -/
structure RoadGraph where
  nodeHeap : List NodeObj
  nodes : String → Option ℕ
  segments : List RoadSegmentObj
  spatialIndex : SpatialIndex
  nextSegmentId : ℤ

/-- `RoadGraph::RoadGraph` (road_graph.cpp:95-99): empty graph with a
0.001-degree spatial index and `nextSegmentId = 1`. -/
def RoadGraph.init : RoadGraph :=
  ⟨[], fun _ => none, [], SpatialIndex.init 0.001, 1⟩

/-- Dereference a node pointer. -/
def RoadGraph.nodeAt (g : RoadGraph) (i : ℕ) : NodeObj :=
  g.nodeHeap.getD i default

/-- Dereference a segment pointer. -/
def RoadGraph.segAt (g : RoadGraph) (i : ℕ) : RoadSegmentObj :=
  g.segments.getD i default

/-- `RoadGraph::getNode` (road_graph.cpp:121-127). -/
def RoadGraph.getNode (g : RoadGraph) (id : String) : Option ℕ :=
  g.nodes id

/-- `RoadGraph::addNode` (road_graph.cpp:163-172): always allocate a fresh
`Node`, store it in the map under `id` (replacing and destroying any node
previously bound to `id`), and return the fresh node. -/
def RoadGraph.addNode (g : RoadGraph) (id : String) (lat lon : ℝ) :
    ℕ × RoadGraph :=
  let nodePtr := g.nodeHeap.length
  (nodePtr,
    { g with
      nodeHeap := g.nodeHeap ++ [⟨id, lat, lon, []⟩]
      nodes := fun s => if s = id then some nodePtr else g.nodes s })

/-- `RoadGraph::addSegment` (road_graph.cpp:174-199): build the segment
with `length = haversineDistance` of its endpoints and the next id, link it
into `start->segments`, register it in the spatial index, and append it to
the store. -/
def RoadGraph.addSegment (g : RoadGraph) (start endN : ℕ) (name : String)
    (speedLimit : ℝ) (type : RoadType) : ℕ × RoadGraph :=
  let sNode := g.nodeAt start
  let eNode := g.nodeAt endN
  let len := haversineDistance sNode.latitude sNode.longitude
    eNode.latitude eNode.longitude
  let segIdx := g.segments.length
  let seg : RoadSegmentObj :=
    ⟨start, endN, name, speedLimit, type, len, g.nextSegmentId, false⟩
  (segIdx,
    { g with
      nodeHeap := g.nodeHeap.set start
        { sNode with segments := sNode.segments ++ [segIdx] }
      segments := g.segments ++ [seg]
      spatialIndex := g.spatialIndex.addSegment segIdx
        sNode.latitude sNode.longitude eNode.latitude eNode.longitude
      nextSegmentId := g.nextSegmentId + 1 })

/-- `RoadGraph::findNearbyRoads` (road_graph.cpp:114-119). -/
def RoadGraph.findNearbyRoads (g : RoadGraph) (lat lon radius : ℝ) : List ℕ :=
  g.spatialIndex.findNearby lat lon radius

/-- One insertion into the spatial index: segment id plus the endpoint
coordinates `addSegment` was called with. -/
structure SegInsert where
  seg : ℕ
  startLat : ℝ
  startLon : ℝ
  endLat : ℝ
  endLon : ℝ

/-- A spatial index populated by a sequence of `addSegment` calls on a
fresh 0.001-degree index (as `RoadGraph` does). -/
def buildIndex (inserts : List SegInsert) : SpatialIndex :=
  inserts.foldl
    (fun idx e => idx.addSegment e.seg e.startLat e.startLon e.endLat e.endLon)
    (SpatialIndex.init 0.001)

/-! ## Location filter (location_filter.cpp / location_filter.h)

The filter operates on `double`/`float` values whose NaN behavior is
observable (the code checks `isnan` on bearing and speed, and the spec
discusses non-finite latitude/longitude), so its numbers are modeled as a
real number together with a NaN flag.  Arithmetic propagates NaN and
comparisons involving NaN are false, as in IEEE-754; infinities and signed
zero are not modeled (no claim depends on them), and division is only
exercised with nonzero divisors. -/
/-- A C `double`: a real value together with a NaN flag.  When `nan` is
true the `val` field is the junk residue of the arithmetic and carries no
meaning. -/
structure FD where
  nan : Bool
  val : ℝ

/-- A finite double. -/
def FD.ofReal (x : ℝ) : FD := ⟨false, x⟩

@[simp] theorem FD.ofReal_nan (x : ℝ) : (FD.ofReal x).nan = false := rfl
@[simp] theorem FD.ofReal_val (x : ℝ) : (FD.ofReal x).val = x := rfl
def FD.add (a b : FD) : FD := ⟨a.nan || b.nan, a.val + b.val⟩

def FD.sub (a b : FD) : FD := ⟨a.nan || b.nan, a.val - b.val⟩

def FD.mul (a b : FD) : FD := ⟨a.nan || b.nan, a.val * b.val⟩

def FD.div (a b : FD) : FD := ⟨a.nan || b.nan, a.val / b.val⟩

def FD.abs (a : FD) : FD := ⟨a.nan, |a.val|⟩

/-- `sqrt`: NaN on NaN or negative input. -/
def FD.sqrt (a : FD) : FD :=
  ⟨if a.val < 0 then true else a.nan, Real.sqrt a.val⟩

/-- IEEE `<`: false whenever either side is NaN. -/
def FD.lt (a b : FD) : Prop :=
  a.nan = false ∧ b.nan = false ∧ a.val < b.val

instance (a b : FD) : Decidable (FD.lt a b) := by
  unfold FD.lt
  infer_instance

/-- `std::max(a, b) = (a < b) ? b : a`. -/
def FD.maxC (a b : FD) : FD := if FD.lt a b then b else a

/-- `std::min(a, b) = (b < a) ? b : a`. -/
def FD.minC (a b : FD) : FD := if FD.lt b a then b else a

/-- `std::copysign(m, s)`: magnitude of `m` with the sign of `s` (for the
model, nonnegative `s.val` counts as positive sign; signed zero is not
modeled). -/
def FD.copysign (m s : FD) : FD :=
  ⟨m.nan, if s.val < 0 then -|m.val| else |m.val|⟩

/-- `atan2` on doubles. -/
def FD.atan2F (y x : FD) : FD := ⟨y.nan || x.nan, atan2 y.val x.val⟩

@[simp] theorem FD.add_nan (a b : FD) : (FD.add a b).nan = (a.nan || b.nan) := rfl
@[simp] theorem FD.add_val (a b : FD) : (FD.add a b).val = a.val + b.val := rfl
@[simp] theorem FD.sub_nan (a b : FD) : (FD.sub a b).nan = (a.nan || b.nan) := rfl
@[simp] theorem FD.sub_val (a b : FD) : (FD.sub a b).val = a.val - b.val := rfl
@[simp] theorem FD.mul_nan (a b : FD) : (FD.mul a b).nan = (a.nan || b.nan) := rfl
@[simp] theorem FD.mul_val (a b : FD) : (FD.mul a b).val = a.val * b.val := rfl
@[simp] theorem FD.div_nan (a b : FD) : (FD.div a b).nan = (a.nan || b.nan) := rfl
@[simp] theorem FD.div_val (a b : FD) : (FD.div a b).val = a.val / b.val := rfl
@[simp] theorem FD.abs_nan (a : FD) : (FD.abs a).nan = a.nan := rfl
@[simp] theorem FD.abs_val (a : FD) : (FD.abs a).val = |a.val| := rfl
@[simp] theorem FD.copysign_nan (m s : FD) : (FD.copysign m s).nan = m.nan := rfl
@[simp] theorem FD.atan2F_nan (y x : FD) :
    (FD.atan2F y x).nan = (y.nan || x.nan) := rfl
@[simp] theorem FD.atan2F_val (y x : FD) :
    (FD.atan2F y x).val = atan2 y.val x.val := rfl
/-- The `Location` struct (location_filter.h:7-19) as consumed by the
filter, with NaN-able fields. -/
structure FLocation where
  latitude : FD
  longitude : FD
  bearing : FD
  speed : FD
  accuracy : FD

/-- The mutable members of `LocationFilter` (location_filter.h:28-45). -/
structure LocationFilterState where
  initialized : Bool
  lat : FD
  lon : FD
  lat_vel : FD
  lon_vel : FD
  positionVariance : FD
  velocityVariance : FD
  processNoisePosition : ℝ
  processNoiseVelocity : ℝ
  measurementNoise : ℝ
  lastTimestamp : ℤ

/-- `LocationFilter::LocationFilter` (location_filter.cpp:16-33). -/
def LocationFilter.initState : LocationFilterState :=
  ⟨false, FD.ofReal 0, FD.ofReal 0, FD.ofReal 0, FD.ofReal 0,
    FD.ofReal 10, FD.ofReal 5, 0.01, 0.1, 5, 0⟩

/-- The extreme-velocity-change clamp (location_filter.cpp:99-106): if
either component's change exceeds `MAX_VELOCITY_CHANGE = 10`, replace
both components by the old value plus `copysign(10, change)`. -/
def clampVelocities (lat_vel lon_vel new_lat_vel new_lon_vel : FD) : FD × FD :=
  if FD.lt (FD.ofReal 10) (FD.abs (FD.sub new_lat_vel lat_vel)) ∨
      FD.lt (FD.ofReal 10) (FD.abs (FD.sub new_lon_vel lon_vel)) then
    (FD.add lat_vel (FD.copysign (FD.ofReal 10) (FD.sub new_lat_vel lat_vel)),
     FD.add lon_vel (FD.copysign (FD.ofReal 10) (FD.sub new_lon_vel lon_vel)))
  else (new_lat_vel, new_lon_vel)

/-- `LocationFilter::process` (location_filter.cpp:35-146).  The wall
clock read at lines 37-39 becomes the parameter `currentTimestamp`. -/
def LocationFilter.process (st : LocationFilterState) (raw : FLocation)
    (currentTimestamp : ℤ) : FLocation × LocationFilterState :=
  if st.initialized = false then
    (raw,
      { st with
        lat := raw.latitude
        lon := raw.longitude
        lat_vel := FD.ofReal 0
        lon_vel := FD.ofReal 0
        initialized := true
        lastTimestamp := currentTimestamp })
  else
    let dt0 : ℝ := ((currentTimestamp - st.lastTimestamp : ℤ) : ℝ) / 1000
    let dt : ℝ := if dt0 ≤ 0 ∨ dt0 > 10 then 0.1 else dt0
    let adaptedNoise : FD :=
      if FD.lt (FD.ofReal 0) raw.accuracy then
        FD.mul (FD.ofReal 5) (FD.div raw.accuracy (FD.ofReal 10))
      else FD.ofReal 5
    let predictedLat := FD.add st.lat (FD.mul st.lat_vel (FD.ofReal dt))
    let predictedLon := FD.add st.lon (FD.mul st.lon_vel (FD.ofReal dt))
    let predictedPosVar :=
      FD.add (FD.add st.positionVariance (FD.ofReal st.processNoisePosition))
        (FD.mul (FD.mul st.velocityVariance (FD.ofReal dt)) (FD.ofReal dt))
    let predictedVelVar :=
      FD.add st.velocityVariance (FD.ofReal st.processNoiseVelocity)
    let kLat0 := FD.div predictedPosVar (FD.add predictedPosVar adaptedNoise)
    let kLat := FD.maxC (FD.ofReal 0.1) (FD.minC kLat0 (FD.ofReal 0.9))
    let kLon0 := FD.div predictedPosVar (FD.add predictedPosVar adaptedNoise)
    let kLon := FD.maxC (FD.ofReal 0.1) (FD.minC kLon0 (FD.ofReal 0.9))
    let lat1 := FD.add predictedLat (FD.mul kLat (FD.sub raw.latitude predictedLat))
    let lon1 := FD.add predictedLon (FD.mul kLon (FD.sub raw.longitude predictedLon))
    let new_lat_vel0 := FD.div (FD.sub raw.latitude predictedLat) (FD.ofReal dt)
    let new_lon_vel0 := FD.div (FD.sub raw.longitude predictedLon) (FD.ofReal dt)
    let clamped := clampVelocities st.lat_vel st.lon_vel new_lat_vel0 new_lon_vel0
    let lat_vel1 := FD.add (FD.mul st.lat_vel (FD.ofReal 0.7))
      (FD.mul clamped.1 (FD.ofReal 0.3))
    let lon_vel1 := FD.add (FD.mul st.lon_vel (FD.ofReal 0.7))
      (FD.mul clamped.2 (FD.ofReal 0.3))
    let posVar1 := FD.mul (FD.sub (FD.ofReal 1) kLat) predictedPosVar
    let velVar1 := FD.mul (FD.sub (FD.ofReal 1) kLat) predictedVelVar
    let velocityMagnitude :=
      FD.sqrt (FD.add (FD.mul lat_vel1 lat_vel1) (FD.mul lon_vel1 lon_vel1))
    let movingFast := FD.lt (FD.ofReal 0.00001) velocityMagnitude
    let calculatedBearing : FD :=
      if movingFast then
        let b0 := FD.div (FD.mul (FD.atan2F lon_vel1 lat_vel1) (FD.ofReal 180))
          (FD.ofReal Real.pi)
        if FD.lt b0 (FD.ofReal 0) then FD.add b0 (FD.ofReal 360) else b0
      else raw.bearing
    let calculatedSpeed : FD :=
      if movingFast then FD.mul velocityMagnitude (FD.ofReal 111000)
      else raw.speed
    (⟨lat1, lon1,
      (if raw.bearing.nan then calculatedBearing else raw.bearing),
      (if raw.speed.nan then calculatedSpeed else raw.speed),
      FD.mul raw.accuracy (FD.ofReal 0.8)⟩,
      { st with
        lat := lat1
        lon := lon1
        lat_vel := lat_vel1
        lon_vel := lon_vel1
        positionVariance := posVar1
        velocityVariance := velVar1
        lastTimestamp := currentTimestamp })

/-- The `Location` struct (location_filter.h:7-19) with real fields, as
used by the routing engine and route matcher.  The 4-argument constructor
used throughout those files leaves `accuracy = 0`. -/
structure Location where
  latitude : ℝ
  longitude : ℝ
  bearing : ℝ
  speed : ℝ
  accuracy : ℝ

instance : Inhabited Location := ⟨⟨0, 0, 0, 0, 0⟩⟩

/-- `struct Route` (route_matcher.h:26-31). -/
structure Route where
  id : String
  name : String
  points : List Location
  durationSeconds : ℤ

/-- `struct RouteMatch` (route_matcher.h:16-24). -/
structure RouteMatch where
  streetName : String
  nextManeuver : String
  distanceToNext : ℤ
  estimatedTimeOfArrival : String
  matchedLatitude : ℝ
  matchedLongitude : ℝ
  matchedBearing : ℝ

/-- The mutable members of `RouteMatcher` (route_matcher.h:42-46). -/
structure RouteMatcherState where
  currentRoute : Option Route
  lastLocation : Option Location
  cumulativeDistances : List ℝ
  routeSegments : List ℕ

/-- `RouteMatcher::RouteMatcher` (route_matcher.cpp:25-28). -/
def RouteMatcher.initState : RouteMatcherState := ⟨none, none, [], []⟩

/-- Matcher constants (route_matcher.cpp:20-23). -/
def MAX_DISTANCE_TO_SEGMENT : ℝ := 50.0

def BEARING_WEIGHT : ℝ := 0.5

def DISTANCE_WEIGHT : ℝ := 1.0

def SEGMENT_SEARCH_RADIUS : ℝ := 100.0

/-- The geometric core of `RouteMatcher::projectOntoSegment`
(route_matcher.cpp:404-445), on explicit endpoint coordinates (the
function is also invoked on a temporary heap segment in
`calculateSegmentToSegmentDistance`, which only carries coordinates). -/
def projectOnto (startLat startLon endLat endLon : ℝ) (loc : Location) : Location :=
  let x1 := startLon
  let y1 := startLat
  let x2 := endLon
  let y2 := endLat
  let x0 := loc.longitude
  let y0 := loc.latitude
  let dx := x2 - x1
  let dy := y2 - y1
  let segmentLengthSquared := dx * dx + dy * dy
  if segmentLengthSquared < 1e-10 then ⟨y1, x1, 0, 0, 0⟩
  else
    let t0 := ((x0 - x1) * dx + (y0 - y1) * dy) / segmentLengthSquared
    let t := max 0 (min 1 t0)
    let projX := x1 + t * dx
    let projY := y1 + t * dy
    let segmentBearing := calculateBearing y1 x1 y2 x2
    let projSpeed := loc.speed
    let segmentBearing2 :=
      if loc.speed > 0.5 then
        let locBearingRad := loc.bearing * Real.pi / 180
        let vx := Real.sin locBearingRad
        let vy := Real.cos locBearingRad
        let segmentDotProduct := dx * vx + dy * vy
        if segmentDotProduct < 0 then fmodR (segmentBearing + 180) 360
        else segmentBearing
      else segmentBearing
    ⟨projY, projX, segmentBearing2, projSpeed, 0⟩

/-- `RouteMatcher::projectOntoSegment` on a stored segment. -/
def RouteMatcher.projectOntoSegment (g : RoadGraph) (loc : Location)
    (segIdx : ℕ) : Location :=
  projectOnto (g.nodeAt (g.segAt segIdx).startN).latitude
    (g.nodeAt (g.segAt segIdx).startN).longitude
    (g.nodeAt (g.segAt segIdx).endN).latitude
    (g.nodeAt (g.segAt segIdx).endN).longitude loc

/-- `RouteMatcher::calculateSegmentToSegmentDistance`
(route_matcher.cpp:375-402). -/
def RouteMatcher.calculateSegmentToSegmentDistance
    (lat1a lon1a lat1b lon1b lat2a lon2a lat2b lon2b : ℝ) : ℝ :=
  let loc1a : Location := ⟨lat1a, lon1a, 0, 0, 0⟩
  let loc1b : Location := ⟨lat1b, lon1b, 0, 0, 0⟩
  let proj1a := projectOnto lat2a lon2a lat2b lon2b loc1a
  let proj1b := projectOnto lat2a lon2a lat2b lon2b loc1b
  let dist1a := haversineDistance lat1a lon1a proj1a.latitude proj1a.longitude
  let dist1b := haversineDistance lat1b lon1b proj1b.latitude proj1b.longitude
  min dist1a dist1b

/-- `RouteMatcher::isSegmentOnRoute` (route_matcher.cpp:101-144). -/
def RouteMatcher.isSegmentOnRoute (g : RoadGraph) (st : RouteMatcherState)
    (segIdx : ℕ) : Prop :=
  match st.currentRoute with
  | none => False
  | some route =>
    ∃ pr ∈ route.points.zip route.points.tail,
      (haversineDistance (g.nodeAt (g.segAt segIdx).startN).latitude
          (g.nodeAt (g.segAt segIdx).startN).longitude
          pr.1.latitude pr.1.longitude < 20 ∨
        haversineDistance (g.nodeAt (g.segAt segIdx).startN).latitude
          (g.nodeAt (g.segAt segIdx).startN).longitude
          pr.2.latitude pr.2.longitude < 20 ∨
        haversineDistance (g.nodeAt (g.segAt segIdx).endN).latitude
          (g.nodeAt (g.segAt segIdx).endN).longitude
          pr.1.latitude pr.1.longitude < 20 ∨
        haversineDistance (g.nodeAt (g.segAt segIdx).endN).latitude
          (g.nodeAt (g.segAt segIdx).endN).longitude
          pr.2.latitude pr.2.longitude < 20) ∨
      RouteMatcher.calculateSegmentToSegmentDistance
        (g.nodeAt (g.segAt segIdx).startN).latitude
        (g.nodeAt (g.segAt segIdx).startN).longitude
        (g.nodeAt (g.segAt segIdx).endN).latitude
        (g.nodeAt (g.segAt segIdx).endN).longitude
        pr.1.latitude pr.1.longitude pr.2.latitude pr.2.longitude < 20

/-- `RouteMatcher::calculateMatchScore` (route_matcher.cpp:324-373).
`none` models the `DBL_MAX` sentinel returned for a null segment or a
perpendicular distance beyond 50 m (real scores are below `DBL_MAX`). -/
def RouteMatcher.calculateMatchScore (g : RoadGraph) (st : RouteMatcherState)
    (segment : Option ℕ) (loc : Location) : Option ℝ :=
  match segment with
  | none => none
  | some segIdx =>
    let projected := RouteMatcher.projectOntoSegment g loc segIdx
    let perpDistance := haversineDistance loc.latitude loc.longitude
      projected.latitude projected.longitude
    if perpDistance > MAX_DISTANCE_TO_SEGMENT then none
    else
      let segmentBearing := calculateBearing
        (g.nodeAt (g.segAt segIdx).startN).latitude
        (g.nodeAt (g.segAt segIdx).startN).longitude
        (g.nodeAt (g.segAt segIdx).endN).latitude
        (g.nodeAt (g.segAt segIdx).endN).longitude
      let bearingDiff0 := |segmentBearing - loc.bearing|
      let bearingDiff := if bearingDiff0 > 180 then 360 - bearingDiff0
        else bearingDiff0
      let bearingFactor := bearingDiff / 180
      let isOnRoute := st.currentRoute.isSome = true ∧ segIdx ∈ st.routeSegments
      let routeBonus : ℝ := if isOnRoute then 0.5 else 1.0
      let speedFactor : ℝ :=
        if loc.speed > 1 then
          (if (g.segAt segIdx).speedLimit > 60 then 0.8
           else if (g.segAt segIdx).speedLimit < 30 ∧ loc.speed > 10 then 1.2
           else 1.0)
        else if loc.speed < 5 ∧ (g.segAt segIdx).speedLimit > 70 then 1.2
        else 1.0
      some ((DISTANCE_WEIGHT * perpDistance +
        BEARING_WEIGHT * bearingFactor * 50.0) * routeBonus * speedFactor)

/-- `score < bestScore` with `none` standing for `DBL_MAX`. -/
def scoreLt (a b : Option ℝ) : Prop :=
  match a, b with
  | none, _ => False
  | some _, none => True
  | some x, some y => x < y

/-- The best-segment fold of `RouteMatcher::match`
(route_matcher.cpp:71-93): accumulator is (bestSegment, bestScore,
matchedLocation), started at (null, DBL_MAX, loc). -/
def RouteMatcher.pickBest (g : RoadGraph) (st : RouteMatcherState)
    (loc : Location) (segs : List ℕ) : Option ℕ × Option ℝ × Location :=
  segs.foldl
    (fun acc seg =>
      let score := RouteMatcher.calculateMatchScore g st (some seg) loc
      if scoreLt score acc.2.1 then
        (some seg, score, RouteMatcher.projectOntoSegment g loc seg)
      else acc)
    (none, none, loc)

/-- `RouteMatcher::findClosestPointOnRoute` (route_matcher.cpp:265-322). -/
def RouteMatcher.findClosestPointOnRoute (g : RoadGraph)
    (st : RouteMatcherState) (loc : Location) : ℤ :=
  match st.currentRoute with
  | none => -1
  | some route =>
    if route.points = [] then -1
    else
      let best := route.points.enum.foldl
        (fun acc pr =>
          let dist := haversineDistance loc.latitude loc.longitude
            pr.2.latitude pr.2.longitude
          match acc with
          | none => some (pr.1, dist)
          | some b => if dist < b.2 then some (pr.1, dist) else acc)
        none
      let closestIdx : ℕ := (best.map Prod.fst).getD 0
      if (closestIdx : ℤ) < (route.points.length : ℤ) - 1 then
        let point := route.points.getD closestIdx default
        let nextPoint := route.points.getD (closestIdx + 1) default
        let distToNext := haversineDistance loc.latitude loc.longitude
          nextPoint.latitude nextPoint.longitude
        let segmentLength := haversineDistance point.latitude point.longitude
          nextPoint.latitude nextPoint.longitude
        let progress := 1 - distToNext / segmentLength
        if progress > 0.7 then
          let bearingToNext := calculateBearing loc.latitude loc.longitude
            nextPoint.latitude nextPoint.longitude
          let bearingDiff0 := |bearingToNext - loc.bearing|
          let bearingDiff := if bearingDiff0 > 180 then 360 - bearingDiff0
            else bearingDiff0
          if bearingDiff < 45 then (closestIdx : ℤ) + 1 else (closestIdx : ℤ)
        else (closestIdx : ℤ)
      else (closestIdx : ℤ)

/-- The turn test of `findNextManeuverPoint` (route_matcher.cpp:504-523):
the bearing change at index `i` of the point list exceeds 30 degrees. -/
def maneuverTurnAt (pts : List Location) (i : ℕ) : Bool :=
  let b1 := calculateBearing (pts.getD (i - 1) default).latitude
    (pts.getD (i - 1) default).longitude
    (pts.getD i default).latitude
    (pts.getD i default).longitude
  let b2 := calculateBearing (pts.getD i default).latitude
    (pts.getD i default).longitude
    (pts.getD (i + 1) default).latitude
    (pts.getD (i + 1) default).longitude
  let d0 := |b1 - b2|
  let d := if d0 > 180 then 360 - d0 else d0
  decide (d > 30)

/-- `RouteMatcher::findNextManeuverPoint` (route_matcher.cpp:496-527). -/
def RouteMatcher.findNextManeuverPoint (st : RouteMatcherState)
    (currentIndex : ℤ) : ℤ :=
  match st.currentRoute with
  | none => -1
  | some route =>
    if route.points = [] ∨ currentIndex < 0 ∨
        currentIndex ≥ (route.points.length : ℤ) then -1
    else
      let n := route.points.length
      let start := (currentIndex + 1).toNat
      let idxs := List.range' start (n - 1 - start)
      match idxs.find? (maneuverTurnAt route.points) with
      | some i => (i : ℤ)
      | none => (n : ℤ) - 1

/-- `RouteMatcher::determineNextManeuver` (route_matcher.cpp:529-571).
The two normalization `while` loops run at most once each here because the
angle is a difference of two `calculateBearing` results in `[0, 360)`. -/
def RouteMatcher.determineNextManeuver (st : RouteMatcherState)
    (currentIndex maneuverIndex : ℤ) : String :=
  match st.currentRoute with
  | none => "Follow route"
  | some route =>
    if route.points = [] ∨ currentIndex < 0 ∨ maneuverIndex ≤ currentIndex ∨
        maneuverIndex ≥ (route.points.length : ℤ) then "Follow route"
    else
      let n : ℤ := (route.points.length : ℤ)
      let currentBearing := calculateBearing
        (route.points.getD (maneuverIndex - 1).toNat default).latitude
        (route.points.getD (maneuverIndex - 1).toNat default).longitude
        (route.points.getD maneuverIndex.toNat default).latitude
        (route.points.getD maneuverIndex.toNat default).longitude
      let nextIdx : ℤ := if maneuverIndex + 1 < n then maneuverIndex + 1
        else maneuverIndex
      let nextBearing := calculateBearing
        (route.points.getD maneuverIndex.toNat default).latitude
        (route.points.getD maneuverIndex.toNat default).longitude
        (route.points.getD nextIdx.toNat default).latitude
        (route.points.getD nextIdx.toNat default).longitude
      let a0 := nextBearing - currentBearing
      let a1 := if a0 > 180 then a0 - 360 else a0
      let angle := if a1 < -180 then a1 + 360 else a1
      if |angle| < 20 then "Continue straight"
      else if 20 ≤ angle ∧ angle < 60 then "Turn slight right"
      else if 60 ≤ angle ∧ angle < 120 then "Turn right"
      else if 120 ≤ angle then "Make a sharp right"
      else if angle ≤ -20 ∧ angle > -60 then "Turn slight left"
      else if angle ≤ -60 ∧ angle > -120 then "Turn left"
      else if angle ≤ -120 then "Make a sharp left"
      else "Follow route"

/-- `RouteMatcher::createRouteMatch` (route_matcher.cpp:447-494). -/
def RouteMatcher.createRouteMatch (g : RoadGraph) (st : RouteMatcherState)
    (matched : Location) (segment : Option ℕ) (closestPointIndex : ℤ) :
    RouteMatch :=
  let streetName := match segment with
    | some s => (g.segAt s).name
    | none => "Unknown Road"
  match st.currentRoute with
  | some route =>
    if 0 ≤ closestPointIndex then
      let nextManeuverIndex := RouteMatcher.findNextManeuverPoint st
        closestPointIndex
      if nextManeuverIndex > closestPointIndex then
        ⟨streetName,
          RouteMatcher.determineNextManeuver st closestPointIndex
            nextManeuverIndex,
          truncR (st.cumulativeDistances.getD nextManeuverIndex.toNat 0 -
            st.cumulativeDistances.getD closestPointIndex.toNat 0),
          "", matched.latitude, matched.longitude, matched.bearing⟩
      else
        if closestPointIndex < (route.points.length : ℤ) - 1 then
          ⟨streetName, "Arrive at destination",
            truncR (st.cumulativeDistances.getD
                (st.cumulativeDistances.length - 1) 0 -
              st.cumulativeDistances.getD closestPointIndex.toNat 0),
            "", matched.latitude, matched.longitude, matched.bearing⟩
        else
          ⟨streetName, "Arrive at destination", 0, "",
            matched.latitude, matched.longitude, matched.bearing⟩
    else
      ⟨streetName, "Follow route", 0, "",
        matched.latitude, matched.longitude, matched.bearing⟩
  | none =>
    ⟨streetName, "Follow route", 0, "",
      matched.latitude, matched.longitude, matched.bearing⟩

/-- `RouteMatcher::match` (route_matcher.cpp:30-99); named `matchLoc`
because `match` is reserved in Lean.  The second component is the updated
matcher state (only `lastLocation` changes). -/
def RouteMatcher.matchLoc (g : RoadGraph) (st : RouteMatcherState)
    (loc : Location) : RouteMatch × RouteMatcherState :=
  let st1 : RouteMatcherState :=
    ⟨st.currentRoute, some loc, st.cumulativeDistances, st.routeSegments⟩
  (match st.currentRoute with
  | none =>
    ⟨"No active route", "Set a destination", 0, "",
      loc.latitude, loc.longitude, loc.bearing⟩
  | some _ =>
    let closestPointIndex := RouteMatcher.findClosestPointOnRoute g st1 loc
    if closestPointIndex < 0 then
      ⟨"Route matching error", "Please recalculate route", 0, "",
        loc.latitude, loc.longitude, loc.bearing⟩
    else
      let nearbyRoads0 := g.findNearbyRoads loc.latitude loc.longitude
        SEGMENT_SEARCH_RADIUS
      let nearbyRoads := if nearbyRoads0 = [] then
          g.findNearbyRoads loc.latitude loc.longitude
            (SEGMENT_SEARCH_RADIUS * 3)
        else nearbyRoads0
      let routeSegments := nearbyRoads.filter
        (fun seg => decide (RouteMatcher.isSegmentOnRoute g st1 seg))
      let segmentsToCheck := if routeSegments = [] then nearbyRoads
        else routeSegments
      let best := RouteMatcher.pickBest g st1 loc segmentsToCheck
      RouteMatcher.createRouteMatch g st1 best.2.2 best.1 closestPointIndex,
    st1)

/-- The cumulative-distance tail built by `setRoute`
(route_matcher.cpp:155-167): after `prev`, walking from `p` through
`rest`. -/
def cumDistFrom (prev : ℝ) (p : Location) : List Location → List ℝ
  | [] => []
  | q :: rest =>
      (prev + haversineDistance p.latitude p.longitude q.latitude q.longitude) ::
        cumDistFrom
          (prev + haversineDistance p.latitude p.longitude q.latitude q.longitude)
          q rest

/-- The full cumulative-distance list of a point sequence. -/
def buildCumDist : List Location → List ℝ
  | [] => []
  | p :: rest => 0 :: cumDistFrom 0 p rest

/-- `RouteMatcher::precalculateRouteSegments` (route_matcher.cpp:196-263):
for each consecutive pair, search near the midpoint (radius 50, widened to
100) and keep the best-scoring segment if any. -/
def RouteMatcher.precalcSegs (g : RoadGraph) (pts : List Location) : List ℕ :=
  if pts.length < 2 then []
  else
    (pts.zip pts.tail).foldl
      (fun acc pr =>
        let midLat := (pr.1.latitude + pr.2.latitude) / 2
        let midLon := (pr.1.longitude + pr.2.longitude) / 2
        let nearby0 := g.findNearbyRoads midLat midLon 50
        let nearby := if nearby0 = [] then g.findNearbyRoads midLat midLon 100
          else nearby0
        let routeBearing := calculateBearing pr.1.latitude pr.1.longitude
          pr.2.latitude pr.2.longitude
        let best := nearby.foldl
          (fun b seg =>
            let segmentBearing := calculateBearing
              (g.nodeAt (g.segAt seg).startN).latitude
              (g.nodeAt (g.segAt seg).startN).longitude
              (g.nodeAt (g.segAt seg).endN).latitude
              (g.nodeAt (g.segAt seg).endN).longitude
            let bearingDiff0 := |segmentBearing - routeBearing|
            let bearingDiff := if bearingDiff0 > 180 then 360 - bearingDiff0
              else bearingDiff0
            let projected := RouteMatcher.projectOntoSegment g
              ⟨midLat, midLon, 0, 0, 0⟩ seg
            let distance := haversineDistance midLat midLon
              projected.latitude projected.longitude
            let score := distance + bearingDiff / 45 * 20
            match b with
            | none => some (seg, score)
            | some bb => if score < bb.2 then some (seg, score) else b)
          none
        match best with
        | some bb => acc ++ [bb.1]
        | none => acc)
      []

/-- `RouteMatcher::setRoute` (route_matcher.cpp:146-172).
`validateRouteIntegrity` only logs and is omitted.  When the route has no
points the function returns right after clearing `cumulativeDistances`,
so `routeSegments` keeps its previous value. -/
def RouteMatcher.setRoute (g : RoadGraph) (st : RouteMatcherState)
    (route : Route) : RouteMatcherState :=
  if route.points = [] then
    ⟨some route, st.lastLocation, [], st.routeSegments⟩
  else
    ⟨some route, st.lastLocation, buildCumDist route.points,
      RouteMatcher.precalcSegs g route.points⟩

/-- The matcher-state invariant used for C10: whenever a route is active,
the cumulative-distance list is exactly the one `setRoute` builds for its
points. -/
def MatcherInv (st : RouteMatcherState) : Prop :=
  ∀ route, st.currentRoute = some route →
    st.cumulativeDistances = buildCumDist route.points

/-- `scoreLe a b`: `a` does not exceed `b` in the `DBL_MAX`-sentinel
order. -/
def scoreLe (a b : Option ℝ) : Prop :=
  scoreLt a b ∨ a = b

/-- The spec's bearing factor: absolute fix/segment bearing difference
normalized to [0,180], divided by 180. -/
def specBearingFactor (segBearing fixBearing : ℝ) : ℝ :=
  (if |segBearing - fixBearing| > 180 then 360 - |segBearing - fixBearing|
   else |segBearing - fixBearing|) / 180

/-- The spec's on-route bonus: 0.5 for precomputed route segments, 1.0
otherwise. -/
def specRouteBonus (st : RouteMatcherState) (segIdx : ℕ) : ℝ :=
  if st.currentRoute.isSome = true ∧ segIdx ∈ st.routeSegments then 0.5
  else 1.0

/-- The spec's speed factor rules. -/
def specSpeedFactor (g : RoadGraph) (segIdx : ℕ) (loc : Location) : ℝ :=
  if loc.speed > 1 then
    (if (g.segAt segIdx).speedLimit > 60 then 0.8
     else if (g.segAt segIdx).speedLimit < 30 ∧ loc.speed > 10 then 1.2
     else 1.0)
  else if loc.speed < 5 ∧ (g.segAt segIdx).speedLimit > 70 then 1.2
  else 1.0

/-- Bearing of a stored segment, start node to end node. -/
def segBearingOf (g : RoadGraph) (segIdx : ℕ) : ℝ :=
  calculateBearing (g.nodeAt (g.segAt segIdx).startN).latitude
    (g.nodeAt (g.segAt segIdx).startN).longitude
    (g.nodeAt (g.segAt segIdx).endN).latitude
    (g.nodeAt (g.segAt segIdx).endN).longitude

/-- Perpendicular distance of a fix from a stored segment: haversine
distance from the fix to its projection on the segment. -/
def perpDist (g : RoadGraph) (loc : Location) (segIdx : ℕ) : ℝ :=
  haversineDistance loc.latitude loc.longitude
    (RouteMatcher.projectOntoSegment g loc segIdx).latitude
    (RouteMatcher.projectOntoSegment g loc segIdx).longitude

/-- A graph with one due-north residential segment from (0,0) to (1,0),
speed limit 50. -/
def c4graph : RoadGraph :=
  ⟨[⟨"a", 0, 0, [0]⟩, ⟨"b", 1, 0, []⟩], fun _ => none,
    [⟨0, 1, "Main St", 50, RoadType.RESIDENTIAL, haversineDistance 0 0 1 0,
      1, false⟩],
    SpatialIndex.init 0.001, 2⟩

/-- A fix at the segment start, bearing 180, stationary. -/
def c4loc : Location := ⟨0, 0, 180, 0, 0⟩

/-! ## Routing engine (routing_engine.cpp / routing_engine.h)

`generateRouteId` draws from a private RNG; we model the stream of
generated ids by an oracle `rid : ℕ → String`, and the
`uniform_real_distribution` jitter draws of `createDirectRoute` by an
oracle `jit : ℕ → ℝ` (two draws per interior point).  The A* loops run on
explicit fuel; the C++ loops terminate because every iteration either
discards a popped entry or closes a new node, and re-pushes need a strict
`gScore` decrease. -/
/-- Routing constants (routing_engine.cpp:23-26). -/
def MAX_ROUTE_DISTANCE : ℝ := 10000.0

def NODE_SEARCH_RADIUS : ℝ := 10000.0

def MAX_ROUTE_POINTS : ℤ := 1000

def ROUTE_POINT_SPACING : ℝ := 25.0

/-- `RoutingEngine::estimateHeuristic` (routing_engine.cpp:434-440). -/
def RoutingEngine.estimateHeuristic (g : RoadGraph) (cur goal : ℕ) : ℝ :=
  haversineDistance (g.nodeAt cur).latitude (g.nodeAt cur).longitude
    (g.nodeAt goal).latitude (g.nodeAt goal).longitude

/-- `RoutingEngine::NodeData` (routing_engine.h:26-32). -/
structure NodeData where
  node : ℕ
  fScore : ℝ

/-- Pop a minimal-`fScore` entry from the open list (the first minimal
entry; `std::priority_queue` does not specify which equal-key entry is
popped). -/
def popMin : List NodeData → Option (NodeData × List NodeData)
  | [] => none
  | d :: rest =>
    match popMin rest with
    | none => some (d, [])
    | some (m, rest2) =>
      if d.fScore ≤ m.fScore then some (d, rest)
      else some (m, d :: rest2)

/-- A* working state: open list, closed list (insertion order), and the
`gScore` / `cameFrom` maps (`none` = key absent). -/
structure AStarState where
  openSet : List NodeData
  closed : List ℕ
  gScore : ℕ → Option ℝ
  cameFrom : ℕ → Option ℕ

/-- Path reconstruction (routing_engine.cpp:390-399): walk `cameFrom`
from the goal back to the start, then reverse.  A missing `cameFrom`
entry (C++ would default-construct a null pointer) or exhausted fuel
yields `[]`. -/
def reconstructPath (cameFrom : ℕ → Option ℕ) (start : ℕ) :
    ℕ → ℕ → List ℕ
  | 0, _ => []
  | fuel + 1, node =>
    if node = start then [start]
    else
      match cameFrom node with
      | none => []
      | some p => reconstructPath cameFrom start fuel p ++ [node]

/-- Close the popped node and relax its outgoing segments
(routing_engine.cpp:406-428), with a per-segment cost function
(`findPath` uses `segment->length`;
`findPathWithCostFunction` a custom one). -/
def astarExpand (g : RoadGraph) (cost : ℕ → ℝ) (goal : ℕ) (cur : ℕ)
    (rest : List NodeData) (st : AStarState) : AStarState :=
  let closed2 := st.closed ++ [cur]
  (g.nodeAt cur).segments.foldl
    (fun s segIdx =>
      let neighbor := (g.segAt segIdx).endN
      if neighbor ∈ closed2 then s
      else
        let tentativeG := (s.gScore cur).getD 0 + cost segIdx
        if s.gScore neighbor = none ∨
            tentativeG < (s.gScore neighbor).getD 0 then
          { s with
            openSet := s.openSet ++
              [⟨neighbor,
                tentativeG + RoutingEngine.estimateHeuristic g neighbor goal⟩]
            gScore := fun n => if n = neighbor then some tentativeG
              else s.gScore n
            cameFrom := fun n => if n = neighbor then some cur
              else s.cameFrom n }
        else s)
    { st with openSet := rest, closed := closed2 }

/-- The A* main loop (routing_engine.cpp:379-431), on fuel. -/
def astarLoop (g : RoadGraph) (cost : ℕ → ℝ) (startN goal : ℕ) :
    ℕ → AStarState → List ℕ
  | 0, _ => []
  | fuel + 1, st =>
    match popMin st.openSet with
    | none => []
    | some (cur, rest) =>
      if cur.node = goal then
        reconstructPath st.cameFrom startN (st.closed.length + 2) goal
      else if cur.node ∈ st.closed then
        astarLoop g cost startN goal fuel { st with openSet := rest }
      else
        astarLoop g cost startN goal fuel (astarExpand g cost goal cur.node rest st)

/-- The initial A* state: `openSet = {start, 0.0}`, `gScore[start] = 0`. -/
def astarInit (startN : ℕ) : AStarState :=
  ⟨[⟨startN, 0⟩], [], fun n => if n = startN then some 0 else none,
    fun _ => none⟩

/-- `RoutingEngine::findPath` (routing_engine.cpp:379-432): A* with edge
cost `segment->length`. -/
def RoutingEngine.findPath (g : RoadGraph) (fuel : ℕ) (startN goal : ℕ) :
    List ℕ :=
  if startN = goal then [startN]
  else astarLoop g (fun s => (g.segAt s).length) startN goal fuel
    (astarInit startN)

/-- `RoutingEngine::findPathWithCostFunction`
(routing_engine.cpp:663-722): the same loop with a custom cost. -/
def RoutingEngine.findPathWithCost (g : RoadGraph) (cost : ℕ → ℝ)
    (fuel : ℕ) (startN goal : ℕ) : List ℕ :=
  if startN = goal then [startN]
  else astarLoop g cost startN goal fuel (astarInit startN)

/-- `RoutingEngine::calculateRouteDuration` (routing_engine.cpp:836-866). -/
def RoutingEngine.calculateRouteDuration (route : Route) : ℤ :=
  let pairs := route.points.zip route.points.tail
  let totalDistance := (pairs.map (fun pr =>
    haversineDistance pr.1.latitude pr.1.longitude
      pr.2.latitude pr.2.longitude)).sum
  let totalTime := (pairs.map (fun pr =>
    if pr.1.speed > 0.1 then
      haversineDistance pr.1.latitude pr.1.longitude
        pr.2.latitude pr.2.longitude / pr.1.speed
    else 0)).sum
  if totalTime > 0 then truncR totalTime
  else truncR (totalDistance / 9.72)

/-- `RoutingEngine::calculateCustomDuration` (routing_engine.cpp:724-737). -/
def RoutingEngine.calculateCustomDuration (route : Route)
    (speedFactor : ℝ) : ℤ :=
  let pairs := route.points.zip route.points.tail
  let totalDistance := (pairs.map (fun pr =>
    haversineDistance pr.1.latitude pr.1.longitude
      pr.2.latitude pr.2.longitude)).sum
  truncR (totalDistance / (9.72 * speedFactor))

/-- One interior point of `createDirectRoute`
(routing_engine.cpp:99-118): interpolate, jitter, and take the bearing
from the previously pushed (already jittered) point. -/
def directStep (jit : ℕ → ℝ) (startL endL : Location) (numPoints : ℤ)
    (pts : List Location) (k : ℕ) : List Location :=
  let fraction := ((k : ℝ) + 1) / ((numPoints : ℝ) - 1)
  let lat := startL.latitude + fraction * (endL.latitude - startL.latitude)
  let lon := startL.longitude + fraction * (endL.longitude - startL.longitude)
  let prev := pts.getLastD default
  let bearing := calculateBearing prev.latitude prev.longitude lat lon
  pts ++ [⟨lat + jit (2 * k), lon + jit (2 * k + 1), bearing, 10, 0⟩]

/-- `RoutingEngine::createDirectRoute` (routing_engine.cpp:80-126). -/
def RoutingEngine.createDirectRoute (jit : ℕ → ℝ) (rid : String)
    (startL endL : Location) : Route :=
  let distance := haversineDistance startL.latitude startL.longitude
    endL.latitude endL.longitude
  let numPoints : ℤ := min MAX_ROUTE_POINTS
    (max 20 (truncR (distance / ROUTE_POINT_SPACING)))
  let pts := (List.range (numPoints - 2).toNat).foldl
    (directStep jit startL endL numPoints) [startL] ++ [endL]
  ⟨rid, "Direct Route", pts,
    RoutingEngine.calculateRouteDuration ⟨rid, "Direct Route", pts, 0⟩⟩

/-- `RoutingEngine::addIntermediatePoints` (routing_engine.cpp:213-227):
append `count` interpolated points strictly between `start` and `end`. -/
def RoutingEngine.addIntermediatePoints (points : List Location)
    (startL endL : Location) (count : ℕ) : List Location :=
  points ++ (List.range count).map (fun k =>
    let ratio := ((k : ℝ) + 1) / ((count : ℝ) + 1)
    ⟨startL.latitude + ratio * (endL.latitude - startL.latitude),
      startL.longitude + ratio * (endL.longitude - startL.longitude),
      0, 0, 0⟩)

/-- `RoutingEngine::findConnectingSegment` (routing_engine.cpp:229-238):
first outgoing segment of `fromN` ending at `toN`. -/
def RoutingEngine.findConnectingSegment (g : RoadGraph) (fromN toN : ℕ) :
    Option ℕ :=
  (g.nodeAt fromN).segments.find? (fun s => (g.segAt s).endN = toN)

/-- The raw bearing formula of `calculateBearingAndSpeed`
(routing_engine.cpp:890-905): negative results get 360 added (no fmod). -/
def segBearingRaw (p q : Location) : ℝ :=
  let dLon := (q.longitude - p.longitude) * (Real.pi / 180)
  let lat1 := p.latitude * (Real.pi / 180)
  let lat2 := q.latitude * (Real.pi / 180)
  let y := Real.sin dLon * Real.cos lat2
  let x := Real.cos lat1 * Real.sin lat2 -
    Real.sin lat1 * Real.cos lat2 * Real.cos dLon
  let bearing := atan2 y x * 180 / Real.pi
  if bearing < 0 then bearing + 360 else bearing

/-- `RoutingEngine::calculateBearingAndSpeed`
(routing_engine.cpp:887-914): set each point's bearing toward the next
point and a distance-derived speed; the last point copies the previous
bearing and gets speed 0. -/
def calculateBearingAndSpeed (path : List Location) : List Location :=
  if path.length < 2 then path
  else
    path.enum.map (fun pr =>
      let p := pr.2
      if pr.1 < path.length - 1 then
        let q := path.getD (pr.1 + 1) default
        let distance := haversineDistance p.latitude p.longitude
          q.latitude q.longitude
        ⟨p.latitude, p.longitude, segBearingRaw p q,
          max 5 (min 30 (distance / 10)), p.accuracy⟩
      else
        ⟨p.latitude, p.longitude,
          segBearingRaw (path.getD (path.length - 2) default)
            (path.getD (path.length - 1) default),
          0, p.accuracy⟩)

/-- `RoutingEngine::smoothRoutePath` (routing_engine.cpp:240-317). -/
def RoutingEngine.smoothRoutePath (route : Route) : Route :=
  if route.points.length < 3 then route
  else
    let simplified1 := (List.range (route.points.length - 2)).foldl
      (fun acc k =>
        let prev := acc.getLastD default
        let curr := route.points.getD (k + 1) default
        let next := route.points.getD (k + 2) default
        let bearing1 := calculateBearing prev.latitude prev.longitude
          curr.latitude curr.longitude
        let bearing2 := calculateBearing curr.latitude curr.longitude
          next.latitude next.longitude
        let diff := if |bearing1 - bearing2| > 180 then
            360 - |bearing1 - bearing2|
          else |bearing1 - bearing2|
        if diff > 20 then acc ++ [curr]
        else if haversineDistance prev.latitude prev.longitude
            curr.latitude curr.longitude > 50 then acc ++ [curr]
        else acc)
      [route.points.headD default]
    let simplified := simplified1 ++ [route.points.getLastD default]
    let simplified2 :=
      if simplified.length > 3 then
        (List.range (simplified.length - 2)).foldl
          (fun acc k =>
            let prev := acc.getLastD default
            let curr := simplified.getD (k + 1) default
            let next := simplified.getD (k + 2) default
            let prevToCurrDist := haversineDistance prev.latitude
              prev.longitude curr.latitude curr.longitude
            let currToNextDist := haversineDistance curr.latitude
              curr.longitude next.latitude next.longitude
            let prevToNextDist := haversineDistance prev.latitude
              prev.longitude next.latitude next.longitude
            if prevToNextDist < (prevToCurrDist + currToNextDist) * 0.8 then
              acc
            else acc ++ [curr])
          [simplified.headD default] ++ [simplified.getLastD default]
      else simplified
    { route with points := calculateBearingAndSpeed simplified2 }

/-- `RoutingEngine::createDetailedRoute` (routing_engine.cpp:128-211). -/
def RoutingEngine.createDetailedRoute (g : RoadGraph) (id : String)
    (startL endL : Location) (path : List ℕ) : Route :=
  let allPoints1 :=
    if path ≠ [] ∧ haversineDistance startL.latitude startL.longitude
        (g.nodeAt (path.headD 0)).latitude
        (g.nodeAt (path.headD 0)).longitude > 10 then
      RoutingEngine.addIntermediatePoints [startL] startL
        ⟨(g.nodeAt (path.headD 0)).latitude,
          (g.nodeAt (path.headD 0)).longitude, 0, 0, 0⟩ 3
    else [startL]
  let allPoints2 := path.enum.foldl
    (fun pts pr =>
      let current := pr.2
      let currentLoc : Location := ⟨(g.nodeAt current).latitude,
        (g.nodeAt current).longitude, 0, 0, 0⟩
      if pr.1 < path.length - 1 then
        let next := path.getD (pr.1 + 1) 0
        match RoutingEngine.findConnectingSegment g current next with
        | some _ => pts ++ [currentLoc]
        | none =>
          let nextLoc : Location := ⟨(g.nodeAt next).latitude,
            (g.nodeAt next).longitude, 0, 0, 0⟩
          let nodeDist := haversineDistance currentLoc.latitude
            currentLoc.longitude nextLoc.latitude nextLoc.longitude
          RoutingEngine.addIntermediatePoints (pts ++ [currentLoc])
            currentLoc nextLoc (max 2 (truncR (nodeDist / 20))).toNat
      else pts ++ [currentLoc])
    allPoints1
  let allPoints3 :=
    if path ≠ [] ∧ haversineDistance
        (g.nodeAt (path.getLastD 0)).latitude
        (g.nodeAt (path.getLastD 0)).longitude
        endL.latitude endL.longitude > 10 then
      RoutingEngine.addIntermediatePoints allPoints2
        ⟨(g.nodeAt (path.getLastD 0)).latitude,
          (g.nodeAt (path.getLastD 0)).longitude, 0, 0, 0⟩ endL 3
    else allPoints2
  let pts := calculateBearingAndSpeed (allPoints3 ++ [endL])
  RoutingEngine.smoothRoutePath ⟨id, "Route to Destination", pts,
    RoutingEngine.calculateRouteDuration
      ⟨id, "Route to Destination", pts, 0⟩⟩

/-- `d < m` where `none` models `DBL_MAX`. -/
def distLtOpt (d : ℝ) (m : Option ℝ) : Prop :=
  match m with
  | none => True
  | some v => d < v

/-- `RoutingEngine::projectLocationOntoSegment`
(routing_engine.cpp:545-581): no bearing flip, speed 0. -/
def RoutingEngine.projectLocationOntoSegment (g : RoadGraph)
    (loc : Location) (segIdx : ℕ) : Location :=
  let x1 := (g.nodeAt (g.segAt segIdx).startN).longitude
  let y1 := (g.nodeAt (g.segAt segIdx).startN).latitude
  let x2 := (g.nodeAt (g.segAt segIdx).endN).longitude
  let y2 := (g.nodeAt (g.segAt segIdx).endN).latitude
  let dx := x2 - x1
  let dy := y2 - y1
  let segmentLengthSquared := dx * dx + dy * dy
  if segmentLengthSquared < 1e-10 then ⟨y1, x1, 0, 0, 0⟩
  else
    let t := max 0 (min 1
      (((loc.longitude - x1) * dx + (loc.latitude - y1) * dy) /
        segmentLengthSquared))
    ⟨y1 + t * dy, x1 + t * dx, calculateBearing y1 x1 y2 x2, 0, 0⟩

/-- `RoutingEngine::findNearestNode` (routing_engine.cpp:456-543): a pure
nearest-endpoint pass, then a pass that may split segments by inserting
projected nodes (mutating the graph). -/
def RoutingEngine.findNearestNode (g : RoadGraph) (loc : Location)
    (searchRadius : ℝ) : Option ℕ × RoadGraph :=
  let nearbyRoads := g.findNearbyRoads loc.latitude loc.longitude
    searchRadius
  if nearbyRoads = [] then (none, g)
  else
    let pass1 := nearbyRoads.foldl
      (fun (acc : Option ℕ × Option ℝ) segIdx =>
        let distToStart := haversineDistance loc.latitude loc.longitude
          (g.nodeAt (g.segAt segIdx).startN).latitude
          (g.nodeAt (g.segAt segIdx).startN).longitude
        let acc1 := if distLtOpt distToStart acc.2 then
            ((some (g.segAt segIdx).startN : Option ℕ), some distToStart)
          else acc
        let distToEnd := haversineDistance loc.latitude loc.longitude
          (g.nodeAt (g.segAt segIdx).endN).latitude
          (g.nodeAt (g.segAt segIdx).endN).longitude
        if distLtOpt distToEnd acc1.2 then
          ((some (g.segAt segIdx).endN : Option ℕ), some distToEnd)
        else acc1)
      (none, none)
    let pass2 := nearbyRoads.foldl
      (fun (acc : RoadGraph × Option ℕ × Option ℝ) segIdx =>
        let g1 := acc.1
        let projected := RoutingEngine.projectLocationOntoSegment g1
          ⟨loc.latitude, loc.longitude, 0, 0, 0⟩ segIdx
        let distance := haversineDistance loc.latitude loc.longitude
          projected.latitude projected.longitude
        if distLtOpt distance acc.2.2 then
          let distToStart := haversineDistance projected.latitude
            projected.longitude
            (g1.nodeAt (g1.segAt segIdx).startN).latitude
            (g1.nodeAt (g1.segAt segIdx).startN).longitude
          let distToEnd := haversineDistance projected.latitude
            projected.longitude
            (g1.nodeAt (g1.segAt segIdx).endN).latitude
            (g1.nodeAt (g1.segAt segIdx).endN).longitude
          if distToStart > 10 ∧ distToEnd > 10 then
            let nodeId := "projected_" ++ toString (g1.segAt segIdx).id ++
              "_" ++ toString (truncR (projected.latitude * 1000000)) ++
              "_" ++ toString (truncR (projected.longitude * 1000000))
            let r1 := g1.addNode nodeId projected.latitude
              projected.longitude
            let r2 := r1.2.addSegment (g1.segAt segIdx).startN r1.1
              (g1.segAt segIdx).name (g1.segAt segIdx).speedLimit
              (g1.segAt segIdx).type
            let r3 := r2.2.addSegment r1.1 (g1.segAt segIdx).endN
              (g1.segAt segIdx).name (g1.segAt segIdx).speedLimit
              (g1.segAt segIdx).type
            (r3.2, (some r1.1 : Option ℕ), some distance)
          else acc
        else acc)
      (g, pass1.1, pass1.2)
    (pass2.2.1, pass2.1)

/-- `RoutingEngine::getRoutePointAtFraction`
(routing_engine.cpp:784-834); the cumulative distances it builds are
exactly `buildCumDist`. -/
def RoutingEngine.getRoutePointAtFraction (route : Route) (fraction : ℝ) :
    Location :=
  if route.points = [] then ⟨0, 0, 0, 0, 0⟩
  else if route.points.length = 1 ∨ fraction ≤ 0 then
    route.points.headD default
  else if fraction ≥ 1 then route.points.getLastD default
  else
    let cumDistances := buildCumDist route.points
    let targetDistance := cumDistances.getLastD 0 * fraction
    match (List.range' 1 (cumDistances.length - 1)).find?
        (fun i => decide (cumDistances.getD i 0 ≥ targetDistance)) with
    | some i =>
      let p1 := route.points.getD (i - 1) default
      let p2 := route.points.getD i default
      let segmentFraction := (targetDistance - cumDistances.getD (i - 1) 0) /
        (cumDistances.getD i 0 - cumDistances.getD (i - 1) 0)
      ⟨p1.latitude + segmentFraction * (p2.latitude - p1.latitude),
        p1.longitude + segmentFraction * (p2.longitude - p1.longitude),
        p1.bearing + segmentFraction * (p2.bearing - p1.bearing),
        p1.speed + segmentFraction * (p2.speed - p1.speed), 0⟩
    | none => route.points.getLastD default

/-- `RoutingEngine::isRouteDifferentEnough` (routing_engine.cpp:739-782). -/
def RoutingEngine.isRouteDifferentEnough (route1 route2 : Route) : Prop :=
  if route1.points.length < 2 ∨ route2.points.length < 2 then False
  else
    let start1 := route1.points.headD default
    let end1 := route1.points.getLastD default
    let start2 := route2.points.headD default
    let end2 := route2.points.getLastD default
    let startDist := haversineDistance start1.latitude start1.longitude
      start2.latitude start2.longitude
    let endDist := haversineDistance end1.latitude end1.longitude
      end2.latitude end2.longitude
    if startDist > 100 ∨ endDist > 100 then False
    else
      let sharedPoints := ((List.range 10).filter (fun i =>
        decide (haversineDistance
          (RoutingEngine.getRoutePointAtFraction route1 ((i : ℝ) / 9)).latitude
          (RoutingEngine.getRoutePointAtFraction route1 ((i : ℝ) / 9)).longitude
          (RoutingEngine.getRoutePointAtFraction route2 ((i : ℝ) / 9)).latitude
          (RoutingEngine.getRoutePointAtFraction route2 ((i : ℝ) / 9)).longitude
          < 200))).length
      (sharedPoints : ℝ) / 10 < 0.7

/-- `RoutingEngine::generateFastRoute` (routing_engine.cpp:609-633):
cost `length * (50 / speedLimit)`. -/
def RoutingEngine.generateFastRoute (g : RoadGraph) (id : String)
    (fuel : ℕ) (startN endN : ℕ) (startLoc endLoc : Location) : Route :=
  let path := RoutingEngine.findPathWithCost g
    (fun s => (g.segAt s).length * (50.0 / (g.segAt s).speedLimit))
    fuel startN endN
  if path = [] then ⟨"", "", [], 0⟩
  else
    let route := RoutingEngine.createDetailedRoute g id startLoc endLoc path
    { route with
      name := "Fastest Route"
      durationSeconds := RoutingEngine.calculateCustomDuration route 1.2 }

/-- `RoutingEngine::generateNoHighwaysRoute`
(routing_engine.cpp:635-661): highways cost 10x their length. -/
def RoutingEngine.generateNoHighwaysRoute (g : RoadGraph) (id : String)
    (fuel : ℕ) (startN endN : ℕ) (startLoc endLoc : Location) : Route :=
  let path := RoutingEngine.findPathWithCost g
    (fun s => if (g.segAt s).type = RoadType.HIGHWAY then
        (g.segAt s).length * 10.0
      else (g.segAt s).length)
    fuel startN endN
  if path = [] then ⟨"", "", [], 0⟩
  else
    let route := RoutingEngine.createDetailedRoute g id startLoc endLoc path
    { route with
      name := "No Highways"
      durationSeconds := RoutingEngine.calculateCustomDuration route 0.8 }

/-- `RoutingEngine::generateAlternatives` (routing_engine.cpp:583-607);
`findNearestNode` uses its default 5000 m radius and may mutate the
graph. -/
def RoutingEngine.generateAlternatives (g : RoadGraph) (rid : ℕ → String)
    (fuel : ℕ) (primaryRoute : Route) (startL endL : Location) :
    List Route × RoadGraph :=
  if primaryRoute.points.length < 2 then ([], g)
  else
    let r1 := RoutingEngine.findNearestNode g startL 5000.0
    let r2 := RoutingEngine.findNearestNode r1.2 endL 5000.0
    match r1.1, r2.1 with
    | some sN, some eN =>
      let fastRoute := RoutingEngine.generateFastRoute r2.2 (rid 1) fuel
        sN eN startL endL
      let alts1 := if fastRoute.points ≠ [] ∧
          RoutingEngine.isRouteDifferentEnough fastRoute primaryRoute then
          [{ fastRoute with name := "Fastest Route" }]
        else []
      let nhRoute := RoutingEngine.generateNoHighwaysRoute r2.2 (rid 2)
        fuel sN eN startL endL
      let alts2 := if nhRoute.points ≠ [] ∧
          RoutingEngine.isRouteDifferentEnough nhRoute primaryRoute then
          alts1 ++ [{ nhRoute with name := "No Highways" }]
        else alts1
      (alts2, r2.2)
    | _, _ => ([], r2.2)

/-- `RoutingEngine::calculateRoutes` (routing_engine.cpp:33-78). -/
def RoutingEngine.calculateRoutes (g : RoadGraph) (jit : ℕ → ℝ)
    (rid : ℕ → String) (fuel : ℕ) (startL endL : Location) :
    List Route × RoadGraph :=
  let directDistance := haversineDistance startL.latitude startL.longitude
    endL.latitude endL.longitude
  if directDistance > MAX_ROUTE_DISTANCE then
    ([RoutingEngine.createDirectRoute jit (rid 0) startL endL], g)
  else
    let r1 := RoutingEngine.findNearestNode g startL NODE_SEARCH_RADIUS
    let r2 := RoutingEngine.findNearestNode r1.2 endL NODE_SEARCH_RADIUS
    match r1.1, r2.1 with
    | some sN, some eN =>
      let primaryPath := RoutingEngine.findPath r2.2 fuel sN eN
      if primaryPath = [] then
        ([RoutingEngine.createDirectRoute jit (rid 0) startL endL], r2.2)
      else
        let primaryRoute := RoutingEngine.createDetailedRoute r2.2 (rid 0)
          startL endL primaryPath
        let alts := RoutingEngine.generateAlternatives r2.2 rid fuel
          primaryRoute startL endL
        (primaryRoute :: alts.1, alts.2)
    | _, _ =>
      ([RoutingEngine.createDirectRoute jit (rid 0) startL endL], r2.2)

/-! ## A* correctness development for `findPath`

`Chain gr u v ss` says the segment list `ss` is a directed path from `u`
to `v` following outgoing segment lists, exactly the neighbor relation
the A* loop explores. -/
def Chain (gr : RoadGraph) : ℕ → ℕ → List ℕ → Prop
  | u, v, [] => u = v
  | u, v, s :: ss => s ∈ (gr.nodeAt u).segments ∧
      Chain gr ((gr.segAt s).endN) v ss

/-- Total cost of a segment list. -/
def PathCost (cost : ℕ → ℝ) (ss : List ℕ) : ℝ := (ss.map cost).sum

/-- `RChain cf gr start v ns ss`: `ns` is the reversed `cameFrom` node
path from `v` back to `start` (`v` first), `ss` the matching reversed
segment list. -/
inductive RChain (cf : ℕ → Option ℕ) (gr : RoadGraph) (start : ℕ) :
    ℕ → List ℕ → List ℕ → Prop where
  | base : RChain cf gr start start [start] []
  | step : ∀ v p s ns ss, v ≠ start → cf v = some p →
      s ∈ (gr.nodeAt p).segments → (gr.segAt s).endN = v →
      RChain cf gr start p ns ss →
      RChain cf gr start v (v :: ns) (s :: ss)

/-- The A* loop invariant (for non-initial states): the start node is
closed, the goal is not; `gScore` values are realized by `cameFrom`
chains through closed nodes; closed nodes carry optimal distances and
have all leaving edges relaxed; every non-closed node with a `gScore`
has a matching open entry; every open entry dominates the current
`g + h` of its node. -/
structure AInv (gr : RoadGraph) (cost : ℕ → ℝ) (start goal : ℕ)
    (st : AStarState) : Prop where
  startClosed : start ∈ st.closed
  goalOpen : goal ∉ st.closed
  startG : st.gScore start = some 0
  chainInv : ∀ v gv, st.gScore v = some gv → ∃ ns ss,
    RChain st.cameFrom gr start v ns ss ∧ ns.Nodup ∧
    (∀ x ∈ ns.tail, x ∈ st.closed) ∧ PathCost cost ss = gv
  closedOpt : ∀ u ∈ st.closed, ∃ gu, st.gScore u = some gu ∧
    ∀ segs, Chain gr start u segs → gu ≤ PathCost cost segs
  closedEdge : ∀ x ∈ st.closed, ∀ gx, st.gScore x = some gx →
    ∀ s ∈ (gr.nodeAt x).segments, (gr.segAt s).endN ∉ st.closed →
    ∃ gy, st.gScore ((gr.segAt s).endN) = some gy ∧ gy ≤ gx + cost s
  openPresence : ∀ v gv, st.gScore v = some gv → v ∉ st.closed →
    ∃ e ∈ st.openSet, e.node = v ∧
      e.fScore ≤ gv + RoutingEngine.estimateHeuristic gr v goal
  openSound : ∀ e ∈ st.openSet, ∃ ge, st.gScore e.node = some ge ∧
    ge + RoutingEngine.estimateHeuristic gr e.node goal ≤ e.fScore

/-- One transition of the A* loop (skip a stale entry, or close and
expand the popped node). -/
inductive AStep (gr : RoadGraph) (cost : ℕ → ℝ) (start goal : ℕ) :
    AStarState → AStarState → Prop where
  | skip : ∀ st cur rest, popMin st.openSet = some (cur, rest) →
      cur.node ≠ goal → cur.node ∈ st.closed →
      AStep gr cost start goal st { st with openSet := rest }
  | expand : ∀ st cur rest, popMin st.openSet = some (cur, rest) →
      cur.node ≠ goal → cur.node ∉ st.closed →
      AStep gr cost start goal st (astarExpand gr cost goal cur.node rest st)

/-- The relaxation step of `astarExpand`, named for reasoning. -/
def relaxStep (gr : RoadGraph) (cost : ℕ → ℝ) (goal cur : ℕ)
    (closed2 : List ℕ) (s : AStarState) (segIdx : ℕ) : AStarState :=
  let neighbor := (gr.segAt segIdx).endN
  if neighbor ∈ closed2 then s
  else
    let tentativeG := (s.gScore cur).getD 0 + cost segIdx
    if s.gScore neighbor = none ∨
        tentativeG < (s.gScore neighbor).getD 0 then
      { s with
        openSet := s.openSet ++
          [⟨neighbor,
            tentativeG + RoutingEngine.estimateHeuristic gr neighbor goal⟩]
        gScore := fun n => if n = neighbor then some tentativeG
          else s.gScore n
        cameFrom := fun n => if n = neighbor then some cur
          else s.cameFrom n }
    else s

/-- Invariant maintained while relaxing the outgoing segments of the
freshly closed node `cur` (whose own edges are only guaranteed after the
whole fold). -/
structure MidInv (gr : RoadGraph) (cost : ℕ → ℝ) (start goal : ℕ)
    (cur : ℕ) (gcur : ℝ) (closed2 : List ℕ) (s : AStarState) : Prop where
  mClosed : s.closed = closed2
  mStartG : s.gScore start = some 0
  mCurG : s.gScore cur = some gcur
  mChain : ∀ v gv, s.gScore v = some gv → ∃ ns ss,
    RChain s.cameFrom gr start v ns ss ∧ ns.Nodup ∧
    (∀ x ∈ ns.tail, x ∈ closed2) ∧ PathCost cost ss = gv
  mClosedOpt : ∀ u ∈ closed2, ∃ gu, s.gScore u = some gu ∧
    ∀ segs, Chain gr start u segs → gu ≤ PathCost cost segs
  mClosedEdge : ∀ x ∈ closed2, x ≠ cur → ∀ gx, s.gScore x = some gx →
    ∀ sg ∈ (gr.nodeAt x).segments, (gr.segAt sg).endN ∉ closed2 →
    ∃ gy, s.gScore ((gr.segAt sg).endN) = some gy ∧ gy ≤ gx + cost sg
  mOpenPresence : ∀ v gv, s.gScore v = some gv → v ∉ closed2 →
    ∃ e ∈ s.openSet, e.node = v ∧
      e.fScore ≤ gv + RoutingEngine.estimateHeuristic gr v goal
  mOpenSound : ∀ e ∈ s.openSet, ∃ ge, s.gScore e.node = some ge ∧
    ge + RoutingEngine.estimateHeuristic gr e.node goal ≤ e.fScore

/-- What the claim asserts about a non-empty A* result: it runs from
start to goal along outgoing segments, realizes a minimal-cost chain,
and is produced at a reachable goal-pop whose entry has minimal f among
the remaining open entries. -/
def AStarResultOk (gr : RoadGraph) (cost : ℕ → ℝ) (start goal : ℕ)
    (res : List ℕ) : Prop :=
  res.head? = some start ∧ res.getLast? = some goal ∧
  (∀ i, i + 1 < res.length → ∃ s ∈ (gr.nodeAt (res.getD i 0)).segments,
    (gr.segAt s).endN = res.getD (i + 1) 0) ∧
  ∃ ss st cur rest,
    Chain gr start goal ss ∧
    res = start :: ss.map (fun s => (gr.segAt s).endN) ∧
    (∀ ss2, Chain gr start goal ss2 → PathCost cost ss ≤ PathCost cost ss2) ∧
    Relation.ReflTransGen (AStep gr cost start goal) (astarInit start) st ∧
    popMin st.openSet = some (cur, rest) ∧
    cur.node = goal ∧
    res = reconstructPath st.cameFrom start (st.closed.length + 2) goal ∧
    st.gScore goal = some (PathCost cost ss) ∧
    ∀ e ∈ rest, cur.fScore ≤ e.fScore

/-- A two-node graph: node 0 at (0,0) with one segment to node 1 at
(90,0); the segment length is the haversine distance of its endpoints. -/
def c1graph : RoadGraph :=
  ⟨[⟨"a", 0, 0, [0]⟩, ⟨"b", 90, 0, []⟩], fun _ => none,
    [⟨0, 1, "s", 50, RoadType.RESIDENTIAL, haversineDistance 0 0 90 0, 1,
      false⟩],
    SpatialIndex.init 0.001, 2⟩

theorem dot3_self_unit3 (lat lon : ℝ) : dot3 (unit3 lat lon) (unit3 lat lon) = 1 := by
  have h1 := Real.sin_sq_add_cos_sq lat
  have h2 := Real.sin_sq_add_cos_sq lon
  simp only [dot3, unit3]
  nlinarith [h1, h2]

theorem dot3_unit3 (lat1 lon1 lat2 lon2 : ℝ) :
    dot3 (unit3 lat1 lon1) (unit3 lat2 lon2) =
      Real.cos lat1 * Real.cos lat2 * Real.cos (lon1 - lon2) +
        Real.sin lat1 * Real.sin lat2 := by
  simp only [dot3, unit3, Real.cos_sub]
  ring

/-- Cauchy-Schwarz for the explicit 3-dimensional dot product, via the
Lagrange identity. -/
theorem dot3_sq_le (u v : V3) : dot3 u v ^ 2 ≤ dot3 u u * dot3 v v := by
  simp only [dot3]
  nlinarith [sq_nonneg (u.1 * v.2.1 - u.2.1 * v.1),
    sq_nonneg (u.1 * v.2.2 - u.2.2 * v.1),
    sq_nonneg (u.2.1 * v.2.2 - u.2.2 * v.2.1)]

theorem dot3_abs_le_one {u v : V3} (hu : dot3 u u = 1) (hv : dot3 v v = 1) :
    -1 ≤ dot3 u v ∧ dot3 u v ≤ 1 := by
  have h := dot3_sq_le u v
  rw [hu, hv] at h
  constructor <;> nlinarith [h]

/-- Key inequality behind the spherical triangle inequality: the dot
product of `u` and `w` is at least `cos` of the sum of the angles through
`v`. -/
theorem dot3_ge_cos_sum {u v w : V3} (hu : dot3 u u = 1) (hv : dot3 v v = 1)
    (hw : dot3 w w = 1) :
    dot3 u v * dot3 v w -
        Real.sqrt (1 - dot3 u v ^ 2) * Real.sqrt (1 - dot3 v w ^ 2) ≤
      dot3 u w := by
  set a := dot3 u v with ha
  set b := dot3 v w with hb
  -- Cauchy-Schwarz on the components of u, w orthogonal to v
  set u' : V3 := (u.1 - a * v.1, u.2.1 - a * v.2.1, u.2.2 - a * v.2.2) with hu'
  set w' : V3 := (w.1 - b * v.1, w.2.1 - b * v.2.1, w.2.2 - b * v.2.2) with hw'
  have e1 : dot3 u' w' = dot3 u w - a * b := by
    simp only [hu', hw', dot3] at ha hb hv ⊢
    linear_combination b * ha + a * hb + (a * b) * hv
  have e2 : dot3 u' u' = 1 - a ^ 2 := by
    simp only [hu', dot3] at ha hu hv ⊢
    linear_combination hu + (2 * a) * ha + (a ^ 2) * hv
  have e3 : dot3 w' w' = 1 - b ^ 2 := by
    simp only [hw', dot3] at hb hw hv ⊢
    linear_combination hw + (2 * b) * hb + (b ^ 2) * hv
  have hperp : (dot3 u w - a * b) ^ 2 ≤ (1 - a ^ 2) * (1 - b ^ 2) := by
    have hcs := dot3_sq_le u' w'
    rw [e1, e2, e3] at hcs
    exact hcs
  have h1a : 0 ≤ 1 - a ^ 2 := by
    have h := dot3_abs_le_one hu hv
    rw [← ha] at h
    nlinarith [h.1, h.2]
  have h1b : 0 ≤ 1 - b ^ 2 := by
    have h := dot3_abs_le_one hv hw
    rw [← hb] at h
    nlinarith [h.1, h.2]
  have habs : |dot3 u w - a * b| ≤ Real.sqrt ((1 - a ^ 2) * (1 - b ^ 2)) := by
    rw [← Real.sqrt_sq_eq_abs]
    exact Real.sqrt_le_sqrt hperp
  have hmul : Real.sqrt ((1 - a ^ 2) * (1 - b ^ 2)) =
      Real.sqrt (1 - a ^ 2) * Real.sqrt (1 - b ^ 2) := Real.sqrt_mul h1a _
  have hlow : -(Real.sqrt (1 - a ^ 2) * Real.sqrt (1 - b ^ 2)) ≤ dot3 u w - a * b := by
    rw [← hmul]
    have := neg_abs_le (dot3 u w - a * b)
    have h2 := neg_le_neg habs
    linarith
  linarith

/-- Triangle inequality for the angle metric on unit vectors. -/
theorem arccos_dot3_triangle {u v w : V3} (hu : dot3 u u = 1) (hv : dot3 v v = 1)
    (hw : dot3 w w = 1) :
    Real.arccos (dot3 u w) ≤ Real.arccos (dot3 u v) + Real.arccos (dot3 v w) := by
  set a := dot3 u v with ha
  set b := dot3 v w with hb
  have hab := dot3_abs_le_one hu hv
  have hbb := dot3_abs_le_one hv hw
  rw [← ha] at hab
  rw [← hb] at hbb
  set α := Real.arccos a with hα
  set β := Real.arccos b with hβ
  by_cases hsum : Real.pi ≤ α + β
  · calc Real.arccos (dot3 u w) ≤ Real.pi := Real.arccos_le_pi _
    _ ≤ α + β := hsum
  · push_neg at hsum
    have hcos : Real.cos (α + β) ≤ dot3 u w := by
      have hca : Real.cos α = a := Real.cos_arccos hab.1 hab.2
      have hcb : Real.cos β = b := Real.cos_arccos hbb.1 hbb.2
      have hsa : Real.sin α = Real.sqrt (1 - a ^ 2) := Real.sin_arccos a
      have hsb : Real.sin β = Real.sqrt (1 - b ^ 2) := Real.sin_arccos b
      have hkey := dot3_ge_cos_sum hu hv hw
      rw [← ha, ← hb] at hkey
      rw [Real.cos_add, hca, hcb, hsa, hsb]
      exact hkey
    have h0 : 0 ≤ α + β := by
      have := Real.arccos_nonneg a
      have := Real.arccos_nonneg b
      rw [← hα, ← hβ] at *
      linarith [Real.arccos_nonneg a, Real.arccos_nonneg b]
    have harc : Real.arccos (Real.cos (α + β)) = α + β :=
      Real.arccos_cos h0 (le_of_lt hsum)
    have hanti : Real.arccos (dot3 u w) ≤ Real.arccos (Real.cos (α + β)) := by
      simp only [Real.arccos]
      have := Real.monotone_arcsin hcos
      linarith
    linarith [hanti, harc.le]

theorem sin_half_sq (x : ℝ) :
    Real.sin (x / 2) * Real.sin (x / 2) = (1 - Real.cos x) / 2 := by
  have h := Real.cos_two_mul' (x / 2)
  rw [show 2 * (x / 2) = x by ring] at h
  have h2 := Real.sin_sq_add_cos_sq (x / 2)
  nlinarith [h, h2]

/-- The `a` term of the haversine formula equals `(1 - d)/2` for `d` the
dot product of the two unit vectors. -/
theorem hav_a_eq (lat1 lon1 lat2 lon2 : ℝ) :
    Real.sin ((lat2 - lat1) / 2) * Real.sin ((lat2 - lat1) / 2) +
        Real.cos lat1 * Real.cos lat2 *
          (Real.sin ((lon2 - lon1) / 2) * Real.sin ((lon2 - lon1) / 2)) =
      (1 - dot3 (unit3 lat1 lon1) (unit3 lat2 lon2)) / 2 := by
  rw [dot3_unit3, sin_half_sq, sin_half_sq]
  have hc1 : Real.cos (lat2 - lat1) =
      Real.cos lat2 * Real.cos lat1 + Real.sin lat2 * Real.sin lat1 :=
    Real.cos_sub lat2 lat1
  have hc2 : Real.cos (lon1 - lon2) = Real.cos (lon2 - lon1) := by
    rw [← Real.cos_neg (lon1 - lon2)]
    ring_nf
  rw [hc2, hc1]
  ring

/-- For `a ∈ [0,1]`, the `2*atan2(√a, √(1-a))` central angle equals
`arccos (1 - 2a)`. -/
theorem atan2_sqrt_eq_arccos {a : ℝ} (h0 : 0 ≤ a) (h1 : a ≤ 1) :
    2 * atan2 (Real.sqrt a) (Real.sqrt (1 - a)) = Real.arccos (1 - 2 * a) := by
  have hs0 : 0 ≤ Real.sqrt a := Real.sqrt_nonneg a
  have hs1 : Real.sqrt a ≤ 1 := by
    have := Real.sqrt_le_sqrt h1
    simpa using this
  have hmain : atan2 (Real.sqrt a) (Real.sqrt (1 - a)) = Real.arcsin (Real.sqrt a) := by
    by_cases hlt : a < 1
    · have hx : 0 < Real.sqrt (1 - a) := Real.sqrt_pos.mpr (by linarith)
      rw [atan2, if_pos hx]
      have hsalt : Real.sqrt a < 1 := by
        have := Real.sqrt_lt_sqrt h0 hlt
        simpa using this
      have := Real.arcsin_eq_arctan (x := Real.sqrt a)
        ⟨by linarith, hsalt⟩
      rw [this]
      congr 1
      rw [Real.sq_sqrt h0]
    · have haeq : a = 1 := le_antisymm h1 (not_lt.mp hlt)
      subst haeq
      have e0 : Real.sqrt (1 - 1) = 0 := by norm_num
      have e1 : Real.sqrt 1 = 1 := Real.sqrt_one
      rw [e0, e1, Real.arcsin_one, atan2]
      norm_num
  rw [hmain]
  have hrange : 0 ≤ 2 * Real.arcsin (Real.sqrt a) ∧
      2 * Real.arcsin (Real.sqrt a) ≤ Real.pi := by
    constructor
    · have := Real.arcsin_nonneg.mpr hs0
      linarith
    · have := Real.arcsin_le_pi_div_two (Real.sqrt a)
      linarith
  have hcos : Real.cos (2 * Real.arcsin (Real.sqrt a)) = 1 - 2 * a := by
    have hsin : Real.sin (Real.arcsin (Real.sqrt a)) = Real.sqrt a :=
      Real.sin_arcsin (by linarith) hs1
    have h2 := Real.cos_two_mul' (Real.arcsin (Real.sqrt a))
    have h3 := Real.sin_sq_add_cos_sq (Real.arcsin (Real.sqrt a))
    rw [h2]
    rw [hsin] at h3 ⊢
    have hsq : Real.sqrt a ^ 2 = a := Real.sq_sqrt h0
    nlinarith [h3, hsq]
  rw [← hcos, Real.arccos_cos hrange.1 hrange.2]

/-- `haversineDistance` equals the earth radius times the angle between
the unit vectors of its two inputs (inputs converted to radians). -/
theorem haversineDistance_eq_arccos (lat1 lon1 lat2 lon2 : ℝ) :
    haversineDistance lat1 lon1 lat2 lon2 =
      6371000 * Real.arccos (dot3
        (unit3 (lat1 * (Real.pi / 180)) (lon1 * (Real.pi / 180)))
        (unit3 (lat2 * (Real.pi / 180)) (lon2 * (Real.pi / 180)))) := by
  unfold haversineDistance
  set p1 := lat1 * (Real.pi / 180)
  set q1 := lon1 * (Real.pi / 180)
  set p2 := lat2 * (Real.pi / 180)
  set q2 := lon2 * (Real.pi / 180)
  set d := dot3 (unit3 p1 q1) (unit3 p2 q2) with hd
  have ha : Real.sin ((p2 - p1) / 2) * Real.sin ((p2 - p1) / 2) +
      Real.cos p1 * Real.cos p2 *
        (Real.sin ((q2 - q1) / 2) * Real.sin ((q2 - q1) / 2)) = (1 - d) / 2 := by
    rw [hd]
    exact hav_a_eq p1 q1 p2 q2
  have hdb : -1 ≤ d ∧ d ≤ 1 := by
    rw [hd]
    exact dot3_abs_le_one (dot3_self_unit3 _ _) (dot3_self_unit3 _ _)
  simp only
  rw [ha]
  have h0 : 0 ≤ (1 - d) / 2 := by linarith [hdb.2]
  have h1 : (1 - d) / 2 ≤ 1 := by linarith [hdb.1]
  have := atan2_sqrt_eq_arccos h0 h1
  rw [this]
  congr 2
  ring

theorem haversineDistance_nonneg (lat1 lon1 lat2 lon2 : ℝ) :
    0 ≤ haversineDistance lat1 lon1 lat2 lon2 := by
  rw [haversineDistance_eq_arccos]
  have := Real.arccos_nonneg (dot3
    (unit3 (lat1 * (Real.pi / 180)) (lon1 * (Real.pi / 180)))
    (unit3 (lat2 * (Real.pi / 180)) (lon2 * (Real.pi / 180))))
  linarith

theorem haversineDistance_self (lat lon : ℝ) :
    haversineDistance lat lon lat lon = 0 := by
  rw [haversineDistance_eq_arccos, dot3_self_unit3, Real.arccos_one, mul_zero]

theorem haversineDistance_triangle (lat1 lon1 lat2 lon2 lat3 lon3 : ℝ) :
    haversineDistance lat1 lon1 lat3 lon3 ≤
      haversineDistance lat1 lon1 lat2 lon2 +
        haversineDistance lat2 lon2 lat3 lon3 := by
  rw [haversineDistance_eq_arccos, haversineDistance_eq_arccos,
    haversineDistance_eq_arccos]
  have := arccos_dot3_triangle
    (dot3_self_unit3 (lat1 * (Real.pi / 180)) (lon1 * (Real.pi / 180)))
    (dot3_self_unit3 (lat2 * (Real.pi / 180)) (lon2 * (Real.pi / 180)))
    (dot3_self_unit3 (lat3 * (Real.pi / 180)) (lon3 * (Real.pi / 180)))
  linarith

/-- Any two points at latitude 90 have haversine distance 0 (their unit
vectors coincide at the pole). -/
theorem haversineDistance_pole (lon1 lon2 : ℝ) :
    haversineDistance 90 lon1 90 lon2 = 0 := by
  rw [haversineDistance_eq_arccos]
  have h90 : (90 : ℝ) * (Real.pi / 180) = Real.pi / 2 := by ring
  have hc : Real.cos ((90 : ℝ) * (Real.pi / 180)) = 0 := by
    rw [h90, Real.cos_pi_div_two]
  have hs : Real.sin ((90 : ℝ) * (Real.pi / 180)) = 1 := by
    rw [h90, Real.sin_pi_div_two]
  have hdot : dot3 (unit3 ((90 : ℝ) * (Real.pi / 180)) (lon1 * (Real.pi / 180)))
      (unit3 ((90 : ℝ) * (Real.pi / 180)) (lon2 * (Real.pi / 180))) = 1 := by
    simp only [dot3, unit3, hc, hs]
    ring
  rw [hdot, Real.arccos_one, mul_zero]

/-! ### Truncation arithmetic for the spatial index -/
theorem truncR_mono {x y : ℝ} (h : x ≤ y) : truncR x ≤ truncR y := by
  unfold truncR
  by_cases hx : 0 ≤ x
  · rw [if_pos hx, if_pos (le_trans hx h)]
    exact Int.floor_le_floor h
  · rw [if_neg hx]
    by_cases hy : 0 ≤ y
    · rw [if_pos hy]
      calc ⌈x⌉ ≤ ⌈(0 : ℝ)⌉ := Int.ceil_le_ceil (le_of_lt (not_le.mp hx))
      _ = 0 := by simp
      _ ≤ ⌊y⌋ := Int.le_floor.mpr (by simpa using hy)
    · rw [if_neg hy]
      exact Int.ceil_le_ceil h

/-- One-sided version of the cell-distance bound: truncation moves by at
most `⌊D⌋ + 1` cells under a shift of at most `D`. -/
theorem truncR_le_shift {x y D : ℝ} (h : y ≤ x + D) (hD : 0 ≤ D) :
    truncR y ≤ truncR x + ⌊D⌋ + 1 := by
  by_cases hyx : y ≤ x
  · have h1 := truncR_mono hyx
    have h2 : (0 : ℤ) ≤ ⌊D⌋ := Int.le_floor.mpr (by simpa using hD)
    omega
  · push_neg at hyx
    unfold truncR
    by_cases hx : 0 ≤ x
    · rw [if_pos hx, if_pos (le_of_lt (lt_of_le_of_lt hx hyx))]
      have : ⌊y⌋ ≤ ⌊x + D⌋ := Int.floor_le_floor h
      have h2 : ⌊x + D⌋ < ⌊x⌋ + ⌊D⌋ + 2 := by
        rw [Int.floor_lt]
        push_cast
        have := Int.lt_floor_add_one x
        have := Int.lt_floor_add_one D
        linarith
      omega
    · rw [if_neg hx]
      by_cases hy : 0 ≤ y
      · rw [if_pos hy]
        have h1 : ⌊y⌋ - ⌈x⌉ ≤ ⌊D⌋ := by
          rw [Int.le_floor]
          push_cast
          have hfy : (⌊y⌋ : ℝ) ≤ y := Int.floor_le y
          have hcx : x ≤ (⌈x⌉ : ℝ) := Int.le_ceil x
          linarith
        omega
      · rw [if_neg hy]
        have : ⌈y⌉ ≤ ⌈x + D⌉ := Int.ceil_le_ceil h
        have h2 : ⌈x + D⌉ ≤ ⌈x⌉ + ⌈D⌉ := Int.ceil_add_le x D
        have h3 : ⌈D⌉ ≤ ⌊D⌋ + 1 := Int.ceil_le_floor_add_one D
        omega

theorem mem_offsetsOf {r i : ℤ} (hr : 0 ≤ r) (h1 : -r ≤ i) (h2 : i ≤ r) :
    i ∈ offsetsOf r := by
  unfold offsetsOf
  have hmem : (i + r).toNat ∈ List.range (2 * r + 1).toNat :=
    List.mem_range.mpr (by omega)
  have heq : -r + (((i + r).toNat : ℕ) : ℤ) = i := by omega
  exact List.mem_map.mpr ⟨(i + r).toNat, hmem, heq⟩

theorem offsetsOf_bound {r i : ℤ} (h : i ∈ offsetsOf r) : -r ≤ i ∧ i ≤ r := by
  unfold offsetsOf at h
  obtain ⟨k, hk, hEq⟩ := List.mem_map.mp h
  rw [List.mem_range] at hk
  omega

theorem truncR_intCast (z : ℤ) : truncR (z : ℝ) = z := by
  unfold truncR
  split <;> simp

theorem truncR_nonneg_eq_floor {x : ℝ} (h : 0 ≤ x) : truncR x = ⌊x⌋ := by
  unfold truncR
  rw [if_pos h]

/-- If a segment sits in the cell of one of its endpoints and that endpoint
is within `radius/111000` degrees of the query point in both coordinates,
`findNearby` returns it. -/
theorem mem_findNearby_of_mem_cells (idx : SpatialIndex) (s : ℕ)
    (elat elon qlat qlon radius : ℝ) (hpos : 0 < idx.cellSize)
    (hmem : s ∈ idx.cells
      (truncR (elat / idx.cellSize), truncR (elon / idx.cellSize)))
    (hr : 0 < radius)
    (h1 : |elat - qlat| ≤ radius / 111000)
    (h2 : |elon - qlon| ≤ radius / 111000) :
    s ∈ idx.findNearby qlat qlon radius := by
  have hcs := hpos
  set cs := idx.cellSize with hcsdef
  set D := radius / 111000 / cs with hD
  have hD0 : 0 ≤ D := by
    rw [hD]
    positivity
  have hfD : (0 : ℤ) ≤ ⌊D⌋ := Int.le_floor.mpr (by simpa using hD0)
  have hcr : max 1 (truncR (radius / 111000 / cs) + 1) = ⌊D⌋ + 1 := by
    rw [← hD, truncR_nonneg_eq_floor hD0]
    omega
  -- per-axis cell distance bound
  have haxis : ∀ e q : ℝ, |e - q| ≤ radius / 111000 →
      -(⌊D⌋ + 1) ≤ truncR (e / cs) - truncR (q / cs) ∧
        truncR (e / cs) - truncR (q / cs) ≤ ⌊D⌋ + 1 := by
    intro e q hle
    rw [abs_le] at hle
    have hup : e / cs ≤ q / cs + D := by
      rw [hD, div_add_div_same]
      exact div_le_div_of_nonneg_right ((by linarith [hle.2] : e ≤ q + radius / 111000)) hcs.le
    have hdn : q / cs ≤ e / cs + D := by
      rw [hD, div_add_div_same]
      exact div_le_div_of_nonneg_right ((by linarith [hle.1] : q ≤ e + radius / 111000)) hcs.le
    have b1 := truncR_le_shift hup hD0
    have b2 := truncR_le_shift hdn hD0
    omega
  obtain ⟨hlo1, hhi1⟩ := haxis elat qlat h1
  obtain ⟨hlo2, hhi2⟩ := haxis elon qlon h2
  -- membership in the collected (deduplicated) segment list
  have hcollect : s ∈ ((offsetsOf (max 1 (truncR (radius / 111000 / cs) + 1))).flatMap
      (fun i => (offsetsOf (max 1 (truncR (radius / 111000 / cs) + 1))).flatMap
        (fun j => idx.cells (truncR (qlat / cs) + i, truncR (qlon / cs) + j)))).dedup := by
    rw [List.mem_dedup]
    rw [hcr]
    apply List.mem_flatMap.mpr
    refine ⟨truncR (elat / cs) - truncR (qlat / cs),
      mem_offsetsOf (by omega) hlo1 hhi1, ?_⟩
    apply List.mem_flatMap.mpr
    refine ⟨truncR (elon / cs) - truncR (qlon / cs),
      mem_offsetsOf (by omega) hlo2 hhi2, ?_⟩
    have hkey : (truncR (qlat / cs) + (truncR (elat / cs) - truncR (qlat / cs)),
        truncR (qlon / cs) + (truncR (elon / cs) - truncR (qlon / cs))) =
        (truncR (elat / cs), truncR (elon / cs)) := by
      congr 1 <;> omega
    rw [hkey]
    exact hmem
  show s ∈ (if _ ∧ _ then _ else _)
  rw [if_neg]
  · exact hcollect
  · intro hand
    exact (List.ne_nil_of_mem hcollect) hand.1

theorem addSegment_cellSize (idx : SpatialIndex) (seg : ℕ) (a b c d : ℝ) :
    (idx.addSegment seg a b c d).cellSize = idx.cellSize := rfl

theorem foldl_addSegment_cellSize (l : List SegInsert) (idx : SpatialIndex) :
    (l.foldl (fun idx e =>
      idx.addSegment e.seg e.startLat e.startLon e.endLat e.endLon) idx).cellSize =
      idx.cellSize := by
  induction l generalizing idx with
  | nil => rfl
  | cons a l ih => rw [List.foldl_cons, ih, addSegment_cellSize]

theorem buildIndex_cellSize (inserts : List SegInsert) :
    (buildIndex inserts).cellSize = 0.001 :=
  foldl_addSegment_cellSize inserts (SpatialIndex.init 0.001)

theorem mem_cells_addSegment_of_mem (idx : SpatialIndex) (seg s : ℕ) (a b c d : ℝ)
    (key : ℤ × ℤ) (h : s ∈ idx.cells key) :
    s ∈ (idx.addSegment seg a b c d).cells key := by
  unfold SpatialIndex.addSegment
  simp only
  split
  · exact List.mem_append_left _ h
  · exact h

theorem mem_cells_foldl_of_mem (l : List SegInsert) (idx : SpatialIndex) (s : ℕ)
    (key : ℤ × ℤ) (h : s ∈ idx.cells key) :
    s ∈ (l.foldl (fun idx e =>
      idx.addSegment e.seg e.startLat e.startLon e.endLat e.endLon) idx).cells key := by
  induction l generalizing idx with
  | nil => exact h
  | cons a l ih =>
    rw [List.foldl_cons]
    exact ih _ (mem_cells_addSegment_of_mem _ _ _ _ _ _ _ _ h)

/-- `addSegment` records the segment in the cell of its start endpoint and
in the cell of its end endpoint (the two corners of the covered bounding
box of cells). -/
theorem addSegment_mem_endpoint_cells (idx : SpatialIndex) (seg : ℕ)
    (sLat sLon eLat eLon : ℝ) (hpos : 0 < idx.cellSize) :
    seg ∈ (idx.addSegment seg sLat sLon eLat eLon).cells
        (truncR (sLat / idx.cellSize), truncR (sLon / idx.cellSize)) ∧
      seg ∈ (idx.addSegment seg sLat sLon eLat eLon).cells
        (truncR (eLat / idx.cellSize), truncR (eLon / idx.cellSize)) := by
  have hdiv : ∀ x y : ℝ, x ≤ y → x / idx.cellSize ≤ y / idx.cellSize := by
    intro x y hxy
    exact div_le_div_of_nonneg_right hxy hpos.le
  have hbound : ∀ u v : ℝ,
      truncR (min u v / idx.cellSize) ≤ truncR (u / idx.cellSize) ∧
        truncR (u / idx.cellSize) ≤ truncR (max u v / idx.cellSize) := by
    intro u v
    exact ⟨truncR_mono (hdiv _ _ (min_le_left u v)),
      truncR_mono (hdiv _ _ (le_max_left u v))⟩
  have hbound2 : ∀ u v : ℝ,
      truncR (min u v / idx.cellSize) ≤ truncR (v / idx.cellSize) ∧
        truncR (v / idx.cellSize) ≤ truncR (max u v / idx.cellSize) := by
    intro u v
    exact ⟨truncR_mono (hdiv _ _ (min_le_right u v)),
      truncR_mono (hdiv _ _ (le_max_right u v))⟩
  constructor
  · unfold SpatialIndex.addSegment
    simp only
    rw [if_pos]
    · exact List.mem_append_right _ (List.mem_singleton.mpr rfl)
    · exact ⟨(hbound sLat eLat).1, (hbound sLat eLat).2,
        (hbound sLon eLon).1, (hbound sLon eLon).2⟩
  · unfold SpatialIndex.addSegment
    simp only
    rw [if_pos]
    · exact List.mem_append_right _ (List.mem_singleton.mpr rfl)
    · exact ⟨(hbound2 sLat eLat).1, (hbound2 sLat eLat).2,
        (hbound2 sLon eLon).1, (hbound2 sLon eLon).2⟩

theorem mem_cells_buildIndex (inserts : List SegInsert) (e : SegInsert)
    (he : e ∈ inserts) :
    e.seg ∈ (buildIndex inserts).cells
        (truncR (e.startLat / 0.001), truncR (e.startLon / 0.001)) ∧
      e.seg ∈ (buildIndex inserts).cells
        (truncR (e.endLat / 0.001), truncR (e.endLon / 0.001)) := by
  unfold buildIndex
  -- generalize the initial index, keeping its cell size at 0.001
  suffices h : ∀ idx : SpatialIndex, idx.cellSize = 0.001 →
      e.seg ∈ (inserts.foldl (fun idx e =>
          idx.addSegment e.seg e.startLat e.startLon e.endLat e.endLon) idx).cells
        (truncR (e.startLat / 0.001), truncR (e.startLon / 0.001)) ∧
      e.seg ∈ (inserts.foldl (fun idx e =>
          idx.addSegment e.seg e.startLat e.startLon e.endLat e.endLon) idx).cells
        (truncR (e.endLat / 0.001), truncR (e.endLon / 0.001)) by
    exact h (SpatialIndex.init 0.001) rfl
  induction inserts with
  | nil => exact absurd he (List.not_mem_nil e)
  | cons a l ih =>
    intro idx hidx
    rcases List.mem_cons.mp he with heq | htail
    · subst heq
      rw [List.foldl_cons]
      have hpos : 0 < idx.cellSize := by rw [hidx]; norm_num
      have hcorner := addSegment_mem_endpoint_cells idx e.seg
        e.startLat e.startLon e.endLat e.endLon hpos
      rw [hidx] at hcorner
      exact ⟨mem_cells_foldl_of_mem _ _ _ _ hcorner.1,
        mem_cells_foldl_of_mem _ _ _ _ hcorner.2⟩
    · rw [List.foldl_cons]
      exact ih htail _ (by rw [addSegment_cellSize, hidx])

/-- C2 (amended): for every segment inserted into the spatial index and
every query point and radius `r > 0`, if some endpoint of the segment is
within `r/111000` degrees of the query point in both the latitude and the
longitude coordinate, then `find_nearby` returns the segment.  (The
original claim, with closeness measured by haversine distance, fails near
the poles; see the counterexample.) -/
theorem C2_spatial_cover (inserts : List SegInsert) (e : SegInsert)
    (qlat qlon radius : ℝ) (he : e ∈ inserts) (hr : 0 < radius)
    (hclose : (|e.startLat - qlat| ≤ radius / 111000 ∧
        |e.startLon - qlon| ≤ radius / 111000) ∨
      (|e.endLat - qlat| ≤ radius / 111000 ∧
        |e.endLon - qlon| ≤ radius / 111000)) :
    e.seg ∈ (buildIndex inserts).findNearby qlat qlon radius := by
  have hcs : (buildIndex inserts).cellSize = 0.001 :=
    foldl_addSegment_cellSize inserts (SpatialIndex.init 0.001)
  have hpos : 0 < (buildIndex inserts).cellSize := by rw [hcs]; norm_num
  have hmem := mem_cells_buildIndex inserts e he
  rcases hclose with ⟨h1, h2⟩ | ⟨h1, h2⟩
  · refine mem_findNearby_of_mem_cells _ _ e.startLat e.startLon _ _ _ hpos ?_ hr h1 h2
    rw [hcs]
    exact hmem.1
  · refine mem_findNearby_of_mem_cells _ _ e.endLat e.endLon _ _ _ hpos ?_ hr h1 h2
    rw [hcs]
    exact hmem.2

/-- Witness for C2: a segment with start endpoint at the query point is
found at radius 100 m. -/
theorem C2_spatial_cover_witness :
    (⟨1, 0, 0, 0.001, 0⟩ : SegInsert) ∈ [(⟨1, 0, 0, 0.001, 0⟩ : SegInsert)] ∧
      (0 : ℝ) < 100 ∧
      (|(0 : ℝ) - 0| ≤ 100 / 111000 ∧ |(0 : ℝ) - 0| ≤ 100 / 111000) ∧
      1 ∈ (buildIndex [⟨1, 0, 0, 0.001, 0⟩]).findNearby 0 0 100 := by
  refine ⟨List.mem_singleton.mpr rfl, by norm_num, ⟨by norm_num, by norm_num⟩, ?_⟩
  exact C2_spatial_cover [⟨1, 0, 0, 0.001, 0⟩] ⟨1, 0, 0, 0.001, 0⟩ 0 0 100
    (List.mem_singleton.mpr rfl) (by norm_num)
    (Or.inl ⟨by norm_num, by norm_num⟩)

/-- C2 as stated is false: at the pole, a segment whose endpoint is at
haversine distance 0 from the query point (both at latitude 90) is not
returned, because the cell radius derived from `radius/111000` does not
cover the longitude-cell distance. -/
theorem C2_counterexample :
    (0 : ℝ) < 100 ∧
      haversineDistance 90 25 90 0 ≤ 100 ∧
      1 ∉ (buildIndex [⟨1, 90, 25, 90, 25.001⟩]).findNearby 90 0 100 := by
  refine ⟨by norm_num, ?_, ?_⟩
  · rw [haversineDistance_pole]
    norm_num
  · -- the collected segment list is empty: every scanned cell is empty
    have ht90 : truncR ((90 : ℝ) / 0.001) = 90000 := by
      rw [show ((90 : ℝ) / 0.001) = ((90000 : ℤ) : ℝ) by norm_num, truncR_intCast]
    have ht0 : truncR ((0 : ℝ) / 0.001) = 0 := by
      rw [show ((0 : ℝ) / 0.001) = ((0 : ℤ) : ℝ) by norm_num, truncR_intCast]
    have htr : truncR ((100 : ℝ) / 111000 / 0.001) = 0 := by
      rw [truncR_nonneg_eq_floor (by norm_num), Int.floor_eq_zero_iff]
      constructor <;> norm_num
    have hcells : ∀ key : ℤ × ℤ, key.2 ≤ 1 →
        (buildIndex [⟨1, 90, 25, 90, 25.001⟩]).cells key = [] := by
      intro key hk
      show ((SpatialIndex.init 0.001).addSegment 1 90 25 90 25.001).cells key = []
      unfold SpatialIndex.addSegment SpatialIndex.init
      simp only
      rw [if_neg]
      intro hand
      have h25 : truncR (min (25 : ℝ) 25.001 / 0.001) = 25000 := by
        rw [show (min (25 : ℝ) 25.001 / 0.001) = ((25000 : ℤ) : ℝ) by
          rw [min_eq_left (by norm_num)]
          norm_num, truncR_intCast]
      rw [h25] at hand
      omega
    unfold SpatialIndex.findNearby
    simp only [buildIndex_cellSize]
    show 1 ∉ (if _ ∧ _ then _ else _)
    have hoffs : ∀ i j : ℤ, i ∈ offsetsOf (max 1 (truncR ((100 : ℝ) / 111000 / 0.001) + 1)) →
        j ∈ offsetsOf (max 1 (truncR ((100 : ℝ) / 111000 / 0.001) + 1)) →
        (buildIndex [⟨1, 90, 25, 90, 25.001⟩]).cells
          (truncR ((90 : ℝ) / 0.001) + i, truncR ((0 : ℝ) / 0.001) + j) = [] := by
      intro i j hi hj
      rw [htr] at hj
      have hbj := offsetsOf_bound hj
      apply hcells
      show truncR ((0 : ℝ) / 0.001) + j ≤ 1
      rw [ht0]
      omega
    have hflat : ((offsetsOf (max 1 (truncR ((100 : ℝ) / 111000 / 0.001) + 1))).flatMap
        (fun i => (offsetsOf (max 1 (truncR ((100 : ℝ) / 111000 / 0.001) + 1))).flatMap
          (fun j => (buildIndex [⟨1, 90, 25, 90, 25.001⟩]).cells
            (truncR ((90 : ℝ) / 0.001) + i, truncR ((0 : ℝ) / 0.001) + j)))).dedup = [] := by
      rw [List.dedup_eq_nil]
      rw [List.flatMap_eq_nil_iff]
      intro i hi
      rw [List.flatMap_eq_nil_iff]
      intro j hj
      exact hoffs i j hi hj
    rw [hflat]
    rw [if_neg]
    · exact List.not_mem_nil 1
    · intro hand
      have h1000 := hand.2
      norm_num at h1000

theorem getD_concat_length {α : Type} [Inhabited α] (l : List α) (a : α) :
    (l ++ [a]).getD l.length default = a := by
  simp [List.getD_append_right, Nat.sub_self]

/-- C8 (amended): `add_node` is create-and-replace, not create-or-return:
it always allocates a fresh node carrying the given coordinates, binds the
id to it (the previously bound node, if any, is destroyed), and returns
the fresh node.  The key set of the node map is unchanged when the id was
already bound, so the node count is idempotent for a repeated id, but the
existing node is not returned and does not survive. -/
theorem C8_addNode_replaces (g : RoadGraph) (id : String) (lat lon : ℝ) :
    ((g.addNode id lat lon).2.nodeAt (g.addNode id lat lon).1).id = id ∧
      ((g.addNode id lat lon).2.nodeAt (g.addNode id lat lon).1).latitude = lat ∧
      ((g.addNode id lat lon).2.nodeAt (g.addNode id lat lon).1).longitude = lon ∧
      (g.addNode id lat lon).2.nodes id = some (g.addNode id lat lon).1 ∧
      (∀ s, s ≠ id → (g.addNode id lat lon).2.nodes s = g.nodes s) ∧
      ((g.nodes id).isSome →
        ∀ s, ((g.addNode id lat lon).2.nodes s).isSome = (g.nodes s).isSome) := by
  unfold RoadGraph.addNode RoadGraph.nodeAt
  simp only
  have hAt : (g.nodeHeap ++ [(⟨id, lat, lon, []⟩ : NodeObj)]).getD
      g.nodeHeap.length default = (⟨id, lat, lon, []⟩ : NodeObj) :=
    getD_concat_length g.nodeHeap _
  refine ⟨by rw [hAt], by rw [hAt], by rw [hAt], by simp, ?_, ?_⟩
  · intro s hs
    rw [if_neg hs]
  · intro hsome s
    by_cases hs : s = id
    · subst hs
      simp only [if_pos rfl, Option.isSome_some]
      exact hsome.symm
    · rw [if_neg hs]

/-- Witness for C8: applying the amended theorem on a graph where the id
is already bound shows the key set is preserved at the repeated id. -/
theorem C8_addNode_replaces_witness :
    ((((RoadGraph.init.addNode "a" 1 2).2.addNode "a" 3 4).2.nodes "a").isSome =
      (((RoadGraph.init.addNode "a" 1 2).2.nodes "a")).isSome) :=
  (C8_addNode_replaces (RoadGraph.init.addNode "a" 1 2).2 "a" 3 4).2.2.2.2.2
    (by simp [RoadGraph.addNode, RoadGraph.init]) "a"

/-- C8 as stated is false: adding a node with an id that is already bound
does not return the existing node.  A second `addNode "a"` returns a fresh
node (heap index 1, not 0), rebinds the map entry, and the node reachable
under "a" now carries the new coordinates. -/
theorem C8_counterexample :
    (((RoadGraph.init.addNode "a" 1 2).2.addNode "a" 3 4).1 ≠
        (RoadGraph.init.addNode "a" 1 2).1) ∧
      ((RoadGraph.init.addNode "a" 1 2).2.addNode "a" 3 4).2.nodes "a" ≠
        (RoadGraph.init.addNode "a" 1 2).2.nodes "a" ∧
      (((RoadGraph.init.addNode "a" 1 2).2.addNode "a" 3 4).2.nodeAt
          ((((RoadGraph.init.addNode "a" 1 2).2.addNode "a" 3 4).2.nodes
            "a").getD 0)).latitude ≠
        ((RoadGraph.init.addNode "a" 1 2).2.nodeAt
          (((RoadGraph.init.addNode "a" 1 2).2.nodes "a").getD 0)).latitude := by
  refine ⟨?_, ?_, ?_⟩
  · simp [RoadGraph.addNode, RoadGraph.init]
  · simp [RoadGraph.addNode, RoadGraph.init]
  · show (3 : ℝ) ≠ 1
    norm_num

/-- `atan2` lands in `(-pi, pi]`. -/
theorem atan2_range (y x : ℝ) : -Real.pi < atan2 y x ∧ atan2 y x ≤ Real.pi := by
  have hpi := Real.pi_pos
  have hub := Real.arctan_lt_pi_div_two (y / x)
  have hlb := Real.neg_pi_div_two_lt_arctan (y / x)
  unfold atan2
  by_cases hx : 0 < x
  · rw [if_pos hx]
    constructor <;> linarith
  · rw [if_neg hx]
    by_cases hx2 : x < 0
    · rw [if_pos hx2]
      by_cases hy : 0 ≤ y
      · rw [if_pos hy]
        have hyx : y / x ≤ 0 := div_nonpos_iff.mpr (Or.inl ⟨hy, hx2.le⟩)
        have : Real.arctan (y / x) ≤ Real.arctan 0 :=
          Real.arctan_strictMono.monotone hyx
        rw [Real.arctan_zero] at this
        constructor <;> linarith
      · rw [if_neg hy]
        push_neg at hy
        have hyx : 0 < y / x := div_pos_of_neg_of_neg hy hx2
        have : Real.arctan 0 < Real.arctan (y / x) :=
          Real.arctan_strictMono hyx
        rw [Real.arctan_zero] at this
        constructor <;> linarith
    · rw [if_neg hx2]
      by_cases hy : 0 < y
      · rw [if_pos hy]
        constructor <;> linarith
      · rw [if_neg hy]
        by_cases hy2 : y < 0
        · rw [if_pos hy2]
          constructor <;> linarith
        · rw [if_neg hy2]
          constructor <;> linarith

theorem clampVelocities_nan_false {a b c d : FD} (ha : a.nan = false)
    (hb : b.nan = false) (hc : c.nan = false) (hd : d.nan = false) :
    (clampVelocities a b c d).1.nan = false ∧
      (clampVelocities a b c d).2.nan = false := by
  unfold clampVelocities
  split
  · exact ⟨by simp [FD.add, FD.copysign, FD.ofReal, ha], by simp [FD.add, FD.copysign, FD.ofReal, hb]⟩
  · exact ⟨hc, hd⟩

/-- C7 (amended): the per-step velocity clamp is joint, not per-dimension:
if either component's change exceeds 10 deg/s, then both components are
replaced by `old + sign(new - old) * 10`; only when neither change exceeds
10 are the instantaneous values kept. -/
theorem C7_clamp_joint (o1 o2 n1 n2 : FD) (ho1 : o1.nan = false)
    (ho2 : o2.nan = false) (hn1 : n1.nan = false) (hn2 : n2.nan = false) :
    ((|n1.val - o1.val| > 10 ∨ |n2.val - o2.val| > 10) →
      (clampVelocities o1 o2 n1 n2).1.val =
          o1.val + (if n1.val - o1.val < 0 then -(10 : ℝ) else 10) ∧
        (clampVelocities o1 o2 n1 n2).2.val =
          o2.val + (if n2.val - o2.val < 0 then -(10 : ℝ) else 10)) ∧
      ((|n1.val - o1.val| ≤ 10 ∧ |n2.val - o2.val| ≤ 10) →
        (clampVelocities o1 o2 n1 n2) = (n1, n2)) := by
  constructor
  · intro hbig
    unfold clampVelocities
    rw [if_pos]
    · constructor
      · show o1.val + _ = _
        simp only [FD.copysign, FD.sub, FD.abs, FD.ofReal]
        congr 1
        split <;> norm_num
      · show o2.val + _ = _
        simp only [FD.copysign, FD.sub, FD.abs, FD.ofReal]
        congr 1
        split <;> norm_num
    · rcases hbig with h | h
      · exact Or.inl ⟨rfl, by simp [FD.abs, FD.sub, hn1, ho1], by
          simpa [FD.abs, FD.sub, FD.ofReal] using h⟩
      · exact Or.inr ⟨rfl, by simp [FD.abs, FD.sub, hn2, ho2], by
          simpa [FD.abs, FD.sub, FD.ofReal] using h⟩
  · intro hsmall
    unfold clampVelocities
    rw [if_neg]
    intro hor
    rcases hor with h | h
    · have := h.2.2
      simp only [FD.abs, FD.sub, FD.ofReal] at this
      linarith [hsmall.1]
    · have := h.2.2
      simp only [FD.abs, FD.sub, FD.ofReal] at this
      linarith [hsmall.2]

/-- Witness for C7: with a latitude-velocity jump of 20 and no longitude
change, both components are clamped. -/
theorem C7_clamp_joint_witness :
    (|(20 : ℝ) - 0| > 10 ∨ |(0 : ℝ) - 0| > 10) ∧
      (clampVelocities (FD.ofReal 0) (FD.ofReal 0) (FD.ofReal 20)
          (FD.ofReal 0)).1.val =
        0 + (if (20 : ℝ) - 0 < 0 then -(10 : ℝ) else 10) ∧
      (clampVelocities (FD.ofReal 0) (FD.ofReal 0) (FD.ofReal 20)
          (FD.ofReal 0)).2.val =
        0 + (if (0 : ℝ) - 0 < 0 then -(10 : ℝ) else 10) := by
  have h := (C7_clamp_joint (FD.ofReal 0) (FD.ofReal 0) (FD.ofReal 20)
    (FD.ofReal 0) rfl rfl rfl rfl).1 (Or.inl (by
      show |(20 : ℝ) - (0 : ℝ)| > 10
      norm_num))
  exact ⟨Or.inl (by norm_num), h.1, h.2⟩

/-- C7 as stated is false: with a latitude change of 20 deg/s and a
longitude change of 0, the longitude component is altered (from 0 to 10)
although its own change does not exceed 10 deg/s. -/
theorem C7_counterexample :
    |(0 : ℝ) - 0| ≤ 10 ∧
      (clampVelocities (FD.ofReal 0) (FD.ofReal 0) (FD.ofReal 20)
          (FD.ofReal 0)).2.val = 10 ∧
      (10 : ℝ) ≠ 0 := by
  refine ⟨by norm_num, ?_, by norm_num⟩
  unfold clampVelocities
  rw [if_pos]
  · show (0 : ℝ) + _ = 10
    simp only [FD.copysign, FD.sub, FD.ofReal]
    norm_num
  · refine Or.inl ⟨rfl, rfl, ?_⟩
    show (10 : ℝ) < |(20 : ℝ) - (0 : ℝ)|
    norm_num

/-- The derived-bearing block of `process` (location_filter.cpp:116-131)
either passes `rawb` through or produces a finite value in `[0, 360)`. -/
theorem bearing_branch_range (latv lonv rawb : FD) (hla : latv.nan = false)
    (hlo : lonv.nan = false) :
    (if FD.lt (FD.ofReal 0.00001)
        (FD.sqrt (FD.add (FD.mul latv latv) (FD.mul lonv lonv))) then
      (if FD.lt (FD.div (FD.mul (FD.atan2F lonv latv) (FD.ofReal 180))
            (FD.ofReal Real.pi)) (FD.ofReal 0) then
        FD.add (FD.div (FD.mul (FD.atan2F lonv latv) (FD.ofReal 180))
          (FD.ofReal Real.pi)) (FD.ofReal 360)
      else FD.div (FD.mul (FD.atan2F lonv latv) (FD.ofReal 180))
        (FD.ofReal Real.pi))
    else rawb) = rawb ∨
    (if FD.lt (FD.ofReal 0.00001)
        (FD.sqrt (FD.add (FD.mul latv latv) (FD.mul lonv lonv))) then
      (if FD.lt (FD.div (FD.mul (FD.atan2F lonv latv) (FD.ofReal 180))
            (FD.ofReal Real.pi)) (FD.ofReal 0) then
        FD.add (FD.div (FD.mul (FD.atan2F lonv latv) (FD.ofReal 180))
          (FD.ofReal Real.pi)) (FD.ofReal 360)
      else FD.div (FD.mul (FD.atan2F lonv latv) (FD.ofReal 180))
        (FD.ofReal Real.pi))
    else rawb).nan = false ∧
      0 ≤ (if FD.lt (FD.ofReal 0.00001)
          (FD.sqrt (FD.add (FD.mul latv latv) (FD.mul lonv lonv))) then
        (if FD.lt (FD.div (FD.mul (FD.atan2F lonv latv) (FD.ofReal 180))
              (FD.ofReal Real.pi)) (FD.ofReal 0) then
          FD.add (FD.div (FD.mul (FD.atan2F lonv latv) (FD.ofReal 180))
            (FD.ofReal Real.pi)) (FD.ofReal 360)
        else FD.div (FD.mul (FD.atan2F lonv latv) (FD.ofReal 180))
          (FD.ofReal Real.pi))
      else rawb).val ∧
      (if FD.lt (FD.ofReal 0.00001)
          (FD.sqrt (FD.add (FD.mul latv latv) (FD.mul lonv lonv))) then
        (if FD.lt (FD.div (FD.mul (FD.atan2F lonv latv) (FD.ofReal 180))
              (FD.ofReal Real.pi)) (FD.ofReal 0) then
          FD.add (FD.div (FD.mul (FD.atan2F lonv latv) (FD.ofReal 180))
            (FD.ofReal Real.pi)) (FD.ofReal 360)
        else FD.div (FD.mul (FD.atan2F lonv latv) (FD.ofReal 180))
          (FD.ofReal Real.pi))
      else rawb).val < 360 := by
  by_cases hm : FD.lt (FD.ofReal 0.00001)
      (FD.sqrt (FD.add (FD.mul latv latv) (FD.mul lonv lonv)))
  · right
    rw [if_pos hm]
    have hpi := Real.pi_pos
    have hb0nan : (FD.div (FD.mul (FD.atan2F lonv latv) (FD.ofReal 180))
        (FD.ofReal Real.pi)).nan = false := by
      simp [FD.div, FD.mul, FD.atan2F, FD.ofReal, hla, hlo]
    have hval : (FD.div (FD.mul (FD.atan2F lonv latv) (FD.ofReal 180))
        (FD.ofReal Real.pi)).val = atan2 lonv.val latv.val * 180 / Real.pi := rfl
    have hrange := atan2_range lonv.val latv.val
    have hub : (FD.div (FD.mul (FD.atan2F lonv latv) (FD.ofReal 180))
        (FD.ofReal Real.pi)).val ≤ 180 := by
      rw [hval, div_le_iff₀ hpi]
      nlinarith [hrange.2]
    have hlb : -180 < (FD.div (FD.mul (FD.atan2F lonv latv) (FD.ofReal 180))
        (FD.ofReal Real.pi)).val := by
      rw [hval, lt_div_iff₀ hpi]
      nlinarith [hrange.1]
    by_cases hneg : FD.lt (FD.div (FD.mul (FD.atan2F lonv latv) (FD.ofReal 180))
        (FD.ofReal Real.pi)) (FD.ofReal 0)
    · rw [if_pos hneg]
      have hv := hneg.2.2
      rw [FD.ofReal_val] at hv
      refine ⟨by simp [hla, hlo], ?_, ?_⟩
      · show 0 ≤ _ + (360 : ℝ)
        linarith
      · show _ + (360 : ℝ) < 360
        linarith
    · rw [if_neg hneg]
      have hge : ¬((FD.div (FD.mul (FD.atan2F lonv latv) (FD.ofReal 180))
          (FD.ofReal Real.pi)).val < 0) := by
        intro hvlt
        exact hneg ⟨hb0nan, rfl, hvlt⟩
      push_neg at hge
      exact ⟨hb0nan, hge, by linarith⟩
  · left
    rw [if_neg hm]

/-- C5 (amended): a fix processed by an already-initialized filter has
accuracy `0.8 * raw.accuracy`, and (for finite input and filter state) a
bearing that is either the raw bearing or a finite value in `[0, 360)`;
the very first fix after construction is returned unchanged (so its
accuracy is the raw accuracy, not `0.8` times it). -/
theorem C5_filter_output (st : LocationFilterState) (raw : FLocation)
    (now : ℤ) :
    (st.initialized = false → (LocationFilter.process st raw now).1 = raw) ∧
      (st.initialized = true →
        (LocationFilter.process st raw now).1.accuracy =
          FD.mul raw.accuracy (FD.ofReal 0.8)) ∧
      (st.initialized = true → st.lat.nan = false → st.lon.nan = false →
        st.lat_vel.nan = false → st.lon_vel.nan = false →
        raw.latitude.nan = false → raw.longitude.nan = false →
        ((LocationFilter.process st raw now).1.bearing = raw.bearing ∨
          ((LocationFilter.process st raw now).1.bearing.nan = false ∧
            0 ≤ (LocationFilter.process st raw now).1.bearing.val ∧
            (LocationFilter.process st raw now).1.bearing.val < 360))) := by
  refine ⟨?_, ?_, ?_⟩
  · intro hinit
    unfold LocationFilter.process
    rw [if_pos hinit]
  · intro hinit
    have hcond : ¬(st.initialized = false) := by rw [hinit]; simp
    unfold LocationFilter.process
    rw [if_neg hcond]
  · intro hinit hlat hlon hlv hov hrlat hrlon
    have hcond : ¬(st.initialized = false) := by rw [hinit]; simp
    unfold LocationFilter.process
    rw [if_neg hcond]
    simp only
    by_cases hb : raw.bearing.nan = true
    · rw [if_pos hb]
      have hsm : ∀ X : ℝ,
          (FD.add (FD.mul st.lat_vel (FD.ofReal 0.7))
            (FD.mul (clampVelocities st.lat_vel st.lon_vel
              (FD.div (FD.sub raw.latitude
                (FD.add st.lat (FD.mul st.lat_vel (FD.ofReal X)))) (FD.ofReal X))
              (FD.div (FD.sub raw.longitude
                (FD.add st.lon (FD.mul st.lon_vel (FD.ofReal X)))) (FD.ofReal X))).1
              (FD.ofReal 0.3))).nan = false ∧
          (FD.add (FD.mul st.lon_vel (FD.ofReal 0.7))
            (FD.mul (clampVelocities st.lat_vel st.lon_vel
              (FD.div (FD.sub raw.latitude
                (FD.add st.lat (FD.mul st.lat_vel (FD.ofReal X)))) (FD.ofReal X))
              (FD.div (FD.sub raw.longitude
                (FD.add st.lon (FD.mul st.lon_vel (FD.ofReal X)))) (FD.ofReal X))).2
              (FD.ofReal 0.3))).nan = false := by
        intro X
        have hcn : (FD.div (FD.sub raw.latitude
            (FD.add st.lat (FD.mul st.lat_vel (FD.ofReal X))))
            (FD.ofReal X)).nan = false := by
          simp [hrlat, hlat, hlv]
        have hdn : (FD.div (FD.sub raw.longitude
            (FD.add st.lon (FD.mul st.lon_vel (FD.ofReal X))))
            (FD.ofReal X)).nan = false := by
          simp [hrlon, hlon, hov]
        have hc := clampVelocities_nan_false hlv hov hcn hdn
        exact ⟨by simp [hlv, hc.1], by simp [hov, hc.2]⟩
      apply bearing_branch_range
      · exact (hsm _).1
      · exact (hsm _).2
    · rw [if_neg hb]
      exact Or.inl rfl

/-- Witness for C5: an initialized all-zero filter state and a finite raw
fix with accuracy 5; the output accuracy is `5 * 0.8`. -/
theorem C5_filter_output_witness :
    (⟨true, FD.ofReal 0, FD.ofReal 0, FD.ofReal 0, FD.ofReal 0, FD.ofReal 10,
        FD.ofReal 5, 0.01, 0.1, 5, 0⟩ : LocationFilterState).initialized = true ∧
      (LocationFilter.process
        ⟨true, FD.ofReal 0, FD.ofReal 0, FD.ofReal 0, FD.ofReal 0, FD.ofReal 10,
          FD.ofReal 5, 0.01, 0.1, 5, 0⟩
        ⟨FD.ofReal 1, FD.ofReal 2, FD.ofReal 90, FD.ofReal 0, FD.ofReal 5⟩
        1000).1.accuracy = FD.mul (FD.ofReal 5) (FD.ofReal 0.8) :=
  ⟨rfl, (C5_filter_output
    ⟨true, FD.ofReal 0, FD.ofReal 0, FD.ofReal 0, FD.ofReal 0, FD.ofReal 10,
      FD.ofReal 5, 0.01, 0.1, 5, 0⟩
    ⟨FD.ofReal 1, FD.ofReal 2, FD.ofReal 90, FD.ofReal 0, FD.ofReal 5⟩
    1000).2.1 rfl⟩

/-- C5 as stated is false at the very first fix: a fresh filter returns
the raw fix unchanged, so the output accuracy is 5, not 0.8 * 5. -/
theorem C5_counterexample :
    LocationFilter.initState.initialized = false ∧
      (LocationFilter.process LocationFilter.initState
        ⟨FD.ofReal 1, FD.ofReal 2, FD.ofReal 90, FD.ofReal 0, FD.ofReal 5⟩
        0).1.accuracy.val = 5 ∧
      (5 : ℝ) ≠ 0.8 * 5 := by
  refine ⟨rfl, rfl, by norm_num⟩

/-- C6 (amended): `process` has no finiteness check at all.  On an
initialized filter it runs the normal update for every raw fix, finite or
not: the stored timestamp always becomes the current time, the filter
stays initialized, and a NaN raw latitude propagates into the stored
latitude (the state is updated, not preserved). -/
theorem C6_no_finiteness_gate (st : LocationFilterState) (raw : FLocation)
    (now : ℤ) (hinit : st.initialized = true) :
    (LocationFilter.process st raw now).2.lastTimestamp = now ∧
      (LocationFilter.process st raw now).2.initialized = true ∧
      (raw.latitude.nan = true →
        (LocationFilter.process st raw now).2.lat.nan = true) := by
  have hcond : ¬(st.initialized = false) := by rw [hinit]; simp
  unfold LocationFilter.process
  rw [if_neg hcond]
  refine ⟨rfl, hinit, ?_⟩
  intro hnan
  simp [FD.add, FD.mul, FD.sub, hnan]

/-- Witness for C6: on a concrete initialized state with a NaN-latitude
fix at time 1000 the stored timestamp becomes 1000 and the state latitude
becomes NaN. -/
theorem C6_no_finiteness_gate_witness :
    (LocationFilter.process
        ⟨true, FD.ofReal 0, FD.ofReal 0, FD.ofReal 0, FD.ofReal 0, FD.ofReal 10,
          FD.ofReal 5, 0.01, 0.1, 5, 0⟩
        ⟨⟨true, 0⟩, FD.ofReal 2, FD.ofReal 90, FD.ofReal 0, FD.ofReal 5⟩
        1000).2.lastTimestamp = 1000 ∧
      (LocationFilter.process
        ⟨true, FD.ofReal 0, FD.ofReal 0, FD.ofReal 0, FD.ofReal 0, FD.ofReal 10,
          FD.ofReal 5, 0.01, 0.1, 5, 0⟩
        ⟨⟨true, 0⟩, FD.ofReal 2, FD.ofReal 90, FD.ofReal 0, FD.ofReal 5⟩
        1000).2.lat.nan = true := by
  have h := C6_no_finiteness_gate
    ⟨true, FD.ofReal 0, FD.ofReal 0, FD.ofReal 0, FD.ofReal 0, FD.ofReal 10,
      FD.ofReal 5, 0.01, 0.1, 5, 0⟩
    ⟨⟨true, 0⟩, FD.ofReal 2, FD.ofReal 90, FD.ofReal 0, FD.ofReal 5⟩
    1000 rfl
  exact ⟨h.1, h.2.2 rfl⟩

/-- C6 as stated is false: a non-finite (NaN) latitude is not treated as
the uninitialized case.  On an initialized filter the state is modified:
the stored timestamp changes from 0 to 1000 and the stored latitude
becomes NaN instead of being left untouched. -/
theorem C6_counterexample :
    (⟨true, FD.ofReal 0, FD.ofReal 0, FD.ofReal 0, FD.ofReal 0, FD.ofReal 10,
        FD.ofReal 5, 0.01, 0.1, 5, 0⟩ : LocationFilterState).lastTimestamp = 0 ∧
      (⟨true, 0⟩ : FD).nan = true ∧
      (LocationFilter.process
        ⟨true, FD.ofReal 0, FD.ofReal 0, FD.ofReal 0, FD.ofReal 0, FD.ofReal 10,
          FD.ofReal 5, 0.01, 0.1, 5, 0⟩
        ⟨⟨true, 0⟩, FD.ofReal 2, FD.ofReal 90, FD.ofReal 0, FD.ofReal 5⟩
        1000).2.lastTimestamp = 1000 ∧
      (1000 : ℤ) ≠ 0 := by
  refine ⟨rfl, rfl, rfl, by norm_num⟩

theorem cumDistFrom_length (rest : List Location) :
    ∀ (prev : ℝ) (p : Location), (cumDistFrom prev p rest).length = rest.length := by
  induction rest with
  | nil => intro prev p; rfl
  | cons q rest ih =>
    intro prev p
    show (_ :: _).length = _
    simp only [List.length_cons, ih]

theorem buildCumDist_length (pts : List Location) :
    (buildCumDist pts).length = pts.length := by
  cases pts with
  | nil => rfl
  | cons p rest =>
    show (_ :: _).length = _
    simp only [List.length_cons, cumDistFrom_length]

theorem cumDistFrom_getD_zero (rest : List Location) (prev : ℝ) (p : Location)
    (hne : rest ≠ []) :
    (cumDistFrom prev p rest).getD 0 0 =
      prev + haversineDistance p.latitude p.longitude
        (rest.getD 0 default).latitude (rest.getD 0 default).longitude := by
  cases rest with
  | nil => exact absurd rfl hne
  | cons q rest => rfl

theorem cumDistFrom_getD_succ (rest : List Location) :
    ∀ (prev : ℝ) (p : Location) (k : ℕ), k + 1 < rest.length →
    (cumDistFrom prev p rest).getD (k + 1) 0 =
      (cumDistFrom prev p rest).getD k 0 +
        haversineDistance (rest.getD k default).latitude
          (rest.getD k default).longitude
          (rest.getD (k + 1) default).latitude
          (rest.getD (k + 1) default).longitude := by
  induction rest with
  | nil => intro prev p k h; simp at h
  | cons q rest ih =>
    intro prev p k h
    cases k with
    | zero =>
      show (cumDistFrom _ q rest).getD 0 0 = _
      have hne : rest ≠ [] := by
        intro he
        rw [he] at h
        simp at h
      rw [cumDistFrom_getD_zero rest _ q hne]
      rfl
    | succ k =>
      show (cumDistFrom _ q rest).getD (k + 1) 0 = _
      rw [ih _ q k (by simpa using h)]
      rfl

theorem buildCumDist_getD_zero (pts : List Location) (hne : pts ≠ []) :
    (buildCumDist pts).getD 0 0 = 0 := by
  cases pts with
  | nil => exact absurd rfl hne
  | cons p rest => rfl

theorem buildCumDist_getD_succ (pts : List Location) (k : ℕ)
    (h : k + 1 < pts.length) :
    (buildCumDist pts).getD (k + 1) 0 =
      (buildCumDist pts).getD k 0 +
        haversineDistance (pts.getD k default).latitude
          (pts.getD k default).longitude
          (pts.getD (k + 1) default).latitude
          (pts.getD (k + 1) default).longitude := by
  cases pts with
  | nil => simp at h
  | cons p rest =>
    cases k with
    | zero =>
      show (cumDistFrom 0 p rest).getD 0 0 = 0 + _
      have hne : rest ≠ [] := by
        intro he
        rw [he] at h
        simp at h
      rw [cumDistFrom_getD_zero rest 0 p hne]
      rfl
    | succ k =>
      show (cumDistFrom 0 p rest).getD (k + 1) 0 = _
      rw [cumDistFrom_getD_succ rest 0 p k (by simpa using h)]
      rfl

theorem buildCumDist_mono_adj (pts : List Location) (k : ℕ)
    (h : k + 1 < pts.length) :
    (buildCumDist pts).getD k 0 ≤ (buildCumDist pts).getD (k + 1) 0 := by
  rw [buildCumDist_getD_succ pts k h]
  have := haversineDistance_nonneg (pts.getD k default).latitude
    (pts.getD k default).longitude
    (pts.getD (k + 1) default).latitude
    (pts.getD (k + 1) default).longitude
  linarith

theorem buildCumDist_mono (pts : List Location) :
    ∀ (d i : ℕ), i + d < pts.length →
    (buildCumDist pts).getD i 0 ≤ (buildCumDist pts).getD (i + d) 0 := by
  intro d
  induction d with
  | zero => intro i h; exact le_refl _
  | succ d ih =>
    intro i h
    have h1 : i + d < pts.length := by omega
    have h2 := ih i h1
    have h3 := buildCumDist_mono_adj pts (i + d) (by omega)
    have he : i + (d + 1) = i + d + 1 := by omega
    rw [he]
    linarith

theorem buildCumDist_mono_le (pts : List Location) (i j : ℕ) (hij : i ≤ j)
    (hj : j < pts.length) :
    (buildCumDist pts).getD i 0 ≤ (buildCumDist pts).getD j 0 := by
  have h := buildCumDist_mono pts (j - i) i (by omega)
  have he : i + (j - i) = j := by omega
  rw [he] at h
  exact h

theorem truncR_nonneg_of_nonneg {x : ℝ} (h : 0 ≤ x) : 0 ≤ truncR x := by
  rw [truncR_nonneg_eq_floor h]
  exact Int.le_floor.mpr (by simpa using h)

theorem findClosest_neg_of_empty (g : RoadGraph) (st : RouteMatcherState)
    (loc : Location) (route : Route) (hr : st.currentRoute = some route)
    (he : route.points = []) :
    RouteMatcher.findClosestPointOnRoute g st loc = -1 := by
  unfold RouteMatcher.findClosestPointOnRoute
  rw [hr]
  simp [he]

theorem findNextManeuverPoint_lt (st : RouteMatcherState) (route : Route)
    (hr : st.currentRoute = some route) (ci : ℤ) :
    RouteMatcher.findNextManeuverPoint st ci < (route.points.length : ℤ) ∨
      RouteMatcher.findNextManeuverPoint st ci = -1 := by
  unfold RouteMatcher.findNextManeuverPoint
  rw [hr]
  show (if route.points = [] ∨ ci < 0 ∨ ci ≥ (route.points.length : ℤ) then
      (-1 : ℤ) else _) < _ ∨
    (if route.points = [] ∨ ci < 0 ∨ ci ≥ (route.points.length : ℤ) then
      (-1 : ℤ) else _) = -1
  by_cases hg : route.points = [] ∨ ci < 0 ∨ ci ≥ (route.points.length : ℤ)
  · rw [if_pos hg]
    exact Or.inr rfl
  · rw [if_neg hg]
    simp only
    cases hfind : List.find? (maneuverTurnAt route.points)
        (List.range' (ci + 1).toNat
          (route.points.length - 1 - (ci + 1).toNat)) with
    | none =>
      left
      show (route.points.length : ℤ) - 1 < (route.points.length : ℤ)
      omega
    | some i =>
      left
      show (i : ℤ) < (route.points.length : ℤ)
      have hmem2 := List.mem_of_find?_eq_some hfind
      rw [List.mem_range'] at hmem2
      obtain ⟨k, hk, hik⟩ := hmem2
      omega

theorem setRoute_cum (g : RoadGraph) (st : RouteMatcherState) (route : Route) :
    (RouteMatcher.setRoute g st route).cumulativeDistances =
      buildCumDist route.points := by
  unfold RouteMatcher.setRoute
  by_cases hre : route.points = []
  · rw [if_pos hre, hre]
    rfl
  · rw [if_neg hre]

theorem setRoute_currentRoute (g : RoadGraph) (st : RouteMatcherState)
    (route : Route) :
    (RouteMatcher.setRoute g st route).currentRoute = some route := by
  unfold RouteMatcher.setRoute
  by_cases hre : route.points = []
  · rw [if_pos hre]
  · rw [if_neg hre]

theorem matchLoc_snd (g : RoadGraph) (st : RouteMatcherState) (loc : Location) :
    (RouteMatcher.matchLoc g st loc).2 =
      ⟨st.currentRoute, some loc, st.cumulativeDistances, st.routeSegments⟩ :=
  rfl

/-- C9: after `set_route`, the cumulative-distance list has one entry per
route point, starts at 0, steps by the haversine distance of consecutive
points, and is monotonically non-decreasing; `match` never changes it. -/
theorem C9_setRoute_cumdist (g : RoadGraph) (st : RouteMatcherState)
    (route : Route) :
    ((RouteMatcher.setRoute g st route).cumulativeDistances.length =
        route.points.length) ∧
      (route.points ≠ [] →
        (RouteMatcher.setRoute g st route).cumulativeDistances.getD 0 0 = 0) ∧
      (∀ k, k + 1 < route.points.length →
        (RouteMatcher.setRoute g st route).cumulativeDistances.getD (k + 1) 0 =
          (RouteMatcher.setRoute g st route).cumulativeDistances.getD k 0 +
            haversineDistance (route.points.getD k default).latitude
              (route.points.getD k default).longitude
              (route.points.getD (k + 1) default).latitude
              (route.points.getD (k + 1) default).longitude) ∧
      (∀ i j, i ≤ j → j < route.points.length →
        (RouteMatcher.setRoute g st route).cumulativeDistances.getD i 0 ≤
          (RouteMatcher.setRoute g st route).cumulativeDistances.getD j 0) ∧
      (∀ st2 loc,
        (RouteMatcher.matchLoc g st2 loc).2.cumulativeDistances =
          st2.cumulativeDistances) := by
  rw [setRoute_cum]
  refine ⟨buildCumDist_length _, buildCumDist_getD_zero _,
    buildCumDist_getD_succ _, buildCumDist_mono_le _, ?_⟩
  intro st2 loc
  rfl

/-- Witness for C9 on a concrete two-point route. -/
theorem C9_setRoute_cumdist_witness :
    ([(⟨0, 0, 0, 0, 0⟩ : Location), ⟨1, 1, 0, 0, 0⟩] ≠ ([] : List Location)) ∧
      (RouteMatcher.setRoute RoadGraph.init RouteMatcher.initState
        ⟨"r", "r", [⟨0, 0, 0, 0, 0⟩, ⟨1, 1, 0, 0, 0⟩], 0⟩).cumulativeDistances.getD
          0 0 = 0 :=
  ⟨by simp, (C9_setRoute_cumdist RoadGraph.init RouteMatcher.initState
    ⟨"r", "r", [⟨0, 0, 0, 0, 0⟩, ⟨1, 1, 0, 0, 0⟩], 0⟩).2.1 (by simp)⟩

theorem createRouteMatch_nonneg (g : RoadGraph) (st : RouteMatcherState)
    (matched : Location) (segment : Option ℕ) (ci : ℤ) (route : Route)
    (hr : st.currentRoute = some route)
    (hcum : st.cumulativeDistances = buildCumDist route.points) :
    0 ≤ (RouteMatcher.createRouteMatch g st matched segment ci).distanceToNext := by
  have hnmi := findNextManeuverPoint_lt st route hr ci
  unfold RouteMatcher.createRouteMatch
  simp only [hr]
  by_cases h0 : 0 ≤ ci
  · rw [if_pos h0]
    set nmi := RouteMatcher.findNextManeuverPoint st ci with hnmidef
    by_cases hgt : nmi > ci
    · rw [if_pos hgt]
      show (0 : ℤ) ≤ truncR _
      apply truncR_nonneg_of_nonneg
      have hlen : nmi < (route.points.length : ℤ) := by
        rcases hnmi with h | h
        · exact h
        · omega
      have hmono := buildCumDist_mono_le route.points ci.toNat nmi.toNat
        (by omega) (by omega)
      show (0 : ℝ) ≤ st.cumulativeDistances.getD nmi.toNat 0 -
        st.cumulativeDistances.getD ci.toNat 0
      rw [hcum]
      linarith
    · rw [if_neg hgt]
      by_cases hend : ci < (route.points.length : ℤ) - 1
      · rw [if_pos hend]
        show (0 : ℤ) ≤ truncR _
        apply truncR_nonneg_of_nonneg
        show (0 : ℝ) ≤ st.cumulativeDistances.getD
            (st.cumulativeDistances.length - 1) 0 -
          st.cumulativeDistances.getD ci.toNat 0
        rw [hcum, buildCumDist_length]
        have hmono := buildCumDist_mono_le route.points ci.toNat
          (route.points.length - 1) (by omega) (by omega)
        linarith
      · rw [if_neg hend]
  · rw [if_neg h0]

/-- C10: every observation returned by `match` has non-negative
`distance_to_next`, on every matcher state satisfying the state invariant;
the invariant holds initially, is established by `set_route`, and is
preserved by `match`. -/
theorem C10_distance_nonneg (g : RoadGraph) (st : RouteMatcherState)
    (loc : Location) (hinv : MatcherInv st) :
    0 ≤ (RouteMatcher.matchLoc g st loc).1.distanceToNext ∧
      MatcherInv (RouteMatcher.matchLoc g st loc).2 ∧
      (∀ g2 st2 r, MatcherInv (RouteMatcher.setRoute g2 st2 r)) ∧
      MatcherInv RouteMatcher.initState := by
  refine ⟨?_, ?_, ?_, ?_⟩
  · -- the distance itself
    unfold RouteMatcher.matchLoc
    cases hcr : st.currentRoute with
    | none =>
      show (0 : ℤ) ≤ 0
      exact le_refl 0
    | some route =>
      simp only
      have hcum : st.cumulativeDistances = buildCumDist route.points :=
        hinv route hcr
      set st1 : RouteMatcherState :=
        ⟨some route, some loc, st.cumulativeDistances,
          st.routeSegments⟩ with hst1
      by_cases hneg : RouteMatcher.findClosestPointOnRoute g st1 loc < 0
      · rw [if_pos hneg]
      · rw [if_neg hneg]
        exact createRouteMatch_nonneg g st1 _ _ _ route rfl hcum
  · -- match preserves the invariant
    intro route hr
    rw [matchLoc_snd] at hr ⊢
    exact hinv route hr
  · -- setRoute establishes the invariant
    intro g2 st2 r route hr
    rw [setRoute_currentRoute] at hr
    cases hr
    exact setRoute_cum g2 st2 r
  · -- the initial state satisfies it
    intro route hr
    simp [RouteMatcher.initState] at hr

/-- Witness for C10: the sentinel observation of the initial state has
distance 0. -/
theorem C10_distance_nonneg_witness :
    MatcherInv RouteMatcher.initState ∧
      0 ≤ (RouteMatcher.matchLoc RoadGraph.init RouteMatcher.initState
        ⟨0, 0, 0, 0, 0⟩).1.distanceToNext := by
  have hires : MatcherInv RouteMatcher.initState := by
    intro route hr
    simp [RouteMatcher.initState] at hr
  exact ⟨hires, (C10_distance_nonneg RoadGraph.init RouteMatcher.initState
    ⟨0, 0, 0, 0, 0⟩ hires).1⟩

theorem scoreLt_irrefl (a : Option ℝ) : ¬ scoreLt a a := by
  cases a with
  | none => exact fun h => h
  | some x => exact fun h => lt_irrefl x h

theorem scoreLt_trans {a b c : Option ℝ} (h1 : scoreLt a b)
    (h2 : scoreLt b c) : scoreLt a c := by
  cases a with
  | none => exact h1.elim
  | some x =>
    cases b with
    | none => exact h2.elim
    | some y =>
      cases c with
      | none => trivial
      | some z => exact lt_trans h1 h2

theorem scoreLt_of_le_of_lt {a b c : Option ℝ} (h1 : scoreLe a b)
    (h2 : scoreLt b c) : scoreLt a c := by
  rcases h1 with h1 | rfl
  · exact scoreLt_trans h1 h2
  · exact h2

theorem scoreLt_of_lt_of_le {a b c : Option ℝ} (h1 : scoreLt a b)
    (h2 : scoreLe b c) : scoreLt a c := by
  rcases h2 with h2 | rfl
  · exact scoreLt_trans h1 h2
  · exact h1

theorem pickBest_fold_spec (g : RoadGraph) (st : RouteMatcherState)
    (loc : Location) (segs : List ℕ) (acc : Option ℕ × Option ℝ × Location) :
    (segs.foldl
        (fun acc seg =>
          let score := RouteMatcher.calculateMatchScore g st (some seg) loc
          if scoreLt score acc.2.1 then
            (some seg, score, RouteMatcher.projectOntoSegment g loc seg)
          else acc) acc = acc ∨
      ∃ s ∈ segs,
        segs.foldl
          (fun acc seg =>
            let score := RouteMatcher.calculateMatchScore g st (some seg) loc
            if scoreLt score acc.2.1 then
              (some seg, score, RouteMatcher.projectOntoSegment g loc seg)
            else acc) acc =
          (some s, RouteMatcher.calculateMatchScore g st (some s) loc,
            RouteMatcher.projectOntoSegment g loc s)) ∧
    scoreLe
      (segs.foldl
        (fun acc seg =>
          let score := RouteMatcher.calculateMatchScore g st (some seg) loc
          if scoreLt score acc.2.1 then
            (some seg, score, RouteMatcher.projectOntoSegment g loc seg)
          else acc) acc).2.1 acc.2.1 ∧
    ∀ t ∈ segs,
      ¬ scoreLt (RouteMatcher.calculateMatchScore g st (some t) loc)
        (segs.foldl
          (fun acc seg =>
            let score := RouteMatcher.calculateMatchScore g st (some seg) loc
            if scoreLt score acc.2.1 then
              (some seg, score, RouteMatcher.projectOntoSegment g loc seg)
            else acc) acc).2.1 := by
  induction segs generalizing acc with
  | nil =>
    refine ⟨Or.inl rfl, Or.inr rfl, ?_⟩
    intro t ht
    cases ht
  | cons s rest ih =>
    simp only [List.foldl_cons]
    by_cases hlt : scoreLt (RouteMatcher.calculateMatchScore g st (some s) loc)
        acc.2.1
    · rw [if_pos hlt]
      obtain ⟨h1, h2, h3⟩ := ih
        (some s, RouteMatcher.calculateMatchScore g st (some s) loc,
          RouteMatcher.projectOntoSegment g loc s)
      refine ⟨?_, ?_, ?_⟩
      · rcases h1 with h1 | ⟨t, ht, h1⟩
        · exact Or.inr ⟨s, List.mem_cons_self s rest, h1⟩
        · exact Or.inr ⟨t, List.mem_cons_of_mem s ht, h1⟩
      · exact Or.inl (scoreLt_of_le_of_lt h2 hlt)
      · intro t ht
        rcases List.mem_cons.mp ht with rfl | ht
        · intro hcon
          exact scoreLt_irrefl _ (scoreLt_of_le_of_lt h2 hcon)
        · exact h3 t ht
    · rw [if_neg hlt]
      obtain ⟨h1, h2, h3⟩ := ih acc
      refine ⟨?_, h2, ?_⟩
      · rcases h1 with h1 | ⟨t, ht, h1⟩
        · exact Or.inl h1
        · exact Or.inr ⟨t, List.mem_cons_of_mem s ht, h1⟩
      · intro t ht
        rcases List.mem_cons.mp ht with rfl | ht
        · intro hcon
          exact hlt (scoreLt_of_lt_of_le hcon h2)
        · exact h3 t ht

theorem calculateMatchScore_eq (g : RoadGraph) (st : RouteMatcherState)
    (segIdx : ℕ) (loc : Location) :
    RouteMatcher.calculateMatchScore g st (some segIdx) loc =
      if perpDist g loc segIdx > MAX_DISTANCE_TO_SEGMENT then none
      else some ((DISTANCE_WEIGHT * perpDist g loc segIdx +
          BEARING_WEIGHT *
            specBearingFactor (segBearingOf g segIdx) loc.bearing * 50.0) *
        specRouteBonus st segIdx * specSpeedFactor g segIdx loc) :=
  rfl

theorem fmodR_self_pos (m : ℝ) (hm : 0 < m) : fmodR m m = 0 := by
  unfold fmodR truncR
  rw [div_self (ne_of_gt hm)]
  norm_num

theorem calculateBearing_north1 : calculateBearing 0 0 1 0 = 0 := by
  have hpi := Real.pi_pos
  have hs : (0:ℝ) < Real.sin (1 * (Real.pi / 180)) := by
    apply Real.sin_pos_of_pos_of_lt_pi
    · nlinarith
    · nlinarith
  unfold calculateBearing
  simp only [zero_mul, sub_zero, Real.sin_zero, Real.cos_zero, one_mul,
    sub_self, mul_zero]
  have ha : atan2 0 (Real.sin (Real.pi / 180)) = 0 := by
    rw [atan2, if_pos (by simpa using hs)]
    simp
  rw [ha]
  rw [zero_mul, zero_div, zero_add]
  exact fmodR_self_pos 360 (by norm_num)

theorem c4_proj : RouteMatcher.projectOntoSegment c4graph c4loc 0 =
    ⟨0, 0, calculateBearing 0 0 1 0, 0, 0⟩ := by
  show projectOnto 0 0 1 0 c4loc = _
  unfold projectOnto
  norm_num [c4loc]

theorem c4_perpDist : perpDist c4graph c4loc 0 = 0 := by
  unfold perpDist
  rw [c4_proj]
  exact haversineDistance_self 0 0

theorem c4_segBearing : segBearingOf c4graph 0 = 0 := by
  show calculateBearing 0 0 1 0 = 0
  exact calculateBearing_north1

theorem c4_bf : specBearingFactor 0 c4loc.bearing = 1 := by
  unfold specBearingFactor c4loc
  norm_num

theorem c4_rb : specRouteBonus RouteMatcher.initState 0 = 1 := by
  unfold specRouteBonus RouteMatcher.initState
  norm_num

theorem c4_sf : specSpeedFactor c4graph 0 c4loc = 1 := by
  unfold specSpeedFactor c4loc c4graph RoadGraph.segAt
  norm_num

/-- C4 (amended): for a candidate segment with perpendicular distance
d ≤ 50 m the score is (d + bearing_factor·25)·on_route_bonus·speed_factor
— the bearing term's coefficient is BEARING_WEIGHT·50 = 25, not 50;
segments with d > 50 are rejected (DBL_MAX sentinel, modeled as none);
the fold keeps a minimum-score segment together with its score and its
projection as the matched position. -/
theorem C4_match_score (g : RoadGraph) (st : RouteMatcherState)
    (segIdx : ℕ) (loc : Location) (segs : List ℕ) :
    (perpDist g loc segIdx > 50 →
      RouteMatcher.calculateMatchScore g st (some segIdx) loc = none) ∧
    (perpDist g loc segIdx ≤ 50 →
      RouteMatcher.calculateMatchScore g st (some segIdx) loc =
        some ((perpDist g loc segIdx +
            specBearingFactor (segBearingOf g segIdx) loc.bearing * 25) *
          specRouteBonus st segIdx * specSpeedFactor g segIdx loc)) ∧
    (RouteMatcher.pickBest g st loc segs = (none, none, loc) ∨
      ∃ s ∈ segs, RouteMatcher.pickBest g st loc segs =
        (some s, RouteMatcher.calculateMatchScore g st (some s) loc,
          RouteMatcher.projectOntoSegment g loc s)) ∧
    (∀ t ∈ segs,
      ¬ scoreLt (RouteMatcher.calculateMatchScore g st (some t) loc)
        (RouteMatcher.pickBest g st loc segs).2.1) := by
  have hfs := pickBest_fold_spec g st loc segs (none, none, loc)
  refine ⟨?_, ?_, ?_, ?_⟩
  · intro hgt
    rw [calculateMatchScore_eq, if_pos]
    show perpDist g loc segIdx > (50.0 : ℝ)
    norm_num
    linarith
  · intro hle
    rw [calculateMatchScore_eq, if_neg]
    · congr 1
      simp only [DISTANCE_WEIGHT, BEARING_WEIGHT]
      ring
    · show ¬ perpDist g loc segIdx > (50.0 : ℝ)
      norm_num
      linarith
  · exact hfs.1
  · exact hfs.2.2

/-- Witness for C4 on the concrete due-north segment: the fix sits on the
segment (d = 0 ≤ 50) and the score follows the amended formula. -/
theorem C4_match_score_witness :
    perpDist c4graph c4loc 0 ≤ 50 ∧
      RouteMatcher.calculateMatchScore c4graph RouteMatcher.initState
          (some 0) c4loc =
        some ((perpDist c4graph c4loc 0 +
            specBearingFactor (segBearingOf c4graph 0) c4loc.bearing * 25) *
          specRouteBonus RouteMatcher.initState 0 *
          specSpeedFactor c4graph 0 c4loc) := by
  have hle : perpDist c4graph c4loc 0 ≤ 50 := by
    rw [c4_perpDist]
    norm_num
  exact ⟨hle,
    (C4_match_score c4graph RouteMatcher.initState 0 c4loc []).2.1 hle⟩

/-- C4 counterexample: on a due-north segment with the fix at its start
(d = 0), bearing 180 (bearing factor 1), no active route, stationary, the
code computes score 25 while the claimed formula
(d + bearing_factor·50)·bonus·speed gives 50. -/
theorem C4_counterexample :
    RouteMatcher.calculateMatchScore c4graph RouteMatcher.initState (some 0)
        c4loc = some 25 ∧
      (perpDist c4graph c4loc 0 +
          specBearingFactor (segBearingOf c4graph 0) c4loc.bearing * 50) *
        specRouteBonus RouteMatcher.initState 0 *
        specSpeedFactor c4graph 0 c4loc = 50 ∧
      (25 : ℝ) ≠ 50 := by
  refine ⟨?_, ?_, by norm_num⟩
  · rw [calculateMatchScore_eq, if_neg]
    · rw [c4_perpDist, c4_segBearing, c4_bf, c4_rb, c4_sf]
      norm_num [DISTANCE_WEIGHT, BEARING_WEIGHT]
    · rw [c4_perpDist]
      norm_num [MAX_DISTANCE_TO_SEGMENT]
  · rw [c4_perpDist, c4_segBearing, c4_bf, c4_rb, c4_sf]
    norm_num

theorem foldl_extend_head (step : List Location → ℕ → List Location)
    (hstep : ∀ pts k, ∃ x, step pts k = pts ++ [x]) (l : List ℕ) :
    ∀ acc : List Location, acc ≠ [] →
      (l.foldl step acc).head? = acc.head? ∧ l.foldl step acc ≠ [] := by
  induction l with
  | nil =>
    intro acc h
    exact ⟨rfl, h⟩
  | cons k rest ih =>
    intro acc h
    rw [List.foldl_cons]
    obtain ⟨x, hx⟩ := hstep acc k
    have hne : step acc k ≠ [] := by
      rw [hx]
      simp
    obtain ⟨h1, h2⟩ := ih (step acc k) hne
    refine ⟨?_, h2⟩
    rw [h1, hx, List.head?_append]
    cases acc with
    | nil => exact absurd rfl h
    | cons a t => rfl

theorem directStep_extend (jit : ℕ → ℝ) (startL endL : Location)
    (numPoints : ℤ) (pts : List Location) (k : ℕ) :
    ∃ x, directStep jit startL endL numPoints pts k = pts ++ [x] := by
  exact ⟨_, rfl⟩

theorem createDirectRoute_ends (jit : ℕ → ℝ) (rid : String)
    (startL endL : Location) :
    (RoutingEngine.createDirectRoute jit rid startL endL).points.head? =
        some startL ∧
      (RoutingEngine.createDirectRoute jit rid startL endL).points.getLast? =
        some endL := by
  unfold RoutingEngine.createDirectRoute
  simp only
  obtain ⟨h1, h2⟩ := foldl_extend_head _
    (directStep_extend jit startL endL
      (min MAX_ROUTE_POINTS (max 20 (truncR
        (haversineDistance startL.latitude startL.longitude
          endL.latitude endL.longitude / ROUTE_POINT_SPACING)))))
    (List.range (min MAX_ROUTE_POINTS (max 20 (truncR
      (haversineDistance startL.latitude startL.longitude
        endL.latitude endL.longitude / ROUTE_POINT_SPACING))) - 2).toNat)
    [startL] (by simp)
  constructor
  · rw [List.head?_append]
    rw [h1]
    rfl
  · simp

/-- C3: when the direct haversine distance exceeds 10 km,
`calculateRoutes` returns exactly the synthetic direct route, whose
points begin at the start location and end at the end location, with no
alternatives. -/
theorem C3_oversize_direct (g : RoadGraph) (jit : ℕ → ℝ)
    (rid : ℕ → String) (fuel : ℕ) (startL endL : Location)
    (h : haversineDistance startL.latitude startL.longitude
      endL.latitude endL.longitude > 10000) :
    (RoutingEngine.calculateRoutes g jit rid fuel startL endL).1 =
        [RoutingEngine.createDirectRoute jit (rid 0) startL endL] ∧
      (RoutingEngine.calculateRoutes g jit rid fuel startL endL).1.length =
        1 ∧
      ∀ r ∈ (RoutingEngine.calculateRoutes g jit rid fuel startL endL).1,
        r.points.head? = some startL ∧ r.points.getLast? = some endL := by
  have hone : (RoutingEngine.calculateRoutes g jit rid fuel startL endL).1 =
      [RoutingEngine.createDirectRoute jit (rid 0) startL endL] := by
    unfold RoutingEngine.calculateRoutes
    rw [if_pos]
    show haversineDistance startL.latitude startL.longitude
      endL.latitude endL.longitude > (10000.0 : ℝ)
    norm_num
    linarith
  refine ⟨hone, by rw [hone]; rfl, ?_⟩
  intro r hr
  rw [hone, List.mem_singleton] at hr
  rw [hr]
  exact createDirectRoute_ends jit (rid 0) startL endL

theorem haversineDistance_poles : haversineDistance 90 0 (-90) 0 =
    6371000 * Real.pi := by
  rw [haversineDistance_eq_arccos]
  have h90 : (90 : ℝ) * (Real.pi / 180) = Real.pi / 2 := by ring
  have hm90 : (-90 : ℝ) * (Real.pi / 180) = -(Real.pi / 2) := by ring
  have hdot : dot3 (unit3 ((90 : ℝ) * (Real.pi / 180)) (0 * (Real.pi / 180)))
      (unit3 ((-90 : ℝ) * (Real.pi / 180)) (0 * (Real.pi / 180))) = -1 := by
    simp only [dot3, unit3, h90, hm90, Real.cos_pi_div_two, Real.cos_neg,
      Real.sin_neg, Real.sin_pi_div_two]
    ring
  rw [hdot, Real.arccos_neg_one]

/-- Witness for C3: from the north pole to the south pole the direct
distance is 6371000·π > 10000 m, and the returned route list is the
single direct route. -/
theorem C3_oversize_direct_witness :
    haversineDistance (90 : ℝ) 0 (-90) 0 > 10000 ∧
      (RoutingEngine.calculateRoutes RoadGraph.init (fun _ => 0)
          (fun _ => "route-0") 0 ⟨90, 0, 0, 0, 0⟩ ⟨-90, 0, 0, 0, 0⟩).1 =
        [RoutingEngine.createDirectRoute (fun _ => 0) "route-0"
          ⟨90, 0, 0, 0, 0⟩ ⟨-90, 0, 0, 0, 0⟩] := by
  have hgt : haversineDistance (90 : ℝ) 0 (-90) 0 > 10000 := by
    rw [haversineDistance_poles]
    nlinarith [Real.pi_gt_three]
  exact ⟨hgt, (C3_oversize_direct RoadGraph.init (fun _ => 0)
    (fun _ => "route-0") 0 ⟨90, 0, 0, 0, 0⟩ ⟨-90, 0, 0, 0, 0⟩ hgt).1⟩

theorem PathCost_nil (cost : ℕ → ℝ) : PathCost cost [] = 0 := rfl

theorem PathCost_cons (cost : ℕ → ℝ) (s : ℕ) (ss : List ℕ) :
    PathCost cost (s :: ss) = cost s + PathCost cost ss := by
  simp [PathCost]

theorem PathCost_append (cost : ℕ → ℝ) (s1 s2 : List ℕ) :
    PathCost cost (s1 ++ s2) = PathCost cost s1 + PathCost cost s2 := by
  simp [PathCost]

theorem PathCost_reverse (cost : ℕ → ℝ) (ss : List ℕ) :
    PathCost cost ss.reverse = PathCost cost ss := by
  simp [PathCost, List.sum_reverse]

theorem PathCost_nonneg (cost : ℕ → ℝ) (hc0 : ∀ s, 0 ≤ cost s)
    (ss : List ℕ) : 0 ≤ PathCost cost ss := by
  induction ss with
  | nil => simp [PathCost]
  | cons s t ih =>
    rw [PathCost_cons]
    have := hc0 s
    linarith

theorem Chain_snoc (gr : RoadGraph) :
    ∀ ss u p, Chain gr u p ss → ∀ s, s ∈ (gr.nodeAt p).segments →
      Chain gr u ((gr.segAt s).endN) (ss ++ [s]) := by
  intro ss
  induction ss with
  | nil =>
    intro u p hch s hs
    cases hch
    exact ⟨hs, rfl⟩
  | cons a t ih =>
    intro u p hch s hs
    exact ⟨hch.1, ih _ _ hch.2 s hs⟩

theorem Chain_adj (gr : RoadGraph) :
    ∀ ss u v, Chain gr u v ss →
      ∀ i, i + 1 < (u :: ss.map (fun s => (gr.segAt s).endN)).length →
        ∃ s ∈ (gr.nodeAt
            ((u :: ss.map (fun s => (gr.segAt s).endN)).getD i 0)).segments,
          (gr.segAt s).endN =
            (u :: ss.map (fun s => (gr.segAt s).endN)).getD (i + 1) 0 := by
  intro ss
  induction ss with
  | nil =>
    intro u v hch i hi
    simp at hi
  | cons a t ih =>
    intro u v hch i hi
    cases i with
    | zero =>
      exact ⟨a, hch.1, rfl⟩
    | succ j =>
      have := ih ((gr.segAt a).endN) v hch.2 j (by simpa using hi)
      simpa using this

/-- The heuristic telescopes along a chain (consistency). -/
theorem heuristic_telescope (gr : RoadGraph) (cost : ℕ → ℝ) (goal : ℕ)
    (hcons : ∀ u s, s ∈ (gr.nodeAt u).segments →
      RoutingEngine.estimateHeuristic gr u goal ≤ cost s +
        RoutingEngine.estimateHeuristic gr ((gr.segAt s).endN) goal) :
    ∀ ss y v, Chain gr y v ss →
      RoutingEngine.estimateHeuristic gr y goal ≤
        PathCost cost ss + RoutingEngine.estimateHeuristic gr v goal := by
  intro ss
  induction ss with
  | nil =>
    intro y v hch
    cases hch
    rw [PathCost_nil]
    linarith
  | cons s t ih =>
    intro y v hch
    have h1 := hcons y s hch.1
    have h2 := ih _ v hch.2
    rw [PathCost_cons]
    linarith

/-- Decompose a chain from a closed node to a non-closed node at the
first edge that leaves the closed set. -/
theorem firstCross (gr : RoadGraph) (closed : List ℕ) (w : ℕ)
    (hw : w ∉ closed) :
    ∀ ss u, Chain gr u w ss → u ∈ closed →
      ∃ pre s suf x, ss = pre ++ s :: suf ∧ Chain gr u x pre ∧
        x ∈ closed ∧ s ∈ (gr.nodeAt x).segments ∧
        (gr.segAt s).endN ∉ closed ∧
        Chain gr ((gr.segAt s).endN) w suf := by
  intro ss
  induction ss with
  | nil =>
    intro u hch hu
    cases hch
    exact absurd hu hw
  | cons s t ih =>
    intro u hch hu
    by_cases hy : (gr.segAt s).endN ∈ closed
    · obtain ⟨pre, s2, suf, x, he, hc1, hc2, hc3, hc4, hc5⟩ :=
        ih ((gr.segAt s).endN) hch.2 hy
      exact ⟨s :: pre, s2, suf, x, by rw [he, List.cons_append], ⟨hch.1, hc1⟩,
        hc2, hc3, hc4, hc5⟩
    · exact ⟨[], s, t, u, rfl, rfl, hu, hch.1, hy, hch.2⟩

/-! ### The open list as a priority queue -/
theorem popMin_none : ∀ l : List NodeData, popMin l = none ↔ l = [] := by
  intro l
  cases l with
  | nil => simp [popMin]
  | cons d rest =>
    constructor
    · intro h
      unfold popMin at h
      cases hr : popMin rest with
      | none => exact absurd h (by simp [hr])
      | some pr =>
        simp only [hr] at h
        rcases pr with ⟨m, r2⟩
        by_cases hle : d.fScore ≤ m.fScore
        · rw [if_pos hle] at h; exact absurd h (by simp)
        · rw [if_neg hle] at h; exact absurd h (by simp)
    · intro h
      cases h

theorem popMin_perm : ∀ l : List NodeData, ∀ m rest,
    popMin l = some (m, rest) → l.Perm (m :: rest) := by
  intro l
  induction l with
  | nil => intro m rest h; cases h
  | cons d t ih =>
    intro m rest h
    unfold popMin at h
    cases hr : popMin t with
    | none =>
      simp only [hr] at h
      have ht : t = [] := (popMin_none t).mp hr
      cases ht
      cases h
      exact List.Perm.refl _
    | some pr =>
      rcases pr with ⟨m2, r2⟩
      simp only [hr] at h
      by_cases hle : d.fScore ≤ m2.fScore
      · rw [if_pos hle] at h
        cases h
        exact List.Perm.refl _
      · rw [if_neg hle] at h
        cases h
        have hp := ih m r2 hr
        exact (hp.cons d).trans (List.Perm.swap m d r2)

theorem popMin_min : ∀ l : List NodeData, ∀ m rest,
    popMin l = some (m, rest) → ∀ e ∈ l, m.fScore ≤ e.fScore := by
  intro l
  induction l with
  | nil => intro m rest h; cases h
  | cons d t ih =>
    intro m rest h e he
    unfold popMin at h
    cases hr : popMin t with
    | none =>
      simp only [hr] at h
      have ht : t = [] := (popMin_none t).mp hr
      cases ht
      cases h
      rcases List.mem_singleton.mp he with rfl
      exact le_refl _
    | some pr =>
      rcases pr with ⟨m2, r2⟩
      simp only [hr] at h
      by_cases hle : d.fScore ≤ m2.fScore
      · rw [if_pos hle] at h
        cases h
        rcases List.mem_cons.mp he with rfl | he2
        · exact le_refl _
        · exact le_trans hle (ih m2 r2 hr e he2)
      · rw [if_neg hle] at h
        cases h
        rcases List.mem_cons.mp he with rfl | he2
        · exact le_of_lt (lt_of_not_le hle)
        · exact ih m r2 hr e he2

theorem RChain_head (cf : ℕ → Option ℕ) (gr : RoadGraph) (start v : ℕ)
    (ns ss : List ℕ) (h : RChain cf gr start v ns ss) :
    ns.head? = some v := by
  cases h with
  | base => rfl
  | step v p s ns2 ss2 h1 h2 h3 h4 h5 => rfl

theorem RChain_getLast (cf : ℕ → Option ℕ) (gr : RoadGraph) (start v : ℕ)
    (ns ss : List ℕ) (h : RChain cf gr start v ns ss) :
    ns.getLast? = some start := by
  induction h with
  | base => rfl
  | step v p s ns2 ss2 h1 h2 h3 h4 h5 ih =>
    have hne : ns2 ≠ [] := by
      cases h5 with
      | base => simp
      | step => simp
    cases ns2 with
    | nil => exact absurd rfl hne
    | cons a t =>
      rw [List.getLast?_cons_cons]
      exact ih

theorem RChain_chain (cf : ℕ → Option ℕ) (gr : RoadGraph) (start v : ℕ)
    (ns ss : List ℕ) (h : RChain cf gr start v ns ss) :
    Chain gr start v ss.reverse ∧
      ns.reverse = start :: ss.reverse.map (fun s => (gr.segAt s).endN) := by
  induction h with
  | base => exact ⟨rfl, rfl⟩
  | step v p s ns2 ss2 h1 h2 h3 h4 h5 ih =>
    constructor
    · rw [List.reverse_cons]
      rw [← h4]
      exact Chain_snoc gr ss2.reverse start p ih.1 s h3
    · rw [List.reverse_cons, List.reverse_cons, List.map_append, ih.2]
      simp [h4]

theorem recon_of_RChain (cf : ℕ → Option ℕ) (gr : RoadGraph)
    (start v : ℕ) (ns ss : List ℕ) (h : RChain cf gr start v ns ss) :
    ∀ fuel, ns.length ≤ fuel →
      reconstructPath cf start fuel v = ns.reverse := by
  induction h with
  | base =>
    intro fuel hf
    cases fuel with
    | zero => simp at hf
    | succ n =>
      unfold reconstructPath
      rw [if_pos rfl]
      rfl
  | step v p s ns2 ss2 h1 h2 h3 h4 h5 ih =>
    intro fuel hf
    cases fuel with
    | zero => simp at hf
    | succ n =>
      unfold reconstructPath
      rw [if_neg h1, h2]
      simp only
      rw [ih n (by simpa using hf)]
      rw [List.reverse_cons]

/-- `RChain` only reads `cf` at the nodes of `ns`, so it survives a
`cameFrom` update at a node outside the chain. -/
theorem RChain_update (cf : ℕ → Option ℕ) (gr : RoadGraph) (start v w : ℕ)
    (x : Option ℕ) (ns ss : List ℕ) (h : RChain cf gr start v ns ss)
    (hw : w ∉ ns) :
    RChain (fun n => if n = w then x else cf n) gr start v ns ss := by
  induction h with
  | base => exact RChain.base
  | step v p s ns2 ss2 h1 h2 h3 h4 h5 ih =>
    have hvw : v ≠ w := by
      intro he
      exact hw (he ▸ List.mem_cons_self v ns2)
    refine RChain.step v p s ns2 ss2 h1 ?_ h3 h4 ?_
    · rw [if_neg hvw]
      exact h2
    · exact ih (fun hmem => hw (List.mem_cons_of_mem v hmem))

/-- A nodup list contained in another is no longer than it. -/
theorem nodup_subset_length {l1 l2 : List ℕ} (hd : l1.Nodup)
    (hs : l1 ⊆ l2) : l1.length ≤ l2.length :=
  (List.subperm_of_subset hd hs).length_le

/-- Crossing argument: a popped non-closed node already carries an
optimal `gScore`. -/
theorem pop_optimal (gr : RoadGraph) (cost : ℕ → ℝ) (start goal : ℕ)
    (hcons : ∀ u s, s ∈ (gr.nodeAt u).segments →
      RoutingEngine.estimateHeuristic gr u goal ≤ cost s +
        RoutingEngine.estimateHeuristic gr ((gr.segAt s).endN) goal)
    (st : AStarState) (hinv : AInv gr cost start goal st)
    (cur : NodeData) (rest : List NodeData)
    (hpop : popMin st.openSet = some (cur, rest))
    (hnc : cur.node ∉ st.closed) :
    ∀ gc, st.gScore cur.node = some gc →
      ∀ segs, Chain gr start cur.node segs → gc ≤ PathCost cost segs := by
  intro gc hgc segs hch
  have hcurmem : cur ∈ st.openSet :=
    ((popMin_perm _ _ _ hpop).mem_iff).mpr (List.mem_cons_self _ _)
  obtain ⟨gc', hgc', hfcur⟩ := hinv.openSound cur hcurmem
  rw [hgc] at hgc'
  cases hgc'
  obtain ⟨pre, s, suf, x, hdec, hcpre, hxc, hsx, hync, hcsuf⟩ :=
    firstCross gr st.closed cur.node hnc segs start hch hinv.startClosed
  obtain ⟨gx, hgx, hoptx⟩ := hinv.closedOpt x hxc
  have hgxpre : gx ≤ PathCost cost pre := hoptx pre hcpre
  obtain ⟨gy, hgy, hgyle⟩ := hinv.closedEdge x hxc gx hgx s hsx hync
  obtain ⟨ey, heymem, heynode, heyf⟩ := hinv.openPresence _ gy hgy hync
  have hfmin : cur.fScore ≤ ey.fScore := popMin_min _ _ _ hpop ey heymem
  have htel := heuristic_telescope gr cost goal hcons suf
    ((gr.segAt s).endN) cur.node hcsuf
  rw [hdec, PathCost_append, PathCost_cons]
  linarith

theorem step_skip (gr : RoadGraph) (cost : ℕ → ℝ) (start goal : ℕ)
    (st : AStarState) (hinv : AInv gr cost start goal st)
    (cur : NodeData) (rest : List NodeData)
    (hpop : popMin st.openSet = some (cur, rest))
    (hcl : cur.node ∈ st.closed) :
    AInv gr cost start goal { st with openSet := rest } := by
  refine ⟨hinv.startClosed, hinv.goalOpen, hinv.startG, hinv.chainInv,
    hinv.closedOpt, hinv.closedEdge, ?_, ?_⟩
  · intro v gv hgv hvnc
    obtain ⟨e, hemem, henode, hef⟩ := hinv.openPresence v gv hgv hvnc
    have hne : e ≠ cur := by
      intro he
      rw [he] at henode
      rw [henode] at hcl
      exact hvnc hcl
    have hemem2 : e ∈ cur :: rest :=
      ((popMin_perm _ _ _ hpop).mem_iff).mp hemem
    rcases List.mem_cons.mp hemem2 with he | he
    · exact absurd he hne
    · exact ⟨e, he, henode, hef⟩
  · intro e he
    have hemem : e ∈ st.openSet :=
      ((popMin_perm _ _ _ hpop).mem_iff).mpr (List.mem_cons_of_mem cur he)
    exact hinv.openSound e hemem

theorem astarExpand_eq (gr : RoadGraph) (cost : ℕ → ℝ) (goal cur : ℕ)
    (rest : List NodeData) (st : AStarState) :
    astarExpand gr cost goal cur rest st =
      (gr.nodeAt cur).segments.foldl
        (relaxStep gr cost goal cur (st.closed ++ [cur]))
        { st with openSet := rest, closed := st.closed ++ [cur] } := rfl

theorem expandStep_inv (gr : RoadGraph) (cost : ℕ → ℝ) (start goal : ℕ)
    (cur : ℕ) (gcur : ℝ) (closed2 : List ℕ)
    (hstart2 : start ∈ closed2) (hcur2 : cur ∈ closed2)
    (s0 : AStarState)
    (hmid : MidInv gr cost start goal cur gcur closed2 s0) (segIdx : ℕ)
    (hseg : segIdx ∈ (gr.nodeAt cur).segments) :
    MidInv gr cost start goal cur gcur closed2
        (relaxStep gr cost goal cur closed2 s0 segIdx) ∧
      (∀ v gv0, s0.gScore v = some gv0 → ∃ gv,
        (relaxStep gr cost goal cur closed2 s0 segIdx).gScore v = some gv ∧
          gv ≤ gv0) ∧
      ((gr.segAt segIdx).endN ∉ closed2 → ∃ gy,
        (relaxStep gr cost goal cur closed2 s0 segIdx).gScore
            ((gr.segAt segIdx).endN) = some gy ∧
          gy ≤ gcur + cost segIdx) := by
  unfold relaxStep
  by_cases hyc : (gr.segAt segIdx).endN ∈ closed2
  · rw [if_pos hyc]
    refine ⟨hmid, ?_, ?_⟩
    · intro v gv0 h
      exact ⟨gv0, h, le_refl _⟩
    · intro hny
      exact absurd hyc hny
  · rw [if_neg hyc]
    have htg : (s0.gScore cur).getD 0 + cost segIdx = gcur + cost segIdx := by
      rw [hmid.mCurG]
      rfl
    by_cases hrel : s0.gScore ((gr.segAt segIdx).endN) = none ∨
        (s0.gScore cur).getD 0 + cost segIdx <
          (s0.gScore ((gr.segAt segIdx).endN)).getD 0
    · rw [if_pos hrel]
      set nb := (gr.segAt segIdx).endN with hnb
      set tG := (s0.gScore cur).getD 0 + cost segIdx with htG
      have hnbstart : nb ≠ start := fun he => hyc (he ▸ hstart2)
      have hnbcur : nb ≠ cur := fun he => hyc (he ▸ hcur2)
      have hgle : ∀ v gv0, s0.gScore v = some gv0 → ∃ gv,
          (if v = nb then some tG else s0.gScore v) = some gv ∧ gv ≤ gv0 := by
        intro v gv0 h
        by_cases hv : v = nb
        · rw [if_pos hv]
          refine ⟨tG, rfl, ?_⟩
          rcases hrel with hrel | hrel
          · rw [hv] at h
            rw [h] at hrel
            cases hrel
          · rw [hv] at h
            rw [h] at hrel
            exact le_of_lt hrel
        · rw [if_neg hv]
          exact ⟨gv0, h, le_refl _⟩
      obtain ⟨nsc, ssc, hrc, hnd, htl, hpc⟩ := hmid.mChain cur gcur hmid.mCurG
      have hcons1 : nsc = cur :: nsc.tail := by
        have hh := RChain_head _ _ _ _ _ _ hrc
        cases nsc with
        | nil => cases hh
        | cons a t =>
          cases hh
          rfl
      have hnbnotin : nb ∉ nsc := by
        intro hmem
        rw [hcons1] at hmem
        rcases List.mem_cons.mp hmem with he | he
        · exact hnbcur he
        · exact hyc (htl nb he)
      have hnewchain : ∀ gv, tG = gv → ∃ ns ss,
          RChain (fun n => if n = nb then some cur else s0.cameFrom n)
            gr start nb ns ss ∧ ns.Nodup ∧
          (∀ x ∈ ns.tail, x ∈ closed2) ∧ PathCost cost ss = gv := by
        intro gv hgveq
        refine ⟨nb :: nsc, segIdx :: ssc, ?_, ?_, ?_, ?_⟩
        · refine RChain.step nb cur segIdx nsc ssc hnbstart (if_pos rfl)
            hseg rfl ?_
          exact RChain_update s0.cameFrom gr start cur nb (some cur)
            nsc ssc hrc hnbnotin
        · exact List.nodup_cons.mpr ⟨hnbnotin, hnd⟩
        · intro x hx
          rw [hcons1] at hx
          rcases List.mem_cons.mp hx with he | he
          · exact he ▸ hcur2
          · exact htl x he
        · rw [PathCost_cons, hpc, ← hgveq, htG, hmid.mCurG]
          simp [add_comm]
      refine ⟨⟨?_, ?_, ?_, ?_, ?_, ?_, ?_, ?_⟩, ?_, ?_⟩
      · exact hmid.mClosed
      · show (if start = nb then some tG else s0.gScore start) = some 0
        rw [if_neg (fun he => hnbstart he.symm)]
        exact hmid.mStartG
      · show (if cur = nb then some tG else s0.gScore cur) = some gcur
        rw [if_neg (fun he => hnbcur he.symm)]
        exact hmid.mCurG
      · intro v gv hgv
        have h3 : (if v = nb then some tG else s0.gScore v) = some gv := hgv
        by_cases hv : v = nb
        · rw [if_pos hv] at h3
          subst hv
          exact hnewchain gv (Option.some.inj h3)
        · rw [if_neg hv] at h3
          obtain ⟨nsv, ssv, hrcv, hndv, htlv, hpcv⟩ := hmid.mChain v gv h3
          have hnbnotinv : nb ∉ nsv := by
            intro hmem
            have hhv := RChain_head _ _ _ _ _ _ hrcv
            cases nsv with
            | nil => cases hhv
            | cons a t =>
              cases hhv
              rcases List.mem_cons.mp hmem with he | he
              · exact hv he.symm
              · exact hyc (htlv nb he)
          exact ⟨nsv, ssv, RChain_update s0.cameFrom gr start v nb
            (some cur) nsv ssv hrcv hnbnotinv, hndv, htlv, hpcv⟩
      · intro u hu
        obtain ⟨gu, hgu, hopt⟩ := hmid.mClosedOpt u hu
        have hune : u ≠ nb := fun he => hyc (he ▸ hu)
        refine ⟨gu, ?_, hopt⟩
        show (if u = nb then some tG else s0.gScore u) = some gu
        rw [if_neg hune]
        exact hgu
      · intro x hx hxcur gx hgx sg hsg hnyc
        have hxne : x ≠ nb := fun he => hyc (he ▸ hx)
        have hgx2 : (if x = nb then some tG else s0.gScore x) = some gx := hgx
        rw [if_neg hxne] at hgx2
        obtain ⟨gy, hgy, hgyle⟩ :=
          hmid.mClosedEdge x hx hxcur gx hgx2 sg hsg hnyc
        obtain ⟨gy2, hgy2, hgy2le⟩ := hgle _ gy hgy
        exact ⟨gy2, hgy2, le_trans hgy2le hgyle⟩
      · intro v gv hgv hvnc
        have h3 : (if v = nb then some tG else s0.gScore v) = some gv := hgv
        by_cases hv : v = nb
        · rw [if_pos hv] at h3
          subst hv
          refine ⟨⟨nb, tG + RoutingEngine.estimateHeuristic gr nb goal⟩,
            List.mem_append_right _ (List.mem_singleton.mpr rfl), rfl, ?_⟩
          exact le_of_eq (by rw [Option.some.inj h3])
        · rw [if_neg hv] at h3
          obtain ⟨e, hemem, henode, hef⟩ :=
            hmid.mOpenPresence v gv h3 hvnc
          exact ⟨e, List.mem_append_left _ hemem, henode, hef⟩
      · intro e hemem
        rcases List.mem_append.mp hemem with he | he
        · obtain ⟨ge, hge, hle⟩ := hmid.mOpenSound e he
          obtain ⟨ge2, hge2, hge2le⟩ := hgle _ ge hge
          refine ⟨ge2, hge2, ?_⟩
          have h4 := add_le_add_right hge2le
            (RoutingEngine.estimateHeuristic gr e.node goal)
          linarith
        · rcases List.mem_singleton.mp he with rfl
          refine ⟨tG, ?_, le_refl _⟩
          show (if nb = nb then some tG else s0.gScore nb) = some tG
          exact if_pos rfl
      · intro v gv0 h
        obtain ⟨gv, h5, h6⟩ := hgle v gv0 h
        exact ⟨gv, h5, h6⟩
      · intro hny
        refine ⟨tG, ?_, ?_⟩
        · show (if nb = nb then some tG else s0.gScore nb) = some tG
          exact if_pos rfl
        · exact le_of_eq htg
    · rw [if_neg hrel]
      push_neg at hrel
      refine ⟨hmid, ?_, ?_⟩
      · intro v gv0 h
        exact ⟨gv0, h, le_refl _⟩
      · intro hny
        obtain ⟨gy0, hgy0⟩ := Option.ne_none_iff_exists.mp hrel.1
        refine ⟨gy0, hgy0.symm, ?_⟩
        have h2 := hrel.2
        rw [hgy0.symm] at h2
        rw [← htg]
        exact not_lt.mp (by simpa using h2)

theorem expandFold_inv (gr : RoadGraph) (cost : ℕ → ℝ) (start goal : ℕ)
    (cur : ℕ) (gcur : ℝ) (closed2 : List ℕ)
    (hstart2 : start ∈ closed2) (hcur2 : cur ∈ closed2) :
    ∀ l : List ℕ, l ⊆ (gr.nodeAt cur).segments → ∀ s0,
      MidInv gr cost start goal cur gcur closed2 s0 →
      MidInv gr cost start goal cur gcur closed2
          (l.foldl (relaxStep gr cost goal cur closed2) s0) ∧
        (∀ v gv0, s0.gScore v = some gv0 → ∃ gv,
          (l.foldl (relaxStep gr cost goal cur closed2) s0).gScore v =
            some gv ∧ gv ≤ gv0) ∧
        (∀ sg ∈ l, (gr.segAt sg).endN ∉ closed2 → ∃ gy,
          (l.foldl (relaxStep gr cost goal cur closed2) s0).gScore
              ((gr.segAt sg).endN) = some gy ∧ gy ≤ gcur + cost sg) := by
  intro l
  induction l with
  | nil =>
    intro hsub s0 hmid
    refine ⟨hmid, fun v gv0 h => ⟨gv0, h, le_refl _⟩, ?_⟩
    intro sg hsg
    exact absurd hsg (List.not_mem_nil sg)
  | cons k rest2 ih =>
    intro hsub s0 hmid
    rw [List.foldl_cons]
    have hk : k ∈ (gr.nodeAt cur).segments := hsub (List.mem_cons_self k rest2)
    obtain ⟨hmid1, hgle1, hrel1⟩ := expandStep_inv gr cost start goal cur
      gcur closed2 hstart2 hcur2 s0 hmid k hk
    obtain ⟨hmid2, hgle2, hrel2⟩ := ih
      (fun x hx => hsub (List.mem_cons_of_mem k hx))
      (relaxStep gr cost goal cur closed2 s0 k) hmid1
    refine ⟨hmid2, ?_, ?_⟩
    · intro v gv0 h
      obtain ⟨gv1, h1, hle1⟩ := hgle1 v gv0 h
      obtain ⟨gv2, h2, hle2⟩ := hgle2 v gv1 h1
      exact ⟨gv2, h2, le_trans hle2 hle1⟩
    · intro sg hsg hny
      rcases List.mem_cons.mp hsg with rfl | hsg2
      · obtain ⟨gy1, h1, hle1⟩ := hrel1 hny
        obtain ⟨gy2, h2, hle2⟩ := hgle2 _ gy1 h1
        exact ⟨gy2, h2, le_trans hle2 hle1⟩
      · exact hrel2 sg hsg2 hny

theorem expand_assemble (gr : RoadGraph) (cost : ℕ → ℝ) (start goal : ℕ)
    (cur : ℕ) (gcur : ℝ) (rest : List NodeData) (st : AStarState)
    (hgoalne : cur ≠ goal) (hgoalopen : goal ∉ st.closed)
    (hstart2 : start ∈ st.closed ++ [cur])
    (hbase : MidInv gr cost start goal cur gcur (st.closed ++ [cur])
      { st with openSet := rest, closed := st.closed ++ [cur] }) :
    AInv gr cost start goal (astarExpand gr cost goal cur rest st) := by
  rw [astarExpand_eq]
  have hcur2 : cur ∈ st.closed ++ [cur] :=
    List.mem_append_right _ (List.mem_singleton.mpr rfl)
  obtain ⟨hmidF, hgleF, hrelF⟩ := expandFold_inv gr cost start goal cur gcur
    (st.closed ++ [cur]) hstart2 hcur2 (gr.nodeAt cur).segments
    (fun x hx => hx) _ hbase
  refine ⟨?_, ?_, hmidF.mStartG, ?_, ?_, ?_, ?_, hmidF.mOpenSound⟩
  · rw [hmidF.mClosed]
    exact hstart2
  · rw [hmidF.mClosed]
    intro hmem
    rcases List.mem_append.mp hmem with h | h
    · exact hgoalopen h
    · exact hgoalne (List.mem_singleton.mp h).symm
  · intro v gv hgv
    obtain ⟨ns, ss, h1, h2, h3, h4⟩ := hmidF.mChain v gv hgv
    refine ⟨ns, ss, h1, h2, ?_, h4⟩
    rw [hmidF.mClosed]
    exact h3
  · rw [hmidF.mClosed]
    exact hmidF.mClosedOpt
  · rw [hmidF.mClosed]
    intro x hx gx hgx sg hsg hny
    by_cases hxc : x = cur
    · subst hxc
      have hgx2 := hmidF.mCurG
      rw [hgx] at hgx2
      obtain ⟨gy, hgy, hle⟩ := hrelF sg hsg hny
      refine ⟨gy, hgy, ?_⟩
      rw [Option.some.inj hgx2]
      exact hle
    · exact hmidF.mClosedEdge x hx hxc gx hgx sg hsg hny
  · intro v gv hgv hvnc
    rw [hmidF.mClosed] at hvnc
    exact hmidF.mOpenPresence v gv hgv hvnc

theorem step_expand (gr : RoadGraph) (cost : ℕ → ℝ) (start goal : ℕ)
    (hc0 : ∀ s, 0 ≤ cost s)
    (hcons : ∀ u s, s ∈ (gr.nodeAt u).segments →
      RoutingEngine.estimateHeuristic gr u goal ≤ cost s +
        RoutingEngine.estimateHeuristic gr ((gr.segAt s).endN) goal)
    (st : AStarState) (hinv : AInv gr cost start goal st)
    (cur : NodeData) (rest : List NodeData)
    (hpop : popMin st.openSet = some (cur, rest))
    (hgoal : cur.node ≠ goal) (hnc : cur.node ∉ st.closed) :
    AInv gr cost start goal (astarExpand gr cost goal cur.node rest st) := by
  have hcurmem : cur ∈ st.openSet :=
    ((popMin_perm _ _ _ hpop).mem_iff).mpr (List.mem_cons_self _ _)
  obtain ⟨gcur, hgcur, hfle⟩ := hinv.openSound cur hcurmem
  have hpopt := pop_optimal gr cost start goal hcons st hinv cur rest hpop
    hnc gcur hgcur
  have hstart2 : start ∈ st.closed ++ [cur.node] :=
    List.mem_append_left _ hinv.startClosed
  refine expand_assemble gr cost start goal cur.node gcur rest st hgoal
    hinv.goalOpen hstart2 ⟨rfl, hinv.startG, hgcur, ?_, ?_, ?_, ?_, ?_⟩
  · intro v gv hgv
    obtain ⟨ns, ss, h1, h2, h3, h4⟩ := hinv.chainInv v gv hgv
    exact ⟨ns, ss, h1, h2,
      fun x hx => List.mem_append_left _ (h3 x hx), h4⟩
  · intro u hu
    rcases List.mem_append.mp hu with h | h
    · exact hinv.closedOpt u h
    · rcases List.mem_singleton.mp h with rfl
      exact ⟨gcur, hgcur, hpopt⟩
  · intro x hx hxcur gx hgx sg hsg hny
    have hxold : x ∈ st.closed := by
      rcases List.mem_append.mp hx with h | h
      · exact h
      · exact absurd (List.mem_singleton.mp h) hxcur
    have hny2 : (gr.segAt sg).endN ∉ st.closed :=
      fun h => hny (List.mem_append_left _ h)
    exact hinv.closedEdge x hxold gx hgx sg hsg hny2
  · intro v gv hgv hvnc
    have hvold : v ∉ st.closed := fun h => hvnc (List.mem_append_left _ h)
    have hvcur : v ≠ cur.node :=
      fun h => hvnc (h ▸ List.mem_append_right _ (List.mem_singleton.mpr rfl))
    obtain ⟨e, hemem, henode, hef⟩ := hinv.openPresence v gv hgv hvold
    have hne : e ≠ cur := by
      intro he
      rw [he] at henode
      exact hvcur henode.symm
    have hemem2 : e ∈ cur :: rest :=
      ((popMin_perm _ _ _ hpop).mem_iff).mp hemem
    rcases List.mem_cons.mp hemem2 with he | he
    · exact absurd he hne
    · exact ⟨e, he, henode, hef⟩
  · intro e he
    have hemem : e ∈ st.openSet :=
      ((popMin_perm _ _ _ hpop).mem_iff).mpr (List.mem_cons_of_mem cur he)
    exact hinv.openSound e hemem

theorem init_expand (gr : RoadGraph) (cost : ℕ → ℝ) (start goal : ℕ)
    (hc0 : ∀ s, 0 ≤ cost s) (hgoal : start ≠ goal) :
    AInv gr cost start goal
      (astarExpand gr cost goal start [] (astarInit start)) := by
  refine expand_assemble gr cost start goal start 0 [] (astarInit start)
    hgoal (by simp [astarInit]) (List.mem_append_right _
      (List.mem_singleton.mpr rfl)) ⟨rfl, ?_, ?_, ?_, ?_, ?_, ?_, ?_⟩
  · show (if start = start then some 0 else none) = some 0
    exact if_pos rfl
  · show (if start = start then some 0 else none) = some 0
    exact if_pos rfl
  · intro v gv hgv
    have h3 : (if v = start then some 0 else none) = some gv := hgv
    by_cases hv : v = start
    · rw [if_pos hv] at h3
      subst hv
      refine ⟨[v], [], ?_, List.nodup_singleton v, ?_, ?_⟩
      · exact RChain.base
      · intro x hx
        exact absurd hx (List.not_mem_nil x)
      · rw [PathCost_nil, Option.some.inj h3]
    · rw [if_neg hv] at h3
      cases h3
  · intro u hu
    have hu2 : u = start := by
      rcases List.mem_append.mp hu with h | h
      · exact absurd h (List.not_mem_nil u)
      · exact List.mem_singleton.mp h
    subst hu2
    refine ⟨0, ?_, ?_⟩
    · show (if u = u then some 0 else none) = some 0
      exact if_pos rfl
    · intro segs hch
      exact PathCost_nonneg cost hc0 segs
  · intro x hx hxcur gx hgx sg hsg hny
    have hx2 : x = start := by
      rcases List.mem_append.mp hx with h | h
      · exact absurd h (List.not_mem_nil x)
      · exact List.mem_singleton.mp h
    exact absurd hx2 hxcur
  · intro v gv hgv hvnc
    have h3 : (if v = start then some 0 else none) = some gv := hgv
    by_cases hv : v = start
    · exact absurd (hv ▸ List.mem_append_right _
        (List.mem_singleton.mpr rfl)) hvnc
    · rw [if_neg hv] at h3
      cases h3
  · intro e he
    exact absurd he (List.not_mem_nil e)

theorem astarLoop_sound (gr : RoadGraph) (cost : ℕ → ℝ) (start goal : ℕ)
    (hc0 : ∀ s, 0 ≤ cost s)
    (hcons : ∀ u s, s ∈ (gr.nodeAt u).segments →
      RoutingEngine.estimateHeuristic gr u goal ≤ cost s +
        RoutingEngine.estimateHeuristic gr ((gr.segAt s).endN) goal)
    (hne : start ≠ goal) :
    ∀ fuel st,
      Relation.ReflTransGen (AStep gr cost start goal) (astarInit start) st →
      (st = astarInit start ∨ AInv gr cost start goal st) →
      astarLoop gr cost start goal fuel st ≠ [] →
      AStarResultOk gr cost start goal
        (astarLoop gr cost start goal fuel st) := by
  intro fuel
  induction fuel with
  | zero =>
    intro st hreach hinv hne2
    exact absurd rfl hne2
  | succ n ih =>
    intro st hreach hinv hne2
    have heq : astarLoop gr cost start goal (n + 1) st =
        match popMin st.openSet with
        | none => []
        | some (cur, rest) =>
          if cur.node = goal then
            reconstructPath st.cameFrom start (st.closed.length + 2) goal
          else if cur.node ∈ st.closed then
            astarLoop gr cost start goal n { st with openSet := rest }
          else
            astarLoop gr cost start goal n
              (astarExpand gr cost goal cur.node rest st) := rfl
    rw [heq] at hne2 ⊢
    cases hpop : popMin st.openSet with
    | none =>
      rw [hpop] at hne2
      exact absurd rfl hne2
    | some pr =>
      rcases pr with ⟨cur, rest⟩
      rw [hpop] at hne2
      simp only [] at hne2 ⊢
      by_cases hg : cur.node = goal
      · rw [if_pos hg] at hne2 ⊢
        rcases hinv with hinit | hinvA
        · exfalso
          subst hinit
          have hpop2 : popMin (astarInit start).openSet =
              some (⟨start, 0⟩, []) := rfl
          rw [hpop2] at hpop
          cases hpop
          exact hne hg
        · have hcurmem : cur ∈ st.openSet :=
            ((popMin_perm _ _ _ hpop).mem_iff).mpr (List.mem_cons_self _ _)
          obtain ⟨gg, hgg0, hfg⟩ := hinvA.openSound cur hcurmem
          rw [hg] at hgg0
          obtain ⟨ns, ss, hrc, hnd, htl, hpcost⟩ :=
            hinvA.chainInv goal gg hgg0
          have hshape : ns = goal :: ns.tail := by
            have hh := RChain_head _ _ _ _ _ _ hrc
            cases ns with
            | nil => cases hh
            | cons a t =>
              cases hh
              rfl
          have hlen : ns.length ≤ st.closed.length + 2 := by
            have htn : ns.tail.Nodup := by
              rw [hshape] at hnd
              exact hnd.of_cons
            have hsl := nodup_subset_length htn (fun x hx => htl x hx)
            rw [hshape]
            simp only [List.length_cons]
            omega
          have hrecon := recon_of_RChain st.cameFrom gr start goal ns ss hrc
            (st.closed.length + 2) hlen
          have hnc : cur.node ∉ st.closed := by
            rw [hg]
            exact hinvA.goalOpen
          have hmin := pop_optimal gr cost start goal hcons st hinvA cur rest
            hpop hnc gg (by rw [hg]; exact hgg0)
          obtain ⟨hchain, hcorr⟩ := RChain_chain _ _ _ _ _ _ hrc
          rw [hrecon]
          refine ⟨?_, ?_, ?_, ss.reverse, st, cur, rest, hchain, hcorr, ?_,
            hreach, hpop, hg, hrecon.symm, ?_, ?_⟩
          · rw [List.head?_reverse]
            exact RChain_getLast _ _ _ _ _ _ hrc
          · rw [List.getLast?_reverse]
            exact RChain_head _ _ _ _ _ _ hrc
          · rw [hcorr]
            exact Chain_adj gr ss.reverse start goal hchain
          · intro ss2 hss2
            rw [PathCost_reverse, hpcost]
            exact hmin ss2 (hg.symm ▸ hss2)
          · rw [PathCost_reverse, hpcost]
            exact hgg0
          · intro e he
            exact popMin_min _ _ _ hpop e
              (((popMin_perm _ _ _ hpop).mem_iff).mpr
                (List.mem_cons_of_mem cur he))
      · rw [if_neg hg] at hne2 ⊢
        by_cases hcl : cur.node ∈ st.closed
        · rw [if_pos hcl] at hne2 ⊢
          have hinv2 : AInv gr cost start goal { st with openSet := rest } := by
            rcases hinv with hinit | hinvA
            · exfalso
              subst hinit
              have hpop2 : popMin (astarInit start).openSet =
                  some (⟨start, 0⟩, []) := rfl
              rw [hpop2] at hpop
              cases hpop
              simp [astarInit] at hcl
            · exact step_skip gr cost start goal st hinvA cur rest hpop hcl
          exact ih _ (hreach.tail (AStep.skip st cur rest hpop hg hcl))
            (Or.inr hinv2) hne2
        · rw [if_neg hcl] at hne2 ⊢
          have hinv2 : AInv gr cost start goal
              (astarExpand gr cost goal cur.node rest st) := by
            rcases hinv with hinit | hinvA
            · subst hinit
              have hpop2 : popMin (astarInit start).openSet =
                  some (⟨start, 0⟩, []) := rfl
              rw [hpop2] at hpop
              cases hpop
              exact init_expand gr cost start goal hc0 hne
            · exact step_expand gr cost start goal hc0 hcons st hinvA cur
                rest hpop hg hcl
          exact ih _ (hreach.tail (AStep.expand st cur rest hpop hg hcl))
            (Or.inr hinv2) hne2

/-- C1: for distinct nodes, a non-empty `findPath` result runs from start
to goal along outgoing segments, realizes a chain of minimal total
segment length over all directed chains, and is produced at a goal pop
whose f-score does not exceed that of any remaining open entry
(admissibility holds because every segment length is the haversine
distance of its endpoints, and the haversine distance is a metric). -/
theorem C1_astar_optimal (gr : RoadGraph) (fuel : ℕ) (start goal : ℕ)
    (hne : start ≠ goal)
    (W1 : ∀ u s, s ∈ (gr.nodeAt u).segments → (gr.segAt s).startN = u)
    (W2 : ∀ s, (gr.segAt s).length = haversineDistance
      (gr.nodeAt (gr.segAt s).startN).latitude
      (gr.nodeAt (gr.segAt s).startN).longitude
      (gr.nodeAt (gr.segAt s).endN).latitude
      (gr.nodeAt (gr.segAt s).endN).longitude)
    (hret : RoutingEngine.findPath gr fuel start goal ≠ []) :
    AStarResultOk gr (fun s => (gr.segAt s).length) start goal
      (RoutingEngine.findPath gr fuel start goal) := by
  have hc0 : ∀ s, 0 ≤ (gr.segAt s).length := by
    intro s
    rw [W2 s]
    exact haversineDistance_nonneg _ _ _ _
  have hcons : ∀ u s, s ∈ (gr.nodeAt u).segments →
      RoutingEngine.estimateHeuristic gr u goal ≤ (gr.segAt s).length +
        RoutingEngine.estimateHeuristic gr ((gr.segAt s).endN) goal := by
    intro u s hs
    unfold RoutingEngine.estimateHeuristic
    rw [W2 s, W1 u s hs]
    exact haversineDistance_triangle _ _ _ _ _ _
  have heq : RoutingEngine.findPath gr fuel start goal =
      astarLoop gr (fun s => (gr.segAt s).length) start goal fuel
        (astarInit start) := by
    unfold RoutingEngine.findPath
    rw [if_neg hne]
  rw [heq] at hret ⊢
  exact astarLoop_sound gr _ start goal hc0 hcons hne fuel (astarInit start)
    Relation.ReflTransGen.refl (Or.inl rfl) hret

theorem relaxStep_relax (gr : RoadGraph) (cost : ℕ → ℝ) (goal cur : ℕ)
    (closed2 : List ℕ) (s : AStarState) (segIdx : ℕ)
    (h1 : (gr.segAt segIdx).endN ∉ closed2)
    (h2 : s.gScore ((gr.segAt segIdx).endN) = none ∨
      (s.gScore cur).getD 0 + cost segIdx <
        (s.gScore ((gr.segAt segIdx).endN)).getD 0) :
    relaxStep gr cost goal cur closed2 s segIdx =
      { s with
        openSet := s.openSet ++
          [⟨(gr.segAt segIdx).endN,
            (s.gScore cur).getD 0 + cost segIdx +
              RoutingEngine.estimateHeuristic gr ((gr.segAt segIdx).endN)
                goal⟩]
        gScore := fun n => if n = (gr.segAt segIdx).endN then
            some ((s.gScore cur).getD 0 + cost segIdx)
          else s.gScore n
        cameFrom := fun n => if n = (gr.segAt segIdx).endN then some cur
          else s.cameFrom n } := by
  unfold relaxStep
  rw [if_neg h1, if_pos h2]

theorem c1graph_W1 : ∀ u s, s ∈ (c1graph.nodeAt u).segments →
    (c1graph.segAt s).startN = u := by
  intro u s hs
  rcases u with _ | _ | u
  · have hs0 : s = 0 := by
      simpa [c1graph, RoadGraph.nodeAt] using hs
    subst hs0
    rfl
  · simp [c1graph, RoadGraph.nodeAt] at hs
  · have hs2 : s ∈ ([] : List ℕ) := hs
    exact absurd hs2 (List.not_mem_nil s)

theorem c1graph_W2 : ∀ s, (c1graph.segAt s).length = haversineDistance
    (c1graph.nodeAt (c1graph.segAt s).startN).latitude
    (c1graph.nodeAt (c1graph.segAt s).startN).longitude
    (c1graph.nodeAt (c1graph.segAt s).endN).latitude
    (c1graph.nodeAt (c1graph.segAt s).endN).longitude := by
  intro s
  rcases s with _ | s
  · rfl
  · show (0 : ℝ) = haversineDistance 0 0 0 0
    exact (haversineDistance_self 0 0).symm

theorem c1graph_findPath : RoutingEngine.findPath c1graph 3 0 1 = [0, 1] := by
  show astarLoop c1graph (fun s => (c1graph.segAt s).length) 0 1 2
    (relaxStep c1graph (fun s => (c1graph.segAt s).length) 1 0 [0]
      { astarInit 0 with openSet := [], closed := [0] } 0) = [0, 1]
  rw [relaxStep_relax c1graph (fun s => (c1graph.segAt s).length) 1 0 [0]
    { astarInit 0 with openSet := [], closed := [0] } 0 (by decide)
    (Or.inl rfl)]
  rfl

/-- Witness for C1 on the two-node graph: the returned path is `[0, 1]`
and satisfies the full result specification. -/
theorem C1_astar_optimal_witness :
    ((0 : ℕ) ≠ 1) ∧
      (∀ u s, s ∈ (c1graph.nodeAt u).segments →
        (c1graph.segAt s).startN = u) ∧
      (∀ s, (c1graph.segAt s).length = haversineDistance
        (c1graph.nodeAt (c1graph.segAt s).startN).latitude
        (c1graph.nodeAt (c1graph.segAt s).startN).longitude
        (c1graph.nodeAt (c1graph.segAt s).endN).latitude
        (c1graph.nodeAt (c1graph.segAt s).endN).longitude) ∧
      RoutingEngine.findPath c1graph 3 0 1 ≠ [] ∧
      AStarResultOk c1graph (fun s => (c1graph.segAt s).length) 0 1
        (RoutingEngine.findPath c1graph 3 0 1) := by
  have hret : RoutingEngine.findPath c1graph 3 0 1 ≠ [] := by
    rw [c1graph_findPath]
    simp
  exact ⟨by decide, c1graph_W1, c1graph_W2, hret,
    C1_astar_optimal c1graph 3 0 1 (by decide) c1graph_W1 c1graph_W2 hret⟩

end Nav
